import Mathlib

/-!
E015 protocol handler (`src/protocol/e015_nrf24l01.c`)

A shallow embedding of the E015 radio protocol handler and of the HS6200
link-layer emulation it carries, followed by the properties proved about it.

Conventions of the embedding.

* C arrays and pointers to bytes are index maps `Nat → Nat`: `a i` is `a[i]`.
  A pointer into the middle of an array is the shifted map.
* `u8`/`u16` values are naturals; every store of a computed `int` expression
  into a `u8`/`u16` object carries its truncation `% 256` / `% 65536`.
  Plain copies of a byte to a byte carry none.
* `s32` arithmetic is done in `Int` (signed overflow is undefined in C and
  does not occur for the byte-sized operands used here); C division is
  `Int.tdiv`.
* The file-scope statics, together with the function-local static `pid`, are
  the fields of `State`. Calls that leave the file (transceiver driver, bind
  status, timer) are appended to `State.trace`; so is every entry into
  `HS6200_WritePayload`, the boundary between packet encoder and link layer.
* Loops are structural recursions on a fuel argument that is supplied with a
  value no smaller than the number of iterations.
* For memory safety `HS6200_WritePayload` is embedded a second time with every
  array access going through `rd`/`wr`, which fail outside the array; the
  `_checked` functions follow the unchecked ones statement by statement.
-/

namespace E015

/-! ## Constants of the file -/

/-- Source: `BIND_COUNT`: 4 under `EMULATOR`, 150 otherwise. -/
def BIND_COUNT (emulator : Bool) : Nat := if emulator then 4 else 150

/-- Source: `USE_FIXED_MFGID` is defined exactly under `EMULATOR`. -/
def USE_FIXED_MFGID (emulator : Bool) : Bool := emulator

def PACKET_PERIOD : Nat := 4500
def INITIAL_WAIT : Nat := 500
def RF_CHANNEL : Nat := 0x2d
def ADDRESS_LENGTH : Nat := 5
def PACKET_SIZE : Nat := 10

/-- Source: `static const u8 bind_address[ADDRESS_LENGTH]`. -/
def bind_address : Nat → Nat
  | 0 => 0x62
  | 1 => 0x54
  | 2 => 0x79
  | 3 => 0x38
  | 4 => 0x53
  | _ => 0

/-- Source: `enum { BIND, DATA }`. -/
def BIND : Nat := 0
def DATA : Nat := 1

def CHANNEL1 : Nat := 0
def CHANNEL2 : Nat := 1
def CHANNEL3 : Nat := 2
def CHANNEL4 : Nat := 3
def CHANNEL5 : Nat := 4
def CHANNEL6 : Nat := 5
def CHANNEL7 : Nat := 6
def CHANNEL8 : Nat := 7
def CHANNEL9 : Nat := 8
def CHANNEL10 : Nat := 9

def CHANNEL_ARM : Nat := CHANNEL5
def CHANNEL_LED : Nat := CHANNEL6
def CHANNEL_FLIP : Nat := CHANNEL7
def CHANNEL_HEADLESS : Nat := CHANNEL9
def CHANNEL_RTH : Nat := CHANNEL10

def FLAG_DISARM : Nat := 0x80
def FLAG_ARM : Nat := 0x40

def FLAG_FLIP : Nat := 0x80
def FLAG_HEADLESS : Nat := 0x10
def FLAG_RTH : Nat := 0x08
def FLAG_LED : Nat := 0x04
def FLAG_EXPERT : Nat := 0x02
def FLAG_INTERMEDIATE : Nat := 0x01

/-- Source: `#define BV(bit) (1 << bit)`. -/
def BV (bit : Nat) : Nat := 1 <<< bit

def crc_poly : Nat := 0x1021

/-- Source: `static const u8 hs6200_scramble[]`; `sizeof` is its length. -/
def hs6200_scramble : List Nat :=
  [0x80, 0xf5, 0x3b, 0x0d, 0x6d, 0x2a, 0xf9, 0xbc,
   0x51, 0x8e, 0x4c, 0xfd, 0xc1, 0x65, 0xd0]

/-! ## Constants the file takes from the platform headers -/

/-- Values of macros that this file uses and the platform headers define
(`mixer.h`, `iface_nrf24l01.h`). They are parameters of the embedding. -/
structure Platform where
  /-- Source: `CHAN_MAX_VALUE` of `mixer.h`. -/
  CHAN_MAX_VALUE : Int
  /-- Source: `CHAN_MIN_VALUE` of `mixer.h`. -/
  CHAN_MIN_VALUE : Int
  /-- Source: `NRF24L01_00_EN_CRC`, a bit number of the CONFIG register. -/
  EN_CRC : Nat
  /-- Source: `NRF24L01_00_CRCO`, a bit number of the CONFIG register. -/
  CRCO : Nat
  /-- Source: `NRF24L01_00_PWR_UP`, a bit number of the CONFIG register. -/
  PWR_UP : Nat
  /-- Source: `sizeof(Model.fixed_id)`. -/
  sizeof_fixed_id : Nat

/-- Source: `#define CHAN_RANGE (CHAN_MAX_VALUE - CHAN_MIN_VALUE)`. -/
def CHAN_RANGE (pf : Platform) : Int := pf.CHAN_MAX_VALUE - pf.CHAN_MIN_VALUE

/-! ## Registers, events, state -/

/-- The transceiver registers the file names. `raw n` is a register given by
number (the bank-1 registers of the BK2421 table). -/
inductive Reg where
  | CONFIG
  | EN_AA
  | SETUP_AW
  | SETUP_RETR
  | RF_CH
  | STATUS
  | TX_ADDR
  | DYNPD
  | FEATURE
  | raw (n : Nat)
  deriving DecidableEq, Repr

/-- One call that leaves the protocol file, or one entry into the link layer. -/
inductive Event where
  | NRF24L01_Initialize
  | NRF24L01_SetTxRxMode_TX_EN
  | NRF24L01_FlushTx
  | NRF24L01_FlushRx
  | NRF24L01_WriteReg (reg : Reg) (val : Nat)
  | NRF24L01_WriteRegisterMulti (reg : Reg) (data : List Nat)
  | NRF24L01_ReadReg (reg : Reg)
  | NRF24L01_SetBitrate_1M
  | NRF24L01_SetPower (power : Nat)
  | NRF24L01_Activate (code : Nat)
  | NRF24L01_WritePayload (data : List Nat)
  | PROTOCOL_SetBindState (msec : Nat)
  | CLOCK_StopTimer
  | CLOCK_StartTimer (wait : Nat)
  /-- Entry into `HS6200_WritePayload(msg, len)`: the bytes `msg[0..len-1]`
  and `len`, as passed. -/
  | HS6200_WritePayload (msg : List Nat) (len : Nat)
  deriving DecidableEq, Repr

/-- The statics of the file. -/
structure State where
  tx_addr : Nat → Nat
  packet : Nat → Nat
  phase : Nat
  bind_counter : Nat
  tx_power : Nat
  armed : Nat
  arm_flags : Nat
  arm_channel_previous : Nat
  hs6200_crc : Nat
  hs6200_crc_init : Nat
  hs6200_tx_addr : Nat → Nat
  hs6200_address_length : Nat
  /-- Source: `static u8 pid` of `HS6200_WritePayload`. -/
  pid : Nat
  trace : List Event

/-- What one tick reads from outside the file. -/
structure Inputs where
  /-- Source: `Channels[]` of the mixer. -/
  Channels : Nat → Int
  /-- Source: `Model.tx_power`. -/
  Model_tx_power : Nat
  /-- Contents of the uninitialised `payload[32]` at the first
  `HS6200_WritePayload` of the tick. -/
  stack1 : Nat → Nat
  /-- Contents of the uninitialised `payload[32]` at the second one. -/
  stack2 : Nat → Nat

/-- Source: `a[i] = v`. -/
def upd (a : Nat → Nat) (i v : Nat) : Nat → Nat :=
  fun j => if j = i then v else a j

/-- The bytes `a[0..n-1]`. -/
def bytes (a : Nat → Nat) (n : Nat) : List Nat := (List.range n).map a

def emit (s : State) (e : Event) : State := { s with trace := s.trace ++ [e] }

/-! ## HS6200 emulation layer -/

/-- The body of `while(bits--)` in `crc_update`. -/
def crc_shift (crc : Nat) : Nat :=
  if crc &&& 0x8000 = 0x8000 then ((crc <<< 1) ^^^ crc_poly) % 65536
  else (crc <<< 1) % 65536

/-- Source: `while(bits--) ...` of `crc_update`. -/
def crc_update_loop : Nat → Nat → Nat
  | 0, crc => crc
  | bits + 1, crc => crc_update_loop bits (crc_shift crc)

/-- Source: `static u16 crc_update(u16 crc, u8 byte, u8 bits)`. -/
def crc_update (crc byte bits : Nat) : Nat :=
  crc_update_loop bits ((crc ^^^ (byte <<< 8)) % 65536)

/-- Source: `for(int i=0; i<len; i++) hs6200_crc_init = crc_update(hs6200_crc_init, addr[len-1-i], 8);` -/
def SetTXAddr_loop (addr : Nat → Nat) (len : Nat) : Nat → Nat → Nat → Nat
  | 0, _, crc => crc
  | fuel + 1, i, crc =>
    if i < len then SetTXAddr_loop addr len fuel (i + 1) (crc_update crc (addr (len - 1 - i)) 8)
    else crc

/-- Source: `memcpy(dst, src, n)`. -/
def memcpy (dst src : Nat → Nat) (n : Nat) : Nat → Nat :=
  fun j => if j < n then src j else dst j

/-- Source: `static void HS6200_SetTXAddr(const u8* addr, u8 len)`. -/
def HS6200_SetTXAddr (addr : Nat → Nat) (len : Nat) (s : State) : State :=
  let len := if len < 4 then 4 else if len > 5 then 5 else len
  let s :=
    if addr (len - 1) &&& 0x80 ≠ 0 then
      emit s (.NRF24L01_WriteRegisterMulti .TX_ADDR [0x55, 0x55, 0x55, 0x55, 0x55])
    else
      emit s (.NRF24L01_WriteRegisterMulti .TX_ADDR [0xaa, 0xaa, 0xaa, 0xaa, 0xaa])
  { s with
    hs6200_crc_init := SetTXAddr_loop addr len len 0 0xffff
    hs6200_tx_addr := memcpy s.hs6200_tx_addr addr len
    hs6200_address_length := len }

/-- Source: `for(pos=0; pos < len-1; pos++) crc = crc_update(crc, msg[pos], 8);`
returning the final `(pos, crc)`. The comparison is done in `int`. -/
def calc_crc_loop (msg : Nat → Nat) (len : Nat) : Nat → Nat → Nat → Nat × Nat
  | 0, pos, crc => (pos, crc)
  | fuel + 1, pos, crc =>
    if (pos : Int) < (len : Int) - 1 then
      calc_crc_loop msg len fuel (pos + 1) (crc_update crc (msg pos) 8)
    else (pos, crc)

/-- Source: `static u16 hs6200_calc_crc(u8* msg, u8 len)`, reading the seed
`hs6200_crc_init`. -/
def hs6200_calc_crc (hs6200_crc_init : Nat) (msg : Nat → Nat) (len : Nat) : Nat :=
  let r := calc_crc_loop msg len len 0 hs6200_crc_init
  let pos := r.1
  let crc := r.2
  if len > 0 then crc_update crc (msg (pos + 1)) 1 else crc

/-- Source: `static void HS6200_Configure(u8 flags)`. -/
def HS6200_Configure (pf : Platform) (flags : Nat) (s : State) : State :=
  let hs6200_crc := if flags &&& BV pf.EN_CRC ≠ 0 then 1 else 0
  let flags := flags &&& (0xff ^^^ ((BV pf.EN_CRC ||| BV pf.CRCO) % 256))
  emit { s with hs6200_crc := hs6200_crc } (.NRF24L01_WriteReg .CONFIG (flags &&& 0xff))

/-- Source: `for(int i=hs6200_address_length-1; i>=0; i--) payload[pos++] = hs6200_tx_addr[i];`
The first argument is `i + 1`. -/
def WritePayload_addr (a : Nat → Nat) : Nat → (Nat → Nat) × Nat → (Nat → Nat) × Nat
  | 0, st => st
  | i + 1, st => WritePayload_addr a i (upd st.1 st.2 (a i), st.2 + 1)

/-- Source: `for(u8 i=1; i<len; i++) payload[pos++] = ((msg[i-1] ^ hs6200_scramble[i-1]) << 7) | ((msg[i] ^ hs6200_scramble[i]) >> 1);` -/
def WritePayload_scramble (msg : Nat → Nat) (len : Nat) :
    Nat → Nat → (Nat → Nat) × Nat → (Nat → Nat) × Nat
  | 0, _, st => st
  | fuel + 1, i, st =>
    if i < len then
      WritePayload_scramble msg len fuel (i + 1)
        (upd st.1 st.2
          ((((msg (i - 1) ^^^ hs6200_scramble.getD (i - 1) 0) <<< 7)
            ||| ((msg i ^^^ hs6200_scramble.getD i 0) >>> 1)) % 256),
         st.2 + 1)
    else st

/-- The sections `// address`, `// guard bytes` and `// packet control field`
of `HS6200_WritePayload`: `payload[]` and `pos` after them. `len` is the
length already clamped; `stack` is what `payload[]` holds on entry. -/
def WritePayload_header (hs6200_tx_addr : Nat → Nat) (hs6200_address_length pid : Nat)
    (stack : Nat → Nat) (len : Nat) : (Nat → Nat) × Nat :=
  let no_ack := 1
  -- address
  let st := WritePayload_addr hs6200_tx_addr hs6200_address_length (stack, 0)
  -- guard bytes
  let st := (upd st.1 st.2 (hs6200_tx_addr 0), st.2 + 1)
  let st := (upd st.1 st.2 (hs6200_tx_addr 0), st.2 + 1)
  -- packet control field
  let st := (upd st.1 st.2 ((((len &&& 0x3f) <<< 2) ||| (pid &&& 0x03)) % 256), st.2 + 1)
  (upd st.1 st.2 (((no_ack &&& 0x01) <<< 7) % 256), st.2)

/-- The section `// scrambled payload` of `HS6200_WritePayload`. -/
def WritePayload_body (msg : Nat → Nat) (len : Nat) (st : (Nat → Nat) × Nat) :
    (Nat → Nat) × Nat :=
  if len > 0 then
    let st := (upd st.1 st.2
      ((st.1 st.2 ||| ((msg 0 ^^^ hs6200_scramble.getD 0 0) >>> 1)) % 256), st.2 + 1)
    let st := WritePayload_scramble msg len len 1 st
    (upd st.1 st.2
      (((msg (len - 1) ^^^ hs6200_scramble.getD (len - 1) 0) <<< 7) % 256), st.2)
  else st

/-- The section `// crc` of `HS6200_WritePayload`. -/
def WritePayload_crc (hs6200_address_length hs6200_crc hs6200_crc_init : Nat) (len : Nat)
    (st : (Nat → Nat) × Nat) : (Nat → Nat) × Nat :=
  if hs6200_crc ≠ 0 then
    let crc := hs6200_calc_crc hs6200_crc_init
      (fun i => st.1 (hs6200_address_length + 2 + i)) (len + 2)
    let hcrc := (crc >>> 8) % 256
    let lcrc := (crc &&& 0xff) % 256
    let st := (upd st.1 st.2 ((st.1 st.2 ||| (hcrc >>> 1)) % 256), st.2 + 1)
    let st := (upd st.1 st.2 (((hcrc <<< 7) ||| (lcrc >>> 1)) % 256), st.2 + 1)
    (upd st.1 st.2 ((lcrc <<< 7) % 256), st.2 + 1)
  else st

/-- The body of `HS6200_WritePayload` up to the driver call: the final
contents of `payload[]` and the final `pos`. The statics the body reads are
the first five arguments; `stack` is what `payload[]` holds on entry. -/
def HS6200_WritePayload_buf (hs6200_tx_addr : Nat → Nat)
    (hs6200_address_length pid hs6200_crc hs6200_crc_init : Nat)
    (stack : Nat → Nat) (msg : Nat → Nat) (len : Nat) : (Nat → Nat) × Nat :=
  let len := if len > hs6200_scramble.length then hs6200_scramble.length else len
  let st := WritePayload_header hs6200_tx_addr hs6200_address_length pid stack len
  let st := WritePayload_body msg len st
  WritePayload_crc hs6200_address_length hs6200_crc hs6200_crc_init len st

/-- Source: `static u8 HS6200_WritePayload(u8* msg, u8 len)`: the buffer is
built, `pid` is incremented, and `payload[0..pos-1]` goes to the driver. -/
def HS6200_WritePayload (stack : Nat → Nat) (msg : Nat → Nat) (len : Nat) (s : State) : State :=
  let s := emit s (.HS6200_WritePayload (bytes msg len) len)
  let r := HS6200_WritePayload_buf s.hs6200_tx_addr s.hs6200_address_length s.pid
    s.hs6200_crc s.hs6200_crc_init stack msg len
  emit { s with pid := (s.pid + 1) % 256 } (.NRF24L01_WritePayload (bytes r.1 r.2))

/-! ## Hardware bring-up -/

/-- Source: `static void e015_init()`. `status` is the value the driver returns for
the one `NRF24L01_ReadReg(NRF24L01_07_STATUS)`. -/
def e015_init (status : Nat) (s : State) : State :=
  let s := emit s .NRF24L01_Initialize
  let s := emit s .NRF24L01_SetTxRxMode_TX_EN
  let s := HS6200_SetTXAddr bind_address ADDRESS_LENGTH s
  let s := emit s .NRF24L01_FlushTx
  let s := emit s .NRF24L01_FlushRx
  let s := emit s (.NRF24L01_WriteReg .STATUS 0x70)
  let s := emit s (.NRF24L01_WriteReg .EN_AA 0x00)
  let s := emit s (.NRF24L01_WriteReg .SETUP_AW 0x03)
  let s := emit s (.NRF24L01_WriteReg .SETUP_RETR 0x00)
  let s := emit s .NRF24L01_SetBitrate_1M
  let s := emit s (.NRF24L01_SetPower s.tx_power)
  let s := emit s (.NRF24L01_WriteReg .RF_CH RF_CHANNEL)
  let s := emit s (.NRF24L01_Activate 0x73)
  let s := emit s (.NRF24L01_WriteReg .DYNPD 0x00)
  let s := emit s (.NRF24L01_WriteReg .FEATURE 0x01)
  let s := emit s (.NRF24L01_Activate 0x73)
  let s := emit s (.NRF24L01_Activate 0x53)
  let s := emit s (.NRF24L01_ReadReg .STATUS)
  let s :=
    if status &&& 0x80 ≠ 0 then
      let s := emit s (.NRF24L01_WriteRegisterMulti (.raw 0x00) [0x40, 0x4B, 0x01, 0xE2])
      let s := emit s (.NRF24L01_WriteRegisterMulti (.raw 0x01) [0xC0, 0x4B, 0x00, 0x00])
      let s := emit s (.NRF24L01_WriteRegisterMulti (.raw 0x02) [0xD0, 0xFC, 0x8C, 0x02])
      let s := emit s (.NRF24L01_WriteRegisterMulti (.raw 0x03) [0x99, 0x00, 0x39, 0x21])
      let s := emit s (.NRF24L01_WriteRegisterMulti (.raw 0x04) [0xD9, 0x96, 0x82, 0x1B])
      let s := emit s (.NRF24L01_WriteRegisterMulti (.raw 0x05) [0x24, 0x06, 0x7F, 0xA6])
      let s := emit s (.NRF24L01_WriteRegisterMulti (.raw 0x0C) [0x00, 0x12, 0x73, 0x00])
      let s := emit s (.NRF24L01_WriteRegisterMulti (.raw 0x0D) [0x46, 0xB4, 0x80, 0x00])
      let s := emit s (.NRF24L01_WriteRegisterMulti (.raw 0x04) [0xDF, 0x96, 0x82, 0x1B])
      emit s (.NRF24L01_WriteRegisterMulti (.raw 0x04) [0xD9, 0x96, 0x82, 0x1B])
    else s
  emit s (.NRF24L01_Activate 0x53)

/-! ## Packet encoder -/

/-- The `s32` value of the `return` expression of `scale_channel`, before its
conversion to `u8`. -/
def scale_channel_s32 (pf : Platform) (Channels : Nat → Int) (ch destMin destMax : Nat) : Int :=
  let chanval := Channels ch
  let range : Int := (destMax : Int) - (destMin : Int)
  let chanval :=
    if chanval < pf.CHAN_MIN_VALUE then pf.CHAN_MIN_VALUE
    else if chanval > pf.CHAN_MAX_VALUE then pf.CHAN_MAX_VALUE
    else chanval
  (range * (chanval - pf.CHAN_MIN_VALUE)).tdiv (CHAN_RANGE pf) + (destMin : Int)

/-- Source: `static u8 scale_channel(u8 ch, u8 destMin, u8 destMax)`. -/
def scale_channel (pf : Platform) (Channels : Nat → Int) (ch destMin destMax : Nat) : Nat :=
  (scale_channel_s32 pf Channels ch destMin destMax % 256).toNat

/-- Source: `static void check_arming(s32 channel_value)`. -/
def check_arming (channel_value : Int) (s : State) : State :=
  let arm_channel : Nat := if channel_value > 0 then 1 else 0
  if arm_channel ≠ s.arm_channel_previous then
    let s := { s with arm_channel_previous := arm_channel }
    if arm_channel ≠ 0 then
      { s with armed := 1, arm_flags := s.arm_flags ^^^ FLAG_ARM }
    else
      { s with armed := 0, arm_flags := s.arm_flags ^^^ FLAG_DISARM }
  else s

/-- Source: `#define GET_FLAG(ch, mask) (Channels[ch] > 0 ? mask : 0)`. -/
def GET_FLAG (Channels : Nat → Int) (ch mask : Nat) : Nat :=
  if Channels ch > 0 then mask else 0

/-- Source: `for(u8 i=...; i<hi; i++) packet[dst] += packet[i];` -/
def checksum_loop (dst hi : Nat) : Nat → Nat → (Nat → Nat) → (Nat → Nat)
  | 0, _, packet => packet
  | fuel + 1, i, packet =>
    if i < hi then checksum_loop dst hi fuel (i + 1) (upd packet dst ((packet dst + packet i) % 256))
    else packet

/-- The `if(bind) ... else ...` block of `send_packet`, which fills `packet[]`. -/
def send_packet_build (pf : Platform) (inp : Inputs) (bind : Nat) (s : State) : State :=
  if bind ≠ 0 then
    let p := s.packet
    let p := upd p 0 0x18
    let p := upd p 1 0x04
    let p := upd p 2 0x06
    -- data phase address
    let p := upd p 3 (s.tx_addr 0)
    let p := upd p 4 (s.tx_addr 1)
    let p := upd p 5 (s.tx_addr 2)
    let p := upd p 6 (s.tx_addr 3)
    let p := upd p 7 (s.tx_addr 4)
    -- checksum
    let p := upd p 8 (p 3)
    let p := checksum_loop 8 8 8 4 p
    { s with packet := p }
  else
    let s := check_arming (inp.Channels CHANNEL_ARM) s
    let p := s.packet
    let p := upd p 0 (scale_channel pf inp.Channels CHANNEL3 0 225)
    let p := upd p 1 (scale_channel pf inp.Channels CHANNEL4 225 0)
    let p := upd p 2 (scale_channel pf inp.Channels CHANNEL1 0 225)
    let p := upd p 3 (scale_channel pf inp.Channels CHANNEL2 225 0)
    let p := upd p 4 0x20
    let p := upd p 5 0x20
    let p := upd p 6 s.arm_flags
    let p := upd p 7
      ((FLAG_EXPERT
        ||| GET_FLAG inp.Channels CHANNEL_FLIP FLAG_FLIP
        ||| GET_FLAG inp.Channels CHANNEL_LED FLAG_LED
        ||| GET_FLAG inp.Channels CHANNEL_HEADLESS FLAG_HEADLESS
        ||| GET_FLAG inp.Channels CHANNEL_RTH FLAG_RTH) % 256)
    let p := upd p 8 0
    -- checksum
    let p := upd p 9 (p 0)
    let p := checksum_loop 9 9 9 1 p
    { s with packet := p }

/-- Source: `static void send_packet(u8 bind)`. -/
def send_packet (pf : Platform) (inp : Inputs) (bind : Nat) (s : State) : State :=
  let s := send_packet_build pf inp bind s
  -- Power on, TX mode, CRC enabled
  let s := HS6200_Configure pf ((BV pf.EN_CRC ||| BV pf.CRCO ||| BV pf.PWR_UP) % 256) s
  let s := emit s (.NRF24L01_WriteReg .STATUS 0x70)
  let s := emit s .NRF24L01_FlushTx
  let s := HS6200_WritePayload inp.stack1 s.packet (if bind ≠ 0 then 9 else PACKET_SIZE) s
  let s := HS6200_WritePayload inp.stack2 s.packet (if bind ≠ 0 then 9 else PACKET_SIZE) s
  if s.tx_power ≠ inp.Model_tx_power then
    let s := { s with tx_power := inp.Model_tx_power }
    emit s (.NRF24L01_SetPower s.tx_power)
  else s

/-! ## Phase state machine -/

/-- Source: `static u16 e015_callback()`: the state after the tick. The value
returned to the scheduler is `PACKET_PERIOD` on every path. -/
def e015_callback (pf : Platform) (inp : Inputs) (s : State) : State :=
  if s.phase = BIND then
    if s.bind_counter = 0 then
      let s := HS6200_SetTXAddr s.tx_addr 5 s
      let s := { s with phase := DATA }
      emit s (.PROTOCOL_SetBindState 0)
    else
      let s := send_packet pf inp 1 s
      { s with bind_counter := (s.bind_counter + 65535) % 65536 }
  else if s.phase = DATA then
    send_packet pf inp 0 s
  else s

/-- The state after the ticks fed with the given inputs, oldest first. -/
def run (pf : Platform) (s : State) (inps : List Inputs) : State :=
  inps.foldl (fun st inp => e015_callback pf inp st) s

/-! ## Session initialisation -/

/-- What `initialize()` reads from outside the file. -/
structure InitInputs where
  /-- Source: `Channels[]` of the mixer. -/
  Channels : Nat → Int
  /-- Source: `Model.tx_power`. -/
  Model_tx_power : Nat
  /-- Source: `Model.fixed_id`. -/
  Model_fixed_id : Nat
  /-- The 12 bytes `MCU_SerialNumber` delivers. -/
  serial : Nat → Nat
  /-- Source: `rand32_r(&lfsr, update)` of the platform: the new value of `lfsr`. -/
  rand32_r : Nat → Nat → Nat
  /-- The value read from the STATUS register in `e015_init`. -/
  status : Nat

/-- Source: `static void initialize_txid()`. -/
def initialize_txid (pf : Platform) (emulator : Bool) (ini : InitInputs) (s : State) : State :=
  let lfsr : Nat := 0xb2c54a2f
  let lfsr :=
    if USE_FIXED_MFGID emulator then lfsr
    else (List.range 12).foldl (fun l i => ini.rand32_r l (ini.serial i)) lfsr
  let lfsr :=
    if ini.Model_fixed_id ≠ 0 then
      (List.range pf.sizeof_fixed_id).foldl
        (fun l i => ini.rand32_r l ((ini.Model_fixed_id >>> ((8 * i) % 256)) &&& 0xff)) lfsr
    else lfsr
  -- Pump zero bytes for LFSR to diverge more
  let lfsr := (List.range 4).foldl (fun l _ => ini.rand32_r l 0) lfsr
  -- tx address
  let a := s.tx_addr
  let a := upd a 0 ((lfsr >>> (0 * 8)) &&& 0xff)
  let a := upd a 1 ((lfsr >>> (1 * 8)) &&& 0xff)
  let a := upd a 2 ((lfsr >>> (2 * 8)) &&& 0xff)
  let a := upd a 3 ((lfsr >>> (3 * 8)) &&& 0xff)
  let lfsr := ini.rand32_r lfsr 0
  { s with tx_addr := upd a 4 (lfsr &&& 0xff) }

/-- Source: `static void initialize()`. -/
def initialize_e015 (pf : Platform) (emulator : Bool) (ini : InitInputs) (s : State) : State :=
  let s := emit s .CLOCK_StopTimer
  let s := { s with tx_power := ini.Model_tx_power }
  let s := initialize_txid pf emulator ini s
  let s := e015_init ini.status s
  let s := { s with bind_counter := BIND_COUNT emulator % 65536, phase := BIND }
  let s := emit s (.PROTOCOL_SetBindState (BIND_COUNT emulator * PACKET_PERIOD / 1000))
  let s := { s with armed := 0, arm_flags := 0 }
  let s := { s with arm_channel_previous := if ini.Channels CHANNEL_ARM > 0 then 1 else 0 }
  emit s (.CLOCK_StartTimer INITIAL_WAIT)

/-! ## Reading the trace -/

/-- The entries into the link layer recorded in a trace: `(msg[0..len-1], len)`. -/
def linkCalls : List Event → List (List Nat × Nat)
  | [] => []
  | .HS6200_WritePayload msg len :: es => (msg, len) :: linkCalls es
  | _ :: es => linkCalls es

/-- The byte sequences submitted to `NRF24L01_WritePayload` recorded in a trace. -/
def payloads : List Event → List (List Nat)
  | [] => []
  | .NRF24L01_WritePayload data :: es => data :: payloads es
  | _ :: es => payloads es

/-- The values passed to `PROTOCOL_SetBindState` recorded in a trace. -/
def bindStates : List Event → List Nat
  | [] => []
  | .PROTOCOL_SetBindState v :: es => v :: bindStates es
  | _ :: es => bindStates es

/-- The value `hs6200_crc` takes in `send_packet`. -/
def crc_flag (pf : Platform) : Nat :=
  if ((BV pf.EN_CRC ||| BV pf.CRCO ||| BV pf.PWR_UP) % 256) &&& BV pf.EN_CRC ≠ 0 then 1 else 0

/-- The value `send_packet` writes to the CONFIG register. -/
def config_value (pf : Platform) : Nat :=
  (((BV pf.EN_CRC ||| BV pf.CRCO ||| BV pf.PWR_UP) % 256) &&&
    (0xff ^^^ ((BV pf.EN_CRC ||| BV pf.CRCO) % 256))) &&& 0xff

/-- The bytes `HS6200_WritePayload` submits to the driver: `payload[0..pos-1]`. -/
def frame (hs6200_tx_addr : Nat → Nat)
    (hs6200_address_length pid hs6200_crc hs6200_crc_init : Nat)
    (stack : Nat → Nat) (msg : Nat → Nat) (len : Nat) : List Nat :=
  bytes
    (HS6200_WritePayload_buf hs6200_tx_addr hs6200_address_length pid hs6200_crc
      hs6200_crc_init stack msg len).1
    (HS6200_WritePayload_buf hs6200_tx_addr hs6200_address_length pid hs6200_crc
      hs6200_crc_init stack msg len).2

/-- The values of `(armed, arm_flags)` after each of the given samples of the
arm channel is passed to `check_arming`, oldest first. -/
def arm_history : State → List Int → List (Nat × Nat)
  | _, [] => []
  | s, v :: vs => ((check_arming v s).armed, (check_arming v s).arm_flags)
      :: arm_history (check_arming v s) vs

/-- The CRC as the specification words it: from the seed, `msg[0..len-2]` are
folded for 8 bits each and the final byte `msg[len-1]` for 1 bit. -/
def calc_crc_spec (seed : Nat) (msg : Nat → Nat) (len : Nat) : Nat :=
  if len > 0 then
    crc_update ((List.range (len - 1)).foldl (fun crc i => crc_update crc (msg i) 8) seed)
      (msg (len - 1)) 1
  else seed

/-- A buffer holding the given bytes, followed by zeros. -/
def buffer (l : List Nat) : Nat → Nat := fun i => l.getD i 0

/-- The message with bit `j` of byte `k` flipped. -/
def flip_bit (msg : Nat → Nat) (k j : Nat) : Nat → Nat := upd msg k (msg k ^^^ (1 <<< j))

/-- The bytes `msg[i]`, `i` running through `l`, folded into `crc` for 8 bits each. -/
def crc_fold (msg : Nat → Nat) (l : List Nat) (crc : Nat) : Nat :=
  l.foldl (fun c i => crc_update c (msg i) 8) crc

/-! ## Bounds-checked link layer, scrambling and program runs -/

/-- The scrambled payload byte `msg[i] ^ hs6200_scramble[i]`. -/
def scrambled (msg : Nat → Nat) (i : Nat) : Nat := msg i ^^^ hs6200_scramble.getD i 0

/-- One externally triggered step of the program: `initialize()` (the INIT and
BIND commands) or one timer tick. -/
inductive Op where
  | init (ini : InitInputs)
  | tick (inp : Inputs)

/-- The state after one step. -/
def step (pf : Platform) (emulator : Bool) (s : State) : Op → State
  | .init ini => initialize_e015 pf emulator ini s
  | .tick inp => e015_callback pf inp s

/-- The state after the given steps, oldest first. -/
def exec (pf : Platform) (emulator : Bool) (s : State) (ops : List Op) : State :=
  ops.foldl (step pf emulator) s

/-- The packet-id invariant: `pid` counts the frames submitted so far mod 256,
frame `k` carries `k mod 4` in the low two bits of its control byte (index 7,
after 5 address and 2 guard bytes), and a state that can transmit has address
length 5. -/
def PidInv (s : State) : Prop :=
  s.pid = (payloads s.trace).length % 256
  ∧ (∀ k, k < (payloads s.trace).length →
      ((payloads s.trace).getD k []).getD 7 0 &&& 3 = k % 4)
  ∧ ((s.phase = BIND ∧ s.bind_counter = 0) ∨ s.hs6200_address_length = 5)

/-- Source: a read `a[i]` from an array of `size` elements; `none` when the
index is outside the array. -/
def rd (size : Nat) (a : Nat → Nat) (i : Nat) : Option Nat :=
  if i < size then some (a i) else none

/-- Source: a write `a[i] = v` to an array of `size` elements; `none` when
the index is outside the array. -/
def wr (size : Nat) (a : Nat → Nat) (i v : Nat) : Option (Nat → Nat) :=
  if i < size then some (upd a i v) else none

/-- Source: `u8 payload[32]`. -/
def payload_size : Nat := 32

/-- Source: `static u8 hs6200_tx_addr[5]`. -/
def tx_addr_size : Nat := 5

/-- `WritePayload_addr` with every array access checked. -/
def WritePayload_addr_checked (a : Nat → Nat) :
    Nat → (Nat → Nat) × Nat → Option ((Nat → Nat) × Nat)
  | 0, st => some st
  | i + 1, st => do
    let v ← rd tx_addr_size a i
    let p ← wr payload_size st.1 st.2 v
    WritePayload_addr_checked a i (p, st.2 + 1)

/-- `WritePayload_scramble` with every array access checked; `msg` has
`msize` elements. -/
def WritePayload_scramble_checked (msize : Nat) (msg : Nat → Nat) (len : Nat) :
    Nat → Nat → (Nat → Nat) × Nat → Option ((Nat → Nat) × Nat)
  | 0, _, st => some st
  | fuel + 1, i, st =>
    if i < len then do
      let m1 ← rd msize msg (i - 1)
      let k1 ← hs6200_scramble.get? (i - 1)
      let m ← rd msize msg i
      let k ← hs6200_scramble.get? i
      let p ← wr payload_size st.1 st.2 ((((m1 ^^^ k1) <<< 7) ||| ((m ^^^ k) >>> 1)) % 256)
      WritePayload_scramble_checked msize msg len fuel (i + 1) (p, st.2 + 1)
    else some st

/-- `WritePayload_header` with every array access checked. -/
def WritePayload_header_checked (hs6200_tx_addr : Nat → Nat) (hs6200_address_length pid : Nat)
    (stack : Nat → Nat) (len : Nat) : Option ((Nat → Nat) × Nat) := do
  let no_ack := 1
  -- address
  let st ← WritePayload_addr_checked hs6200_tx_addr hs6200_address_length (stack, 0)
  -- guard bytes
  let g ← rd tx_addr_size hs6200_tx_addr 0
  let p ← wr payload_size st.1 st.2 g
  let st := (p, st.2 + 1)
  let g ← rd tx_addr_size hs6200_tx_addr 0
  let p ← wr payload_size st.1 st.2 g
  let st := (p, st.2 + 1)
  -- packet control field
  let p ← wr payload_size st.1 st.2 ((((len &&& 0x3f) <<< 2) ||| (pid &&& 0x03)) % 256)
  let st := (p, st.2 + 1)
  let p ← wr payload_size st.1 st.2 (((no_ack &&& 0x01) <<< 7) % 256)
  some (p, st.2)

/-- `WritePayload_body` with every array access checked; `msg` has `msize`
elements. -/
def WritePayload_body_checked (msize : Nat) (msg : Nat → Nat) (len : Nat)
    (st : (Nat → Nat) × Nat) : Option ((Nat → Nat) × Nat) :=
  if len > 0 then do
    let m ← rd msize msg 0
    let k ← hs6200_scramble.get? 0
    let old ← rd payload_size st.1 st.2
    let p ← wr payload_size st.1 st.2 ((old ||| ((m ^^^ k) >>> 1)) % 256)
    let st ← WritePayload_scramble_checked msize msg len len 1 (p, st.2 + 1)
    let m ← rd msize msg (len - 1)
    let k ← hs6200_scramble.get? (len - 1)
    let p ← wr payload_size st.1 st.2 (((m ^^^ k) <<< 7) % 256)
    some (p, st.2)
  else some st

/-- `calc_crc_loop` over a checked reader `msg`. -/
def calc_crc_loop_checked (msg : Nat → Option Nat) (len : Nat) :
    Nat → Nat → Nat → Option (Nat × Nat)
  | 0, pos, crc => some (pos, crc)
  | fuel + 1, pos, crc =>
    if (pos : Int) < (len : Int) - 1 then do
      let b ← msg pos
      calc_crc_loop_checked msg len fuel (pos + 1) (crc_update crc b 8)
    else some (pos, crc)

/-- `hs6200_calc_crc` over a checked reader `msg`. -/
def hs6200_calc_crc_checked (hs6200_crc_init : Nat) (msg : Nat → Option Nat) (len : Nat) :
    Option Nat := do
  let r ← calc_crc_loop_checked msg len len 0 hs6200_crc_init
  let pos := r.1
  let crc := r.2
  if len > 0 then do
    let b ← msg (pos + 1)
    some (crc_update crc b 1)
  else some crc

/-- `WritePayload_crc` with every array access checked, those of
`hs6200_calc_crc(&payload[hs6200_address_length+2], len+2)` included. -/
def WritePayload_crc_checked (hs6200_address_length hs6200_crc hs6200_crc_init : Nat)
    (len : Nat) (st : (Nat → Nat) × Nat) : Option ((Nat → Nat) × Nat) :=
  if hs6200_crc ≠ 0 then do
    let crc ← hs6200_calc_crc_checked hs6200_crc_init
      (fun i => rd payload_size st.1 (hs6200_address_length + 2 + i)) (len + 2)
    let hcrc := (crc >>> 8) % 256
    let lcrc := (crc &&& 0xff) % 256
    let old ← rd payload_size st.1 st.2
    let p ← wr payload_size st.1 st.2 ((old ||| (hcrc >>> 1)) % 256)
    let st := (p, st.2 + 1)
    let p ← wr payload_size st.1 st.2 (((hcrc <<< 7) ||| (lcrc >>> 1)) % 256)
    let st := (p, st.2 + 1)
    let p ← wr payload_size st.1 st.2 ((lcrc <<< 7) % 256)
    some (p, st.2 + 1)
  else some st

/-- `HS6200_WritePayload_buf` with every array access checked: `none` as
soon as one index is outside its array. `payload[]` has 32 elements,
`hs6200_tx_addr[]` 5, `hs6200_scramble[]` 15 and `msg[]` `msize`. -/
def HS6200_WritePayload_checked (hs6200_tx_addr : Nat → Nat)
    (hs6200_address_length pid hs6200_crc hs6200_crc_init : Nat)
    (stack : Nat → Nat) (msize : Nat) (msg : Nat → Nat) (len : Nat) :
    Option ((Nat → Nat) × Nat) := do
  let len := if len > hs6200_scramble.length then hs6200_scramble.length else len
  let st ← WritePayload_header_checked hs6200_tx_addr hs6200_address_length pid stack len
  let st ← WritePayload_body_checked msize msg len st
  WritePayload_crc_checked hs6200_address_length hs6200_crc hs6200_crc_init len st

/-! ## The CRC in the words of the spec -/

/-- Following the spec's words ("polynomial 0x1021, MSB-first"): one bit enters
the 16-bit register. The register moves one place towards the most significant
end, and the polynomial 0x1021 is XORed in when the bit that left the register
differs from the bit that entered. -/
def crc16_spec_bit (crc : Nat) (b : Bool) : Nat :=
  if (crc.testBit 15 ^^ b) = true then ((crc <<< 1) % 65536) ^^^ 0x1021
  else (crc <<< 1) % 65536

/-- Following the spec's words ("MSB-first, 8 shifts per byte"): the eight bits
of `byte` enter the register, bit 7 first and bit 0 last. -/
def crc16_spec_byte (crc byte : Nat) : Nat :=
  ([7, 6, 5, 4, 3, 2, 1, 0].map byte.testBit).foldl crc16_spec_bit crc

/-- Following the spec's words ("initial value 0xFFFF"): the bytes are folded
in list order, starting from 0xFFFF. -/
def crc16_spec (l : List Nat) : Nat := l.foldl crc16_spec_byte 0xffff

/-! ## Concrete instances -/

/-- The statics at program start: C zero-initialises them. -/
def State.start : State :=
  { tx_addr := fun _ => 0, packet := fun _ => 0, phase := 0, bind_counter := 0, tx_power := 0,
    armed := 0, arm_flags := 0, arm_channel_previous := 0, hs6200_crc := 0,
    hs6200_crc_init := 0, hs6200_tx_addr := fun _ => 0, hs6200_address_length := 0, pid := 0,
    trace := [] }

/-- The inputs of a tick with every channel at 0. -/
def Inputs.idle : Inputs :=
  { Channels := fun _ => 0, Model_tx_power := 0, stack1 := fun _ => 0, stack2 := fun _ => 0 }

/-- Inputs of `initialize()` with every channel at 0 and an identity `rand32_r`. -/
def InitInputs.idle : InitInputs :=
  { Channels := fun _ => 0, Model_tx_power := 0, Model_fixed_id := 0, serial := fun _ => 0,
    rand32_r := fun l _ => l, status := 0 }

/-- A platform with channel range `[-10000, 10000]` and the CONFIG bit numbers
of the nRF24L01 register map. -/
def deviation : Platform :=
  { CHAN_MAX_VALUE := 10000, CHAN_MIN_VALUE := -10000, EN_CRC := 3, CRCO := 2, PWR_UP := 1,
    sizeof_fixed_id := 4 }

/-- The inputs of a tick with every channel at 1 (arm channel positive). -/
def Inputs.armHigh : Inputs :=
  { Channels := fun _ => 1, Model_tx_power := 0, stack1 := fun _ => 0, stack2 := fun _ => 0 }

/-- Inputs of `initialize()` with every channel at 1 (arm channel positive). -/
def InitInputs.armHigh : InitInputs :=
  { Channels := fun _ => 1, Model_tx_power := 0, Model_fixed_id := 0, serial := fun _ => 0,
    rand32_r := fun l _ => l, status := 0 }

/-! ## Basic facts -/

theorem linkCalls_append (xs ys : List Event) :
    linkCalls (xs ++ ys) = linkCalls xs ++ linkCalls ys := by
  induction xs with
  | nil => rfl
  | cons e es ih => cases e <;> simp [linkCalls, ih]

theorem payloads_append (xs ys : List Event) :
    payloads (xs ++ ys) = payloads xs ++ payloads ys := by
  induction xs with
  | nil => rfl
  | cons e es ih => cases e <;> simp [payloads, ih]

theorem bindStates_append (xs ys : List Event) :
    bindStates (xs ++ ys) = bindStates xs ++ bindStates ys := by
  induction xs with
  | nil => rfl
  | cons e es ih => cases e <;> simp [bindStates, ih]

theorem xor_ne_self (x m : Nat) (hm : m ≠ 0) : x ^^^ m ≠ x := by
  intro h
  have := congrArg (fun y => x ^^^ y) h
  simp only [Nat.xor_cancel_left, Nat.xor_self] at this
  exact hm this

/-- The fields `check_arming` leaves alone. -/
theorem check_arming_frame (v : Int) (s : State) :
    (check_arming v s).trace = s.trace ∧ (check_arming v s).packet = s.packet
    ∧ (check_arming v s).tx_addr = s.tx_addr ∧ (check_arming v s).phase = s.phase
    ∧ (check_arming v s).bind_counter = s.bind_counter
    ∧ (check_arming v s).tx_power = s.tx_power
    ∧ (check_arming v s).hs6200_crc = s.hs6200_crc
    ∧ (check_arming v s).hs6200_crc_init = s.hs6200_crc_init
    ∧ (check_arming v s).hs6200_tx_addr = s.hs6200_tx_addr
    ∧ (check_arming v s).hs6200_address_length = s.hs6200_address_length
    ∧ (check_arming v s).pid = s.pid := by
  cases s
  simp only [check_arming]
  split_ifs <;> simp

/-- The fields the packet-building block of `send_packet` leaves alone. -/
theorem send_packet_build_frame (pf : Platform) (inp : Inputs) (bind : Nat) (s : State) :
    (send_packet_build pf inp bind s).trace = s.trace
    ∧ (send_packet_build pf inp bind s).tx_addr = s.tx_addr
    ∧ (send_packet_build pf inp bind s).phase = s.phase
    ∧ (send_packet_build pf inp bind s).bind_counter = s.bind_counter
    ∧ (send_packet_build pf inp bind s).tx_power = s.tx_power
    ∧ (send_packet_build pf inp bind s).hs6200_crc = s.hs6200_crc
    ∧ (send_packet_build pf inp bind s).hs6200_crc_init = s.hs6200_crc_init
    ∧ (send_packet_build pf inp bind s).hs6200_tx_addr = s.hs6200_tx_addr
    ∧ (send_packet_build pf inp bind s).hs6200_address_length = s.hs6200_address_length
    ∧ (send_packet_build pf inp bind s).pid = s.pid := by
  obtain ⟨h1, -, h3, h4, h5, h6, h7, h8, h9, h10, h11⟩ :=
    check_arming_frame (inp.Channels CHANNEL_ARM) s
  simp only [send_packet_build]
  split_ifs
  · simp
  · simp [h1, h3, h4, h5, h6, h7, h8, h9, h10, h11]

/-- The state `send_packet` leaves, written out over the state `b` its
packet-building block leaves. -/
theorem send_packet_normal (pf : Platform) (inp : Inputs) (bind : Nat) (s b : State)
    (n : Nat) (hb : send_packet_build pf inp bind s = b)
    (hn : (if bind ≠ 0 then 9 else PACKET_SIZE) = n) :
    send_packet pf inp bind s =
      { b with
        hs6200_crc := crc_flag pf
        pid := ((b.pid + 1) % 256 + 1) % 256
        tx_power := inp.Model_tx_power
        trace := b.trace ++
          ([.NRF24L01_WriteReg .CONFIG (config_value pf),
            .NRF24L01_WriteReg .STATUS 0x70,
            .NRF24L01_FlushTx,
            .HS6200_WritePayload (bytes b.packet n) n,
            .NRF24L01_WritePayload
              (frame b.hs6200_tx_addr b.hs6200_address_length b.pid (crc_flag pf)
                b.hs6200_crc_init inp.stack1 b.packet n),
            .HS6200_WritePayload (bytes b.packet n) n,
            .NRF24L01_WritePayload
              (frame b.hs6200_tx_addr b.hs6200_address_length ((b.pid + 1) % 256) (crc_flag pf)
                b.hs6200_crc_init inp.stack2 b.packet n)] ++
            (if b.tx_power ≠ inp.Model_tx_power then [.NRF24L01_SetPower inp.Model_tx_power]
              else [])) } := by
  simp only [send_packet, hb, hn]
  clear hb hn
  cases b
  simp only [HS6200_WritePayload, HS6200_Configure, emit, crc_flag, config_value, frame]
  split_ifs <;> simp_all

theorem send_packet_packet (pf : Platform) (inp : Inputs) (bind : Nat) (s : State) :
    (send_packet pf inp bind s).packet = (send_packet_build pf inp bind s).packet := by
  rw [send_packet_normal pf inp bind s _ _ rfl rfl]

theorem send_packet_linkCalls (pf : Platform) (inp : Inputs) (bind : Nat) (s : State) :
    linkCalls (send_packet pf inp bind s).trace =
      linkCalls s.trace ++
        [(bytes (send_packet_build pf inp bind s).packet (if bind ≠ 0 then 9 else PACKET_SIZE),
          if bind ≠ 0 then 9 else PACKET_SIZE),
         (bytes (send_packet_build pf inp bind s).packet (if bind ≠ 0 then 9 else PACKET_SIZE),
          if bind ≠ 0 then 9 else PACKET_SIZE)] := by
  rw [send_packet_normal pf inp bind s _ _ rfl rfl]
  simp only [linkCalls_append, (send_packet_build_frame pf inp bind s).1]
  split_ifs <;> simp [linkCalls]

theorem bind_build_bytes (pf : Platform) (inp : Inputs) (s : State) :
    bytes (send_packet_build pf inp 1 s).packet 9 =
      [0x18, 0x04, 0x06, s.tx_addr 0, s.tx_addr 1, s.tx_addr 2, s.tx_addr 3, s.tx_addr 4,
       (s.tx_addr 0 + s.tx_addr 1 + s.tx_addr 2 + s.tx_addr 3 + s.tx_addr 4) % 256] := by
  simp [send_packet_build, bytes, List.range, List.range.loop, checksum_loop, upd]

/-- The mode byte of the data packet fits a byte and is the OR of its flags. -/
theorem mode_byte_eq (Channels : Nat → Int) :
    (FLAG_EXPERT
        ||| GET_FLAG Channels CHANNEL_FLIP FLAG_FLIP
        ||| GET_FLAG Channels CHANNEL_LED FLAG_LED
        ||| GET_FLAG Channels CHANNEL_HEADLESS FLAG_HEADLESS
        ||| GET_FLAG Channels CHANNEL_RTH FLAG_RTH) % 256
    = 0x02 ||| (if Channels CHANNEL7 > 0 then 0x80 else 0)
        ||| (if Channels CHANNEL6 > 0 then 0x04 else 0)
        ||| (if Channels CHANNEL9 > 0 then 0x10 else 0)
        ||| (if Channels CHANNEL10 > 0 then 0x08 else 0) := by
  simp only [GET_FLAG, FLAG_EXPERT, FLAG_FLIP, FLAG_LED, FLAG_HEADLESS, FLAG_RTH,
    CHANNEL_FLIP, CHANNEL_LED, CHANNEL_HEADLESS, CHANNEL_RTH]
  split_ifs <;> decide

theorem data_build_bytes (pf : Platform) (inp : Inputs) (s : State) :
    bytes (send_packet_build pf inp 0 s).packet 10 =
      [scale_channel pf inp.Channels CHANNEL3 0 225,
       scale_channel pf inp.Channels CHANNEL4 225 0,
       scale_channel pf inp.Channels CHANNEL1 0 225,
       scale_channel pf inp.Channels CHANNEL2 225 0,
       0x20, 0x20,
       (check_arming (inp.Channels CHANNEL5) s).arm_flags,
       0x02 ||| (if inp.Channels CHANNEL7 > 0 then 0x80 else 0)
         ||| (if inp.Channels CHANNEL6 > 0 then 0x04 else 0)
         ||| (if inp.Channels CHANNEL9 > 0 then 0x10 else 0)
         ||| (if inp.Channels CHANNEL10 > 0 then 0x08 else 0),
       0x00,
       (scale_channel pf inp.Channels CHANNEL3 0 225
         + scale_channel pf inp.Channels CHANNEL4 225 0
         + scale_channel pf inp.Channels CHANNEL1 0 225
         + scale_channel pf inp.Channels CHANNEL2 225 0
         + 0x20 + 0x20
         + (check_arming (inp.Channels CHANNEL5) s).arm_flags
         + (0x02 ||| (if inp.Channels CHANNEL7 > 0 then 0x80 else 0)
             ||| (if inp.Channels CHANNEL6 > 0 then 0x04 else 0)
             ||| (if inp.Channels CHANNEL9 > 0 then 0x10 else 0)
             ||| (if inp.Channels CHANNEL10 > 0 then 0x08 else 0))
         + 0x00) % 256] := by
  rw [← mode_byte_eq]
  simp [send_packet_build, bytes, List.range, List.range.loop, checksum_loop, upd,
    CHANNEL_ARM, CHANNEL5]

theorem send_packet_arm_flags (pf : Platform) (inp : Inputs) (s : State) :
    (send_packet pf inp 0 s).arm_flags = (check_arming (inp.Channels CHANNEL5) s).arm_flags
    ∧ (send_packet pf inp 0 s).armed = (check_arming (inp.Channels CHANNEL5) s).armed := by
  rw [send_packet_normal pf inp 0 s _ _ rfl rfl]
  simp [send_packet_build, CHANNEL_ARM]

theorem scale_channel_at_min (pf : Platform) (Channels : Nat → Int) (ch destMin destMax : Nat)
    (hlt : pf.CHAN_MIN_VALUE < pf.CHAN_MAX_VALUE) (hd : destMin ≤ 255)
    (hc : Channels ch ≤ pf.CHAN_MIN_VALUE) :
    scale_channel_s32 pf Channels ch destMin destMax = destMin
    ∧ scale_channel pf Channels ch destMin destMax = destMin := by
  have h : scale_channel_s32 pf Channels ch destMin destMax = destMin := by
    simp only [scale_channel_s32]
    split_ifs with h1 h2
    · simp
    · omega
    · have : Channels ch = pf.CHAN_MIN_VALUE := by omega
      simp [this]
  refine ⟨h, ?_⟩
  simp only [scale_channel, h]
  omega

theorem scale_channel_at_max (pf : Platform) (Channels : Nat → Int) (ch destMin destMax : Nat)
    (hlt : pf.CHAN_MIN_VALUE < pf.CHAN_MAX_VALUE) (hd : destMax ≤ 255)
    (hc : pf.CHAN_MAX_VALUE ≤ Channels ch) :
    scale_channel_s32 pf Channels ch destMin destMax = destMax
    ∧ scale_channel pf Channels ch destMin destMax = destMax := by
  have hne : CHAN_RANGE pf ≠ 0 := by simp only [CHAN_RANGE]; omega
  have h : scale_channel_s32 pf Channels ch destMin destMax = destMax := by
    simp only [scale_channel_s32]
    split_ifs with h1 h2
    · omega
    · have := Int.mul_tdiv_cancel ((destMax : Int) - destMin) hne
      simp only [CHAN_RANGE] at this ⊢
      rw [this]; omega
    · have h3 : Channels ch = pf.CHAN_MAX_VALUE := by omega
      have := Int.mul_tdiv_cancel ((destMax : Int) - destMin) hne
      simp only [CHAN_RANGE] at this ⊢
      rw [h3, this]; omega
  refine ⟨h, ?_⟩
  simp only [scale_channel, h]
  omega

theorem scale_channel_mid (pf : Platform) (Channels : Nat → Int) (ch : Nat)
    (hsym : pf.CHAN_MIN_VALUE = -pf.CHAN_MAX_VALUE) (hM : 0 < pf.CHAN_MAX_VALUE)
    (hc : Channels ch = 0) :
    scale_channel pf Channels ch 0 225 = 112 := by
  have h : scale_channel_s32 pf Channels ch 0 225 = 112 := by
    simp only [scale_channel_s32, CHAN_RANGE, hc, hsym]
    split_ifs with h1 h2
    · omega
    · omega
    · have e1 : ((225 : Nat) : Int) - ((0 : Nat) : Int) = 225 := by norm_num
      rw [e1]
      have e2 : (225 : Int) * (0 - -pf.CHAN_MAX_VALUE) = 225 * pf.CHAN_MAX_VALUE := by ring
      have e3 : pf.CHAN_MAX_VALUE - -pf.CHAN_MAX_VALUE = 2 * pf.CHAN_MAX_VALUE := by ring
      rw [e2, e3, Int.tdiv_eq_ediv (by omega) (by omega),
        Int.mul_ediv_mul_of_pos_left _ _ hM]
      norm_num
  simp only [scale_channel, h]
  rfl

/-! ## The bind packet (C1) -/

/-- C1: for every TxAddress `[A0,A1,A2,A3,A4]` held in `tx_addr`, after
`send_packet(1)` the first 9 bytes of `packet[]` are
`[0x18, 0x04, 0x06, A0, A1, A2, A3, A4, (A0+A1+A2+A3+A4) mod 256]`, and the
two entries into the link layer made by that call both pass exactly these
bytes with length 9. -/
theorem bind_packet_literal (pf : Platform) (inp : Inputs) (s : State) :
    bytes (send_packet pf inp 1 s).packet 9 =
      [0x18, 0x04, 0x06, s.tx_addr 0, s.tx_addr 1, s.tx_addr 2, s.tx_addr 3, s.tx_addr 4,
       (s.tx_addr 0 + s.tx_addr 1 + s.tx_addr 2 + s.tx_addr 3 + s.tx_addr 4) % 256]
    ∧ linkCalls (send_packet pf inp 1 s).trace =
      linkCalls s.trace ++
        [([0x18, 0x04, 0x06, s.tx_addr 0, s.tx_addr 1, s.tx_addr 2, s.tx_addr 3, s.tx_addr 4,
           (s.tx_addr 0 + s.tx_addr 1 + s.tx_addr 2 + s.tx_addr 3 + s.tx_addr 4) % 256], 9),
         ([0x18, 0x04, 0x06, s.tx_addr 0, s.tx_addr 1, s.tx_addr 2, s.tx_addr 3, s.tx_addr 4,
           (s.tx_addr 0 + s.tx_addr 1 + s.tx_addr 2 + s.tx_addr 3 + s.tx_addr 4) % 256], 9)] := by
  refine ⟨?_, ?_⟩
  · rw [send_packet_packet, bind_build_bytes]
  · rw [send_packet_linkCalls]
    simp only [if_pos (show (1 : Nat) ≠ 0 by decide), bind_build_bytes]

/-! ## The data packet (C2) -/

/-- C2: for every channel vector and every state, after `send_packet(0)` the
10 bytes of `packet[]` are the four scaled sticks (throttle `CHANNEL3` to
`0..225`, rudder `CHANNEL4` to `225..0`, aileron `CHANNEL1` to `0..225`,
elevator `CHANNEL2` to `225..0`), `0x20`, `0x20`, the `arm_flags` byte as
`check_arming` on `CHANNEL5` leaves it in this call, the mode byte
`0x02 | 0x80 (CHANNEL7 > 0) | 0x04 (CHANNEL6 > 0) | 0x10 (CHANNEL9 > 0) |
0x08 (CHANNEL10 > 0)`, `0x00`, and the sum of these nine bytes mod 256; the
state keeps that `arm_flags`, and both entries into the link layer pass these
10 bytes with length 10. -/
theorem data_packet_layout (pf : Platform) (inp : Inputs) (s : State) :
    bytes (send_packet pf inp 0 s).packet 10 =
      [scale_channel pf inp.Channels CHANNEL3 0 225,
       scale_channel pf inp.Channels CHANNEL4 225 0,
       scale_channel pf inp.Channels CHANNEL1 0 225,
       scale_channel pf inp.Channels CHANNEL2 225 0,
       0x20, 0x20,
       (check_arming (inp.Channels CHANNEL5) s).arm_flags,
       0x02 ||| (if inp.Channels CHANNEL7 > 0 then 0x80 else 0)
         ||| (if inp.Channels CHANNEL6 > 0 then 0x04 else 0)
         ||| (if inp.Channels CHANNEL9 > 0 then 0x10 else 0)
         ||| (if inp.Channels CHANNEL10 > 0 then 0x08 else 0),
       0x00,
       (scale_channel pf inp.Channels CHANNEL3 0 225
         + scale_channel pf inp.Channels CHANNEL4 225 0
         + scale_channel pf inp.Channels CHANNEL1 0 225
         + scale_channel pf inp.Channels CHANNEL2 225 0
         + 0x20 + 0x20
         + (check_arming (inp.Channels CHANNEL5) s).arm_flags
         + (0x02 ||| (if inp.Channels CHANNEL7 > 0 then 0x80 else 0)
             ||| (if inp.Channels CHANNEL6 > 0 then 0x04 else 0)
             ||| (if inp.Channels CHANNEL9 > 0 then 0x10 else 0)
             ||| (if inp.Channels CHANNEL10 > 0 then 0x08 else 0))
         + 0x00) % 256]
    ∧ (send_packet pf inp 0 s).arm_flags = (check_arming (inp.Channels CHANNEL5) s).arm_flags
    ∧ linkCalls (send_packet pf inp 0 s).trace =
        linkCalls s.trace ++
          [(bytes (send_packet pf inp 0 s).packet 10, 10),
           (bytes (send_packet pf inp 0 s).packet 10, 10)] := by
  refine ⟨?_, (send_packet_arm_flags pf inp s).1, ?_⟩
  · rw [send_packet_packet, data_build_bytes]
  · rw [send_packet_linkCalls, send_packet_packet]
    simp only [ne_eq, not_true_eq_false, if_false, PACKET_SIZE]

/-! ## Checksums (C3) -/

/-- C3, refuted as stated: with an all-zero TxAddress the bind packet ends in
`0x00`, while the bytes before it (`0x18, 0x04, 0x06, 0, 0, 0, 0, 0`) sum to
`0x22`. -/
theorem bind_checksum_skips_header :
    (send_packet deviation Inputs.idle 1 State.start).packet 8 ≠
      (bytes (send_packet deviation Inputs.idle 1 State.start).packet 8).sum % 256 := by
  rw [send_packet_packet]
  simp [send_packet_build, bytes, List.range, List.range.loop, checksum_loop, upd, State.start]

/-- C3, amended: the trailing byte of the 10-byte data packet is the sum mod 256
of the nine bytes before it; the trailing byte of the 9-byte bind packet is
the sum mod 256 of the five address bytes `packet[3..7]` alone. -/
theorem checksum_consistency (pf : Platform) (inp : Inputs) (s : State) :
    (send_packet pf inp 0 s).packet 9 = (bytes (send_packet pf inp 0 s).packet 9).sum % 256
    ∧ (send_packet pf inp 1 s).packet 8 =
        ((bytes (send_packet pf inp 1 s).packet 8).drop 3).sum % 256 := by
  rw [send_packet_packet, send_packet_packet]
  constructor
  · simp [send_packet_build, bytes, List.range, List.range.loop, checksum_loop, upd]
    omega
  · simp [send_packet_build, bytes, List.range, List.range.loop, checksum_loop, upd]
    omega

/-! ## Channel scaling (C4) -/

/-- C4: over a symmetric input range `[-M, M]`, `M > 0`: to `0..225` the
input minimum gives 0, the maximum 225 and the midpoint 0 a value within 1 of
112; to `225..0` the minimum gives 225 and the maximum 0; and for all
`destMin`, `destMax` in `0..255` the minimum gives `destMin` and the maximum
`destMax`. -/
theorem scale_channel_endpoints (pf : Platform) (Channels : Nat → Int) (ch : Nat)
    (hsym : pf.CHAN_MIN_VALUE = -pf.CHAN_MAX_VALUE) (hM : 0 < pf.CHAN_MAX_VALUE) :
    (Channels ch = pf.CHAN_MIN_VALUE →
      scale_channel pf Channels ch 0 225 = 0 ∧ scale_channel pf Channels ch 225 0 = 225)
    ∧ (Channels ch = pf.CHAN_MAX_VALUE →
      scale_channel pf Channels ch 0 225 = 225 ∧ scale_channel pf Channels ch 225 0 = 0)
    ∧ (Channels ch = 0 →
      111 ≤ scale_channel pf Channels ch 0 225 ∧ scale_channel pf Channels ch 0 225 ≤ 113)
    ∧ (∀ destMin destMax : Nat, destMin ≤ 255 → destMax ≤ 255 →
      (Channels ch = pf.CHAN_MIN_VALUE → scale_channel pf Channels ch destMin destMax = destMin)
      ∧ (Channels ch = pf.CHAN_MAX_VALUE →
          scale_channel pf Channels ch destMin destMax = destMax)) := by
  have hlt : pf.CHAN_MIN_VALUE < pf.CHAN_MAX_VALUE := by omega
  refine ⟨fun h => ⟨?_, ?_⟩, fun h => ⟨?_, ?_⟩, fun h => ?_, fun dmin dmax h1 h2 => ⟨fun h => ?_, fun h => ?_⟩⟩
  · exact (scale_channel_at_min pf Channels ch 0 225 hlt (by omega) (le_of_eq h)).2
  · exact (scale_channel_at_min pf Channels ch 225 0 hlt (by omega) (le_of_eq h)).2
  · exact (scale_channel_at_max pf Channels ch 0 225 hlt (by omega) (le_of_eq h.symm)).2
  · exact (scale_channel_at_max pf Channels ch 225 0 hlt (by omega) (le_of_eq h.symm)).2
  · rw [scale_channel_mid pf Channels ch hsym hM h]
    omega
  · exact (scale_channel_at_min pf Channels ch dmin dmax hlt h1 (le_of_eq h)).2
  · exact (scale_channel_at_max pf Channels ch dmin dmax hlt h2 (le_of_eq h.symm)).2

/-- C4 at the range `[-10000, 10000]`: the three inputs `-10000`, `10000`, `0`
on channel 0. -/
theorem scale_channel_endpoints_witness :
    (scale_channel deviation (fun _ => -10000) 0 0 225 = 0
      ∧ scale_channel deviation (fun _ => -10000) 0 225 0 = 225)
    ∧ (scale_channel deviation (fun _ => 10000) 0 0 225 = 225
      ∧ scale_channel deviation (fun _ => 10000) 0 225 0 = 0)
    ∧ (111 ≤ scale_channel deviation (fun _ => 0) 0 0 225
      ∧ scale_channel deviation (fun _ => 0) 0 0 225 ≤ 113) :=
  ⟨(scale_channel_endpoints deviation (fun _ => -10000) 0 rfl (by decide)).1 rfl,
   (scale_channel_endpoints deviation (fun _ => 10000) 0 rfl (by decide)).2.1 rfl,
   (scale_channel_endpoints deviation (fun _ => 0) 0 rfl (by decide)).2.2.1 rfl⟩

/-! ## Arming (C5) -/

/-- C5: `check_arming(v)` changes the pair `(armed, arm_flags)` exactly when
the sign bit `v > 0` differs from `arm_channel_previous`; from previous sign
non-positive a positive `v` sets `armed = 1` and XORs `0x40` into
`arm_flags`; from previous sign positive a non-positive `v` sets `armed = 0`
and XORs `0x80` into `arm_flags`; with the sign unchanged the whole state is
unchanged; and from `armed = 0`, `arm_flags = 0`, previous sign non-positive
the samples `[0, 0, +1, +1, 0]` give `(armed, arm_flags)` the values
`(0,0), (0,0), (1,0x40), (1,0x40), (0,0xC0)`: two changes, at the 3rd and
the 5th sample. -/
theorem arming_edges (s : State) (v : Int) :
    ((((check_arming v s).armed, (check_arming v s).arm_flags) ≠ (s.armed, s.arm_flags))
        ↔ (if v > 0 then 1 else 0) ≠ s.arm_channel_previous)
    ∧ (s.arm_channel_previous = 0 → v > 0 →
        (check_arming v s).armed = 1
        ∧ (check_arming v s).arm_flags = s.arm_flags ^^^ 0x40
        ∧ (check_arming v s).arm_channel_previous = 1)
    ∧ (s.arm_channel_previous = 1 → v ≤ 0 →
        (check_arming v s).armed = 0
        ∧ (check_arming v s).arm_flags = s.arm_flags ^^^ 0x80
        ∧ (check_arming v s).arm_channel_previous = 0)
    ∧ ((if v > 0 then 1 else 0) = s.arm_channel_previous → check_arming v s = s)
    ∧ (s.armed = 0 → s.arm_flags = 0 → s.arm_channel_previous = 0 →
        arm_history s [0, 0, 1, 1, 0] = [(0, 0), (0, 0), (1, 0x40), (1, 0x40), (0, 0xC0)]) := by
  refine ⟨?_, ?_, ?_, ?_, ?_⟩
  · simp only [check_arming]
    split_ifs with h1 h2 h3 h4 h5 <;>
      simp_all [xor_ne_self, FLAG_ARM, FLAG_DISARM]
  · intro hp hv
    simp [check_arming, hp, hv, FLAG_ARM]
  · intro hp hv
    have : ¬ v > 0 := by omega
    simp [check_arming, hp, this, FLAG_DISARM]
  · intro h
    simp [check_arming, h]
  · intro ha hf hp
    simp [arm_history, check_arming, ha, hf, hp, FLAG_ARM, FLAG_DISARM]

/-- C5 at the program-start state: a rising edge there, and the five samples. -/
theorem arming_edges_witness :
    ((check_arming 1 State.start).armed = 1
      ∧ (check_arming 1 State.start).arm_flags = State.start.arm_flags ^^^ 0x40
      ∧ (check_arming 1 State.start).arm_channel_previous = 1)
    ∧ arm_history State.start [0, 0, 1, 1, 0] =
        [(0, 0), (0, 0), (1, 0x40), (1, 0x40), (0, 0xC0)] :=
  ⟨(arming_edges State.start 1).2.1 rfl (by decide),
   (arming_edges State.start 1).2.2.2.2 rfl rfl rfl⟩

/-! ## The tick, field by field -/

theorem send_packet_frame (pf : Platform) (inp : Inputs) (bind : Nat) (s : State) :
    (send_packet pf inp bind s).phase = s.phase
    ∧ (send_packet pf inp bind s).bind_counter = s.bind_counter
    ∧ (send_packet pf inp bind s).tx_addr = s.tx_addr
    ∧ (send_packet pf inp bind s).hs6200_tx_addr = s.hs6200_tx_addr
    ∧ (send_packet pf inp bind s).hs6200_address_length = s.hs6200_address_length
    ∧ (send_packet pf inp bind s).hs6200_crc_init = s.hs6200_crc_init
    ∧ bindStates (send_packet pf inp bind s).trace = bindStates s.trace := by
  obtain ⟨h1, h2, h3, h4, -, -, h7, h8, h9, -⟩ := send_packet_build_frame pf inp bind s
  rw [send_packet_normal pf inp bind s _ _ rfl rfl]
  refine ⟨h3, h4, h2, h8, h9, h7, ?_⟩
  simp only [bindStates_append, h1]
  split_ifs <;> simp [bindStates]

theorem SetTXAddr_5 (addr : Nat → Nat) (s : State) :
    (HS6200_SetTXAddr addr 5 s).phase = s.phase
    ∧ (HS6200_SetTXAddr addr 5 s).bind_counter = s.bind_counter
    ∧ (HS6200_SetTXAddr addr 5 s).tx_addr = s.tx_addr
    ∧ (HS6200_SetTXAddr addr 5 s).armed = s.armed
    ∧ (HS6200_SetTXAddr addr 5 s).arm_flags = s.arm_flags
    ∧ (HS6200_SetTXAddr addr 5 s).arm_channel_previous = s.arm_channel_previous
    ∧ (HS6200_SetTXAddr addr 5 s).tx_power = s.tx_power
    ∧ (HS6200_SetTXAddr addr 5 s).pid = s.pid
    ∧ bytes (HS6200_SetTXAddr addr 5 s).hs6200_tx_addr 5 = bytes addr 5
    ∧ (HS6200_SetTXAddr addr 5 s).hs6200_address_length = 5
    ∧ bindStates (HS6200_SetTXAddr addr 5 s).trace = bindStates s.trace := by
  cases s
  have h54 : ¬ ((5 : Nat) < 4) := by decide
  have h55 : ¬ ((5 : Nat) > 5) := by decide
  simp only [HS6200_SetTXAddr, emit, h54, h55, if_false]
  split_ifs <;> simp [bindStates_append, bindStates, bytes, memcpy, List.range, List.range.loop]

theorem callback_bind_tick (pf : Platform) (inp : Inputs) (s : State)
    (hp : s.phase = BIND) (hc : s.bind_counter ≠ 0) (hlt : s.bind_counter < 65536) :
    (e015_callback pf inp s).phase = BIND
    ∧ (e015_callback pf inp s).bind_counter = s.bind_counter - 1
    ∧ (e015_callback pf inp s).tx_addr = s.tx_addr
    ∧ (e015_callback pf inp s).hs6200_tx_addr = s.hs6200_tx_addr
    ∧ (e015_callback pf inp s).hs6200_address_length = s.hs6200_address_length
    ∧ bindStates (e015_callback pf inp s).trace = bindStates s.trace := by
  obtain ⟨h1, h2, h3, h4, h5, -, h7⟩ := send_packet_frame pf inp 1 s
  simp only [e015_callback, hp, hc, if_true, if_false]
  refine ⟨h1.trans hp, ?_, h3, h4, h5, h7⟩
  show ((send_packet pf inp 1 s).bind_counter + 65535) % 65536 = _
  rw [h2]; omega

theorem callback_bind_done (pf : Platform) (inp : Inputs) (s : State)
    (hp : s.phase = BIND) (hc : s.bind_counter = 0) :
    (e015_callback pf inp s).phase = DATA
    ∧ (e015_callback pf inp s).bind_counter = 0
    ∧ (e015_callback pf inp s).tx_addr = s.tx_addr
    ∧ bytes (e015_callback pf inp s).hs6200_tx_addr 5 = bytes s.tx_addr 5
    ∧ (e015_callback pf inp s).hs6200_address_length = 5
    ∧ bindStates (e015_callback pf inp s).trace = bindStates s.trace ++ [0] := by
  obtain ⟨-, h2, h3, -, -, -, -, -, h9, h10, h11⟩ := SetTXAddr_5 s.tx_addr s
  simp only [e015_callback, hp, hc, if_true, emit]
  refine ⟨trivial, h2.trans hc, h3, h9, h10, ?_⟩
  simp only [bindStates_append, h11, bindStates]

theorem callback_data (pf : Platform) (inp : Inputs) (s : State) (hp : s.phase = DATA) :
    (e015_callback pf inp s).phase = DATA
    ∧ (e015_callback pf inp s).bind_counter = s.bind_counter
    ∧ (e015_callback pf inp s).tx_addr = s.tx_addr
    ∧ (e015_callback pf inp s).hs6200_tx_addr = s.hs6200_tx_addr
    ∧ (e015_callback pf inp s).hs6200_address_length = s.hs6200_address_length
    ∧ bindStates (e015_callback pf inp s).trace = bindStates s.trace := by
  obtain ⟨h1, h2, h3, h4, h5, -, h7⟩ := send_packet_frame pf inp 0 s
  have hne : ¬ (DATA = BIND) := by decide
  simp only [e015_callback, hp, hne, if_true, if_false]
  exact ⟨h1.trans hp, h2, h3, h4, h5, h7⟩


theorem e015_init_frame (status : Nat) (s : State) :
    (e015_init status s).tx_addr = s.tx_addr
    ∧ (e015_init status s).armed = s.armed
    ∧ (e015_init status s).arm_flags = s.arm_flags
    ∧ (e015_init status s).pid = s.pid
    ∧ bytes (e015_init status s).hs6200_tx_addr 5 = bytes bind_address 5
    ∧ (e015_init status s).hs6200_address_length = 5
    ∧ bindStates (e015_init status s).trace = bindStates s.trace := by
  obtain ⟨-, -, h3, h4, h5, -, -, h8, h9, h10, h11⟩ :=
    SetTXAddr_5 bind_address (emit (emit s .NRF24L01_Initialize) .NRF24L01_SetTxRxMode_TX_EN)
  by_cases hst : status &&& 0x80 ≠ 0
  · simp only [e015_init, ADDRESS_LENGTH, hst, if_true]
    generalize HS6200_SetTXAddr bind_address 5
      (emit (emit s .NRF24L01_Initialize) .NRF24L01_SetTxRxMode_TX_EN) = t at *
    cases t
    cases s
    simp only [emit] at *
    simp_all [bindStates_append, bindStates]
  · simp only [e015_init, ADDRESS_LENGTH, hst, if_false]
    generalize HS6200_SetTXAddr bind_address 5
      (emit (emit s .NRF24L01_Initialize) .NRF24L01_SetTxRxMode_TX_EN) = t at *
    cases t
    cases s
    simp only [emit] at *
    simp_all [bindStates_append, bindStates]

theorem initialize_txid_frame (pf : Platform) (emulator : Bool) (ini : InitInputs) (s : State) :
    (initialize_txid pf emulator ini s).pid = s.pid
    ∧ (initialize_txid pf emulator ini s).trace = s.trace := by
  simp [initialize_txid]

theorem initialize_state (pf : Platform) (emulator : Bool) (ini : InitInputs) (s : State) :
    (initialize_e015 pf emulator ini s).phase = BIND
    ∧ (initialize_e015 pf emulator ini s).bind_counter = BIND_COUNT emulator
    ∧ bytes (initialize_e015 pf emulator ini s).hs6200_tx_addr 5 = bytes bind_address 5
    ∧ (initialize_e015 pf emulator ini s).hs6200_address_length = 5
    ∧ (initialize_e015 pf emulator ini s).armed = 0
    ∧ (initialize_e015 pf emulator ini s).arm_flags = 0
    ∧ (initialize_e015 pf emulator ini s).arm_channel_previous
        = (if ini.Channels CHANNEL_ARM > 0 then 1 else 0)
    ∧ (initialize_e015 pf emulator ini s).pid = s.pid
    ∧ bindStates (initialize_e015 pf emulator ini s).trace =
        bindStates s.trace ++ [BIND_COUNT emulator * PACKET_PERIOD / 1000] := by
  have hbc : BIND_COUNT emulator % 65536 = BIND_COUNT emulator := by
    cases emulator <;> decide
  obtain ⟨hq1, hq2⟩ := initialize_txid_frame pf emulator ini
    { emit s .CLOCK_StopTimer with tx_power := ini.Model_tx_power }
  obtain ⟨-, -, -, h4, h5, h6, h7⟩ := e015_init_frame ini.status (initialize_txid pf emulator ini
    { emit s .CLOCK_StopTimer with tx_power := ini.Model_tx_power })
  simp only [initialize_e015, hbc]
  generalize initialize_txid pf emulator ini
    { emit s .CLOCK_StopTimer with tx_power := ini.Model_tx_power } = q at *
  generalize e015_init ini.status q = t at *
  cases t
  cases q
  cases s
  simp only [emit] at *
  simp_all [bindStates_append, bindStates]


theorem run_cons (pf : Platform) (s : State) (inp : Inputs) (inps : List Inputs) :
    run pf s (inp :: inps) = run pf (e015_callback pf inp s) inps := rfl

theorem run_append (pf : Platform) (s : State) (xs ys : List Inputs) :
    run pf s (xs ++ ys) = run pf (run pf s xs) ys := by
  simp [run, List.foldl_append]

theorem run_bind (pf : Platform) (inps : List Inputs) :
    ∀ s : State, s.phase = BIND → s.bind_counter < 65536 → inps.length ≤ s.bind_counter →
      (run pf s inps).phase = BIND
      ∧ (run pf s inps).bind_counter = s.bind_counter - inps.length
      ∧ (run pf s inps).tx_addr = s.tx_addr
      ∧ (run pf s inps).hs6200_tx_addr = s.hs6200_tx_addr
      ∧ (run pf s inps).hs6200_address_length = s.hs6200_address_length
      ∧ bindStates (run pf s inps).trace = bindStates s.trace := by
  induction inps with
  | nil => intro s hp _ _; exact ⟨hp, rfl, rfl, rfl, rfl, rfl⟩
  | cons inp rest ih =>
    intro s hp hlt hlen
    simp only [List.length_cons] at hlen
    obtain ⟨h1, h2, h3, h4, h5, h6⟩ := callback_bind_tick pf inp s hp (by omega) hlt
    obtain ⟨g1, g2, g3, g4, g5, g6⟩ :=
      ih (e015_callback pf inp s) h1 (by omega) (by omega)
    rw [run_cons]
    refine ⟨g1, ?_, g3.trans h3, g4.trans h4, g5.trans h5, g6.trans h6⟩
    rw [g2, h2, List.length_cons]; omega

theorem run_data (pf : Platform) (inps : List Inputs) :
    ∀ s : State, s.phase = DATA →
      (run pf s inps).phase = DATA
      ∧ (run pf s inps).bind_counter = s.bind_counter
      ∧ (run pf s inps).tx_addr = s.tx_addr
      ∧ (run pf s inps).hs6200_tx_addr = s.hs6200_tx_addr
      ∧ (run pf s inps).hs6200_address_length = s.hs6200_address_length
      ∧ bindStates (run pf s inps).trace = bindStates s.trace := by
  induction inps with
  | nil => intro s hp; exact ⟨hp, rfl, rfl, rfl, rfl, rfl⟩
  | cons inp rest ih =>
    intro s hp
    obtain ⟨h1, h2, h3, h4, h5, h6⟩ := callback_data pf inp s hp
    obtain ⟨g1, g2, g3, g4, g5, g6⟩ := ih (e015_callback pf inp s) h1
    rw [run_cons]
    exact ⟨g1, g2.trans h2, g3.trans h3, g4.trans h4, g5.trans h5, g6.trans h6⟩

/-- Past the bind budget: from a Bind state with counter `c`, any run of more than `c` ticks ends in
Data with the TxAddress active and one more `PROTOCOL_SetBindState(0)`. -/
theorem run_past_bind (pf : Platform) (inps : List Inputs) (s : State)
    (hp : s.phase = BIND) (hlt : s.bind_counter < 65536) (hlen : s.bind_counter < inps.length) :
    (run pf s inps).phase = DATA
    ∧ (run pf s inps).bind_counter = 0
    ∧ (run pf s inps).tx_addr = s.tx_addr
    ∧ bytes (run pf s inps).hs6200_tx_addr 5 = bytes s.tx_addr 5
    ∧ (run pf s inps).hs6200_address_length = 5
    ∧ bindStates (run pf s inps).trace = bindStates s.trace ++ [0] := by
  have hsplit : inps = inps.take s.bind_counter ++ inps.drop s.bind_counter :=
    (List.take_append_drop _ _).symm
  have htl : (inps.take s.bind_counter).length = s.bind_counter := by
    rw [List.length_take]; omega
  obtain ⟨h1, h2, h3, h4, h5, h6⟩ :=
    run_bind pf (inps.take s.bind_counter) s hp hlt (by omega)
  cases hd : inps.drop s.bind_counter with
  | nil =>
    have := congrArg List.length hd
    rw [List.length_drop] at this
    simp at this; omega
  | cons inp rest =>
    rw [hsplit, run_append, hd, run_cons]
    have hc0 : (run pf s (inps.take s.bind_counter)).bind_counter = 0 := by rw [h2, htl]; omega
    obtain ⟨k1, k2, k3, k4, k5, k6⟩ :=
      callback_bind_done pf inp (run pf s (inps.take s.bind_counter)) h1 hc0
    obtain ⟨g1, g2, g3, g4, g5, g6⟩ :=
      run_data pf rest (e015_callback pf inp (run pf s (inps.take s.bind_counter))) k1
    refine ⟨g1, g2.trans k2, g3.trans (k3.trans h3), ?_, g5.trans k5, ?_⟩
    · rw [g4, k4, h3]
    · rw [g6, k6, h6]

/-! ## Bind sequencing (C6) -/

/-- C6: in the state left by `initialize()` the phase is Bind and the counter is
`N = BIND_COUNT` (150 outside the emulator build). After any `k <= N` ticks
the phase is still Bind, the counter is `N - k` (so 0 after tick `N`, never
wrapped), and the bind status has been signalled only by `initialize()`
itself. After any `k >= N + 1` ticks the phase is Data and
`PROTOCOL_SetBindState(0)` has been signalled exactly once. -/
theorem bind_sequencing (pf : Platform) (emulator : Bool) (ini : InitInputs) (pre : State)
    (inps : List Inputs) :
    (initialize_e015 pf emulator ini pre).phase = BIND
    ∧ (initialize_e015 pf emulator ini pre).bind_counter = BIND_COUNT emulator
    ∧ BIND_COUNT false = 150
    ∧ (inps.length ≤ BIND_COUNT emulator →
        (run pf (initialize_e015 pf emulator ini pre) inps).phase = BIND
        ∧ (run pf (initialize_e015 pf emulator ini pre) inps).bind_counter
            = BIND_COUNT emulator - inps.length
        ∧ bindStates (run pf (initialize_e015 pf emulator ini pre) inps).trace
            = bindStates pre.trace ++ [BIND_COUNT emulator * PACKET_PERIOD / 1000])
    ∧ (BIND_COUNT emulator + 1 ≤ inps.length →
        (run pf (initialize_e015 pf emulator ini pre) inps).phase = DATA
        ∧ bindStates (run pf (initialize_e015 pf emulator ini pre) inps).trace
            = bindStates pre.trace ++ [BIND_COUNT emulator * PACKET_PERIOD / 1000, 0]) := by
  obtain ⟨h1, h2, -, -, -, -, -, -, h9⟩ := initialize_state pf emulator ini pre
  have hlt : (initialize_e015 pf emulator ini pre).bind_counter < 65536 := by
    rw [h2]; cases emulator <;> decide
  refine ⟨h1, h2, rfl, fun hlen => ?_, fun hlen => ?_⟩
  · obtain ⟨g1, g2, -, -, -, g6⟩ :=
      run_bind pf inps (initialize_e015 pf emulator ini pre) h1 hlt (by omega)
    exact ⟨g1, by rw [g2, h2], by rw [g6, h9]⟩
  · obtain ⟨g1, -, -, -, -, g6⟩ :=
      run_past_bind pf inps (initialize_e015 pf emulator ini pre) h1 hlt (by omega)
    exact ⟨g1, by rw [g6, h9]; simp⟩


theorem bind_address_bytes : bytes bind_address 5 = [0x62, 0x54, 0x79, 0x38, 0x53] := by
  decide

/-- C6 in the emulator build (`N = 4`): four ticks leave Bind with counter 0,
the fifth gives Data and the single `PROTOCOL_SetBindState(0)`. -/
theorem bind_sequencing_witness :
    ((run deviation (initialize_e015 deviation true InitInputs.idle State.start)
        (List.replicate 4 Inputs.idle)).phase = BIND
      ∧ (run deviation (initialize_e015 deviation true InitInputs.idle State.start)
        (List.replicate 4 Inputs.idle)).bind_counter
          = BIND_COUNT true - (List.replicate 4 Inputs.idle).length
      ∧ bindStates (run deviation (initialize_e015 deviation true InitInputs.idle State.start)
        (List.replicate 4 Inputs.idle)).trace
          = bindStates State.start.trace ++ [BIND_COUNT true * PACKET_PERIOD / 1000])
    ∧ ((run deviation (initialize_e015 deviation true InitInputs.idle State.start)
        (List.replicate 5 Inputs.idle)).phase = DATA
      ∧ bindStates (run deviation (initialize_e015 deviation true InitInputs.idle State.start)
        (List.replicate 5 Inputs.idle)).trace
          = bindStates State.start.trace ++ [BIND_COUNT true * PACKET_PERIOD / 1000, 0]) :=
  ⟨(bind_sequencing deviation true InitInputs.idle State.start
      (List.replicate 4 Inputs.idle)).2.2.2.1 (by decide),
   (bind_sequencing deviation true InitInputs.idle State.start
      (List.replicate 5 Inputs.idle)).2.2.2.2 (by decide)⟩

/-! ## Phase and active address (C7) -/

/-- C7: in every state reached from `initialize()` by any number of ticks the
phase is Bind or Data and `tx_addr` is the address generated at
initialisation; in Bind the link layer holds the public bind address
`62 54 79 38 53` with length 5; in Data it holds `tx_addr` with length 5;
and from a Data state every further run of ticks stays in Data with
`tx_addr` active. -/
theorem phase_address_invariant (pf : Platform) (emulator : Bool) (ini : InitInputs)
    (pre : State) (inps more : List Inputs) :
    ((run pf (initialize_e015 pf emulator ini pre) inps).phase = BIND
      ∨ (run pf (initialize_e015 pf emulator ini pre) inps).phase = DATA)
    ∧ (run pf (initialize_e015 pf emulator ini pre) inps).tx_addr
        = (initialize_e015 pf emulator ini pre).tx_addr
    ∧ ((run pf (initialize_e015 pf emulator ini pre) inps).phase = BIND →
        (run pf (initialize_e015 pf emulator ini pre) inps).hs6200_address_length = 5
        ∧ bytes (run pf (initialize_e015 pf emulator ini pre) inps).hs6200_tx_addr 5
            = [0x62, 0x54, 0x79, 0x38, 0x53])
    ∧ ((run pf (initialize_e015 pf emulator ini pre) inps).phase = DATA →
        (run pf (initialize_e015 pf emulator ini pre) inps).hs6200_address_length = 5
        ∧ bytes (run pf (initialize_e015 pf emulator ini pre) inps).hs6200_tx_addr 5
            = bytes (initialize_e015 pf emulator ini pre).tx_addr 5)
    ∧ ((run pf (initialize_e015 pf emulator ini pre) inps).phase = DATA →
        (run pf (run pf (initialize_e015 pf emulator ini pre) inps) more).phase = DATA
        ∧ (run pf (run pf (initialize_e015 pf emulator ini pre) inps) more).hs6200_address_length
            = 5
        ∧ bytes (run pf (run pf (initialize_e015 pf emulator ini pre) inps) more).hs6200_tx_addr 5
            = bytes (initialize_e015 pf emulator ini pre).tx_addr 5) := by
  obtain ⟨h1, h2, h3, h4, -⟩ := initialize_state pf emulator ini pre
  have hlt : (initialize_e015 pf emulator ini pre).bind_counter < 65536 := by
    rw [h2]; cases emulator <;> decide
  have hBD : BIND ≠ DATA := by decide
  by_cases hlen : inps.length ≤ (initialize_e015 pf emulator ini pre).bind_counter
  · obtain ⟨g1, -, g3, g4, g5, -⟩ :=
      run_bind pf inps (initialize_e015 pf emulator ini pre) h1 hlt hlen
    refine ⟨Or.inl g1, g3, fun _ => ⟨g5.trans h4, ?_⟩, fun hd => ?_, fun hd => ?_⟩
    · rw [g4, h3, bind_address_bytes]
    · exact absurd (g1.symm.trans hd) hBD
    · exact absurd (g1.symm.trans hd) hBD
  · obtain ⟨g1, -, g3, g4, g5, -⟩ :=
      run_past_bind pf inps (initialize_e015 pf emulator ini pre) h1 hlt (by omega)
    obtain ⟨k1, -, -, k4, k5, -⟩ :=
      run_data pf more (run pf (initialize_e015 pf emulator ini pre) inps) g1
    refine ⟨Or.inr g1, g3, fun hb => ?_, fun _ => ⟨g5, g4⟩, fun _ => ⟨k1, k5.trans g5, ?_⟩⟩
    · exact absurd (hb.symm.trans g1) hBD
    · rw [k4, g4]

/-- C7 in the emulator build: right after `initialize()` the phase is Bind with
the bind address active; after five ticks the phase is Data with `tx_addr`
active. -/
theorem phase_address_invariant_witness :
    ((run deviation (initialize_e015 deviation true InitInputs.idle State.start)
        []).hs6200_address_length = 5
      ∧ bytes (run deviation (initialize_e015 deviation true InitInputs.idle State.start)
        []).hs6200_tx_addr 5 = [0x62, 0x54, 0x79, 0x38, 0x53])
    ∧ ((run deviation (initialize_e015 deviation true InitInputs.idle State.start)
        (List.replicate 5 Inputs.idle)).hs6200_address_length = 5
      ∧ bytes (run deviation (initialize_e015 deviation true InitInputs.idle State.start)
        (List.replicate 5 Inputs.idle)).hs6200_tx_addr 5
          = bytes (initialize_e015 deviation true InitInputs.idle State.start).tx_addr 5) :=
  ⟨(phase_address_invariant deviation true InitInputs.idle State.start [] []).2.2.1
      (initialize_state deviation true InitInputs.idle State.start).1,
   (phase_address_invariant deviation true InitInputs.idle State.start
      (List.replicate 5 Inputs.idle) []).2.2.2.1
      (run_past_bind deviation (List.replicate 5 Inputs.idle)
        (initialize_e015 deviation true InitInputs.idle State.start)
        (initialize_state deviation true InitInputs.idle State.start).1
        (by rw [(initialize_state deviation true InitInputs.idle State.start).2.1]; decide)
        (by rw [(initialize_state deviation true InitInputs.idle State.start).2.1]; decide)).1⟩

/-! ## The CRC (C8, C9) -/

theorem calc_crc_loop_eq (msg : Nat → Nat) (len : Nat) :
    ∀ fuel pos crc, pos + fuel = len → 
      calc_crc_loop msg len fuel pos crc =
        (max pos (len - 1),
         (List.range' pos (len - 1 - pos)).foldl (fun c i => crc_update c (msg i) 8) crc) := by
  intro fuel
  induction fuel with
  | zero =>
    intro pos crc h
    have : len - 1 - pos = 0 := by omega
    simp only [calc_crc_loop, this, List.range'_zero, List.foldl_nil]
    congr 1; omega
  | succ f ih =>
    intro pos crc h
    simp only [calc_crc_loop]
    split_ifs with hc
    · rw [ih (pos + 1) _ (by omega)]
      have e : len - 1 - pos = (len - 1 - (pos + 1)) + 1 := by omega
      rw [e, List.range'_succ, List.foldl_cons]
      congr 1; omega
    · have : len - 1 - pos = 0 := by omega
      simp only [this, List.range'_zero, List.foldl_nil]
      congr 1; omega

/-- The value `hs6200_calc_crc` computes for `len >= 1`: `msg[0..len-2]` folded for
8 bits each, then `msg[len]` folded for 1 bit. -/
theorem hs6200_calc_crc_eq (seed : Nat) (msg : Nat → Nat) (len : Nat) (hlen : 0 < len) :
    hs6200_calc_crc seed msg len =
      crc_update ((List.range (len - 1)).foldl (fun crc i => crc_update crc (msg i) 8) seed)
        (msg len) 1 := by
  simp only [hs6200_calc_crc, calc_crc_loop_eq msg len len 0 seed (by omega)]
  have : max 0 (len - 1) + 1 = len := by omega
  simp only [this, gt_iff_lt, hlen, if_true, Nat.sub_zero, List.range_eq_range']

/-- The byte `msg[len-1]` has no influence on `hs6200_calc_crc(msg, len)`. -/
theorem calc_crc_ignores_last (seed : Nat) (msg : Nat → Nat) (len v : Nat) (hlen : 0 < len) :
    hs6200_calc_crc seed (upd msg (len - 1) v) len = hs6200_calc_crc seed msg len := by
  rw [hs6200_calc_crc_eq _ _ _ hlen, hs6200_calc_crc_eq _ _ _ hlen]
  have h1 : upd msg (len - 1) v len = msg len := by
    simp only [upd]; rw [if_neg (by omega)]
  rw [h1]
  congr 1
  apply List.foldl_ext
  intro c i hi
  have : i < len - 1 := List.mem_range.mp hi
  simp only [upd]; rw [if_neg (by omega)]

theorem and_top_iff (x : Nat) : x &&& 0x8000 = 0x8000 ↔ x.testBit 15 = true := by
  have e : (0x8000 : Nat) = 2 ^ 15 := by norm_num
  rw [e]
  constructor
  · intro h
    have := congrArg (fun t => Nat.testBit t 15) h
    simp only [Nat.testBit_and, Nat.testBit_two_pow, decide_True, Bool.and_true] at this
    exact this
  · intro h
    apply Nat.eq_of_testBit_eq
    intro i
    rw [Nat.testBit_and, Nat.testBit_two_pow]
    by_cases hi : 15 = i
    · subst hi; simp [h]
    · simp [hi]

theorem crc_shift_testBit (x i : Nat) :
    (crc_shift x).testBit i =
      (decide (i < 16) &&
        ((decide (1 ≤ i) && x.testBit (i - 1)) ^^ (x.testBit 15 && (0x1021 : Nat).testBit i))) := by
  have e : (65536 : Nat) = 2 ^ 16 := by norm_num
  simp only [crc_shift, and_top_iff, crc_poly]
  by_cases h : x.testBit 15 = true
  · rw [if_pos h, e, Nat.testBit_mod_two_pow, Nat.testBit_xor, Nat.testBit_shiftLeft, h]
    simp
  · rw [if_neg h, e, Nat.testBit_mod_two_pow, Nat.testBit_shiftLeft]
    simp only [Bool.not_eq_true] at h
    simp [h]

theorem crc_shift_lt (x : Nat) : crc_shift x < 65536 := by
  simp only [crc_shift]
  split_ifs <;> exact Nat.mod_lt _ (by decide)

theorem crc_shift_inj (x y : Nat) (hx : x < 65536) (hy : y < 65536)
    (h : crc_shift x = crc_shift y) : x = y := by
  have hb : ∀ i, (crc_shift x).testBit i = (crc_shift y).testBit i := fun i => by rw [h]
  have h15 : x.testBit 15 = y.testBit 15 := by
    have := hb 0
    rw [crc_shift_testBit, crc_shift_testBit] at this
    simpa using this
  apply Nat.eq_of_testBit_eq
  intro k
  by_cases hk : k < 15
  · have := hb (k + 1)
    rw [crc_shift_testBit, crc_shift_testBit, h15] at this
    have h16 : decide (k + 1 < 16) = true := by simp; omega
    simp only [h16, Bool.true_and, Nat.add_sub_cancel, Nat.le_add_left, decide_True] at this
    exact Bool.xor_right_inj.mp this
  · by_cases hk2 : k = 15
    · subst hk2; exact h15
    · have hx' : x < 2 ^ k := lt_of_lt_of_le hx (by
        have : (65536 : Nat) = 2 ^ 16 := by norm_num
        rw [this]; exact Nat.pow_le_pow_right (by decide) (by omega))
      have hy' : y < 2 ^ k := lt_of_lt_of_le hy (by
        have : (65536 : Nat) = 2 ^ 16 := by norm_num
        rw [this]; exact Nat.pow_le_pow_right (by decide) (by omega))
      rw [Nat.testBit_lt_two_pow hx', Nat.testBit_lt_two_pow hy']

theorem crc_update_loop_lt (bits : Nat) : ∀ x, x < 65536 → crc_update_loop bits x < 65536 := by
  induction bits with
  | zero => intro x hx; exact hx
  | succ n ih => intro x _; exact ih _ (crc_shift_lt x)

theorem crc_update_loop_inj (bits : Nat) :
    ∀ x y, x < 65536 → y < 65536 → crc_update_loop bits x = crc_update_loop bits y → x = y := by
  induction bits with
  | zero => intro x y _ _ h; exact h
  | succ n ih =>
    intro x y hx hy h
    exact crc_shift_inj x y hx hy (ih _ _ (crc_shift_lt x) (crc_shift_lt y) h)

theorem crc_update_lt (crc byte bits : Nat) : crc_update crc byte bits < 65536 :=
  crc_update_loop_lt bits _ (Nat.mod_lt _ (by decide))

theorem xor_byte_lt (crc byte : Nat) (hc : crc < 65536) (hb : byte < 256) :
    crc ^^^ (byte <<< 8) < 65536 := by
  have e : (65536 : Nat) = 2 ^ 16 := by norm_num
  rw [e]
  apply Nat.xor_lt_two_pow (by omega)
  rw [Nat.shiftLeft_eq]; omega

/-- Two different bytes folded into the same CRC give different CRCs. -/
theorem crc_update_inj_byte (crc a b bits : Nat) (hc : crc < 65536) (ha : a < 256)
    (hb : b < 256) (h : crc_update crc a bits = crc_update crc b bits) : a = b := by
  simp only [crc_update] at h
  have h1 := crc_update_loop_inj bits _ _ (Nat.mod_lt _ (by decide)) (Nat.mod_lt _ (by decide)) h
  rw [Nat.mod_eq_of_lt (xor_byte_lt crc a hc ha), Nat.mod_eq_of_lt (xor_byte_lt crc b hc hb)] at h1
  have h2 := Nat.xor_right_inj.mp h1
  rw [Nat.shiftLeft_eq, Nat.shiftLeft_eq] at h2
  omega

/-- The same byte folded into two different CRCs gives different CRCs. -/
theorem crc_update_inj_crc (c d byte bits : Nat) (hc : c < 65536) (hd : d < 65536)
    (hb : byte < 256) (h : crc_update c byte bits = crc_update d byte bits) : c = d := by
  simp only [crc_update] at h
  have h1 := crc_update_loop_inj bits _ _ (Nat.mod_lt _ (by decide)) (Nat.mod_lt _ (by decide)) h
  rw [Nat.mod_eq_of_lt (xor_byte_lt c byte hc hb), Nat.mod_eq_of_lt (xor_byte_lt d byte hd hb)] at h1
  exact Nat.xor_left_inj.mp h1


theorem flip_bit_byte (b j : Nat) (hb : b < 256) (hj : j < 8) :
    b ^^^ (1 <<< j) ≠ b ∧ b ^^^ (1 <<< j) < 256 := by
  have hpos : 1 <<< j ≠ 0 := by
    rw [Nat.shiftLeft_eq, Nat.one_mul]; exact Nat.pos_iff_ne_zero.mp (Nat.two_pow_pos j)
  refine ⟨xor_ne_self b _ hpos, ?_⟩
  have e : (256 : Nat) = 2 ^ 8 := by norm_num
  rw [e]
  apply Nat.xor_lt_two_pow (by omega)
  rw [Nat.shiftLeft_eq, Nat.one_mul]
  exact Nat.pow_lt_pow_right (by decide) hj

theorem crc_fold_cons (msg : Nat → Nat) (i : Nat) (l : List Nat) (c : Nat) :
    crc_fold msg (i :: l) c = crc_fold msg l (crc_update c (msg i) 8) := by
  simp only [crc_fold, List.foldl_cons]

theorem crc_fold_nil (msg : Nat → Nat) (c : Nat) : crc_fold msg [] c = c := by
  simp only [crc_fold, List.foldl_nil]

theorem crc_fold_lt (msg : Nat → Nat) (l : List Nat) :
    ∀ c, c < 65536 → crc_fold msg l c < 65536 := by
  induction l with
  | nil => intro c hc; rw [crc_fold_nil]; exact hc
  | cons i l ih => intro c _; rw [crc_fold_cons]; exact ih _ (crc_update_lt _ _ _)

theorem crc_fold_congr (msg msg' : Nat → Nat) (l : List Nat) (h : ∀ i ∈ l, msg' i = msg i) :
    ∀ c, crc_fold msg' l c = crc_fold msg l c := by
  induction l with
  | nil => intro c; rw [crc_fold_nil, crc_fold_nil]
  | cons i l ih =>
    intro c
    rw [crc_fold_cons, crc_fold_cons, h i (List.mem_cons_self _ _)]
    exact ih (fun t ht => h t (List.mem_cons_of_mem _ ht)) _

theorem crc_fold_inj (msg : Nat → Nat) (l : List Nat) (hb : ∀ i ∈ l, msg i < 256) :
    ∀ c d, c < 65536 → d < 65536 → crc_fold msg l c = crc_fold msg l d → c = d := by
  induction l with
  | nil => intro c d _ _ h; rw [crc_fold_nil, crc_fold_nil] at h; exact h
  | cons i l ih =>
    intro c d hc hd h
    rw [crc_fold_cons, crc_fold_cons] at h
    have := ih (fun t ht => hb t (List.mem_cons_of_mem _ ht)) _ _
      (crc_update_lt _ _ _) (crc_update_lt _ _ _) h
    exact crc_update_inj_crc c d (msg i) 8 hc hd (hb i (List.mem_cons_self _ _)) this

theorem crc_fold_append (msg : Nat → Nat) (l₁ l₂ : List Nat) (c : Nat) :
    crc_fold msg (l₁ ++ l₂) c = crc_fold msg l₂ (crc_fold msg l₁ c) := by
  simp only [crc_fold, List.foldl_append]

theorem range_split (n k : Nat) (hk : k < n) :
    List.range n = List.range k ++ (k :: List.range' (k + 1) (n - k - 1)) := by
  have h1 := List.range'_append 0 k (n - k) 1
  have e1 : n - k + k = n := by omega
  have e2 : n - k = (n - k - 1) + 1 := by omega
  rw [e1] at h1
  rw [List.range_eq_range', List.range_eq_range', ← h1]
  simp only [Nat.zero_add, Nat.one_mul]
  conv_lhs => rw [e2, List.range'_succ]

/-- A fold of `msg[0..n-1]` for 8 bits each followed by `msg[last]` for 1 bit
changes whenever one of the bytes it reads changes. -/
theorem fold_sensitive (seed : Nat) (msg msg' : Nat → Nat) (n last k : Nat)
    (hseed : seed < 65536) (hb : ∀ i, msg i < 256) (hb' : msg' k < 256)
    (hdiff : msg' k ≠ msg k) (hsame : ∀ i, i ≠ k → msg' i = msg i)
    (hn : n ≤ last) (hk : k < n ∨ k = last) :
    crc_update (crc_fold msg' (List.range n) seed) (msg' last) 1 ≠
      crc_update (crc_fold msg (List.range n) seed) (msg last) 1 := by
  intro h
  by_cases hkl : k = last
  · subst hkl
    have hc : crc_fold msg' (List.range n) seed = crc_fold msg (List.range n) seed :=
      crc_fold_congr msg msg' _ (fun i hi => hsame i (by
        have := List.mem_range.mp hi; omega)) seed
    rw [hc] at h
    exact hdiff (crc_update_inj_byte _ _ _ 1 (crc_fold_lt msg _ seed hseed) hb' (hb k) h)
  · have hkn : k < n := by omega
    rw [hsame last (fun e => hkl e.symm)] at h
    have h1 := crc_update_inj_crc _ _ _ 1 (crc_fold_lt msg' _ seed hseed)
      (crc_fold_lt msg _ seed hseed) (hb last) h
    rw [range_split n k hkn, crc_fold_append, crc_fold_append] at h1
    have hpre : crc_fold msg' (List.range k) seed = crc_fold msg (List.range k) seed :=
      crc_fold_congr msg msg' _ (fun i hi => hsame i (by
        have := List.mem_range.mp hi; omega)) seed
    rw [hpre, crc_fold_cons, crc_fold_cons] at h1
    have hsuf := crc_fold_congr msg msg' (List.range' (k + 1) (n - k - 1)) (fun i hi => hsame i (by
        have := (List.mem_range'_1.mp hi).1; omega))
    rw [hsuf] at h1
    have h2 := crc_fold_inj msg (List.range' (k + 1) (n - k - 1)) (fun i _ => hb i) _ _
      (crc_update_lt _ _ _) (crc_update_lt _ _ _) h1
    exact hdiff (crc_update_inj_byte _ _ _ 8 (crc_fold_lt msg _ seed hseed) hb' (hb k) h2)

theorem flip_bit_other (msg : Nat → Nat) (k j i : Nat) (h : i ≠ k) : flip_bit msg k j i = msg i := by
  simp only [flip_bit, upd, if_neg h]

theorem flip_bit_self (msg : Nat → Nat) (k j : Nat) :
    flip_bit msg k j k = msg k ^^^ (1 <<< j) := by
  simp only [flip_bit, upd, if_pos]

/-- The CRC as specified changes under every single-bit flip inside the message. -/
theorem calc_crc_spec_sensitive (seed : Nat) (msg : Nat → Nat) (len k j : Nat)
    (hseed : seed < 65536) (hb : ∀ i, msg i < 256) (hk : k < len) (hj : j < 8) :
    calc_crc_spec seed (flip_bit msg k j) len ≠ calc_crc_spec seed msg len := by
  have hlen : len > 0 := by omega
  obtain ⟨f1, f2⟩ := flip_bit_byte (msg k) j (hb k) hj
  simp only [calc_crc_spec, hlen, if_true]
  exact fold_sensitive seed msg (flip_bit msg k j) (len - 1) (len - 1) k hseed hb
    (by rw [flip_bit_self]; exact f2) (by rw [flip_bit_self]; exact f1)
    (fun i hi => flip_bit_other msg k j i hi) (le_refl _) (by omega)

/-- The CRC as coded changes under every single-bit flip in `msg[0..len-2]` and
in `msg[len]`. -/
theorem hs6200_calc_crc_sensitive (seed : Nat) (msg : Nat → Nat) (len k j : Nat)
    (hseed : seed < 65536) (hb : ∀ i, msg i < 256) (hlen : 0 < len)
    (hk : k < len - 1 ∨ k = len) (hj : j < 8) :
    hs6200_calc_crc seed (flip_bit msg k j) len ≠ hs6200_calc_crc seed msg len := by
  obtain ⟨f1, f2⟩ := flip_bit_byte (msg k) j (hb k) hj
  rw [hs6200_calc_crc_eq _ _ _ hlen, hs6200_calc_crc_eq _ _ _ hlen]
  exact fold_sensitive seed msg (flip_bit msg k j) (len - 1) len k hseed hb
    (by rw [flip_bit_self]; exact f2) (by rw [flip_bit_self]; exact f1)
    (fun i hi => flip_bit_other msg k j i hi) (by omega) hk

/-- C8 at the failing input: seed `0xffff`, memory `00 80` at `msg`, `len = 1`.
The code returns `0xfffe`, which is `crc_update(0xffff, msg[1], 1)`; the
claimed fold over `msg[0..0]` gives `0xefdf`; and with `msg[1]` changed to
`00` the code returns `0xefdf`, so its result depends on the byte past the
message. -/
theorem calc_crc_past_end :
    hs6200_calc_crc 0xffff (buffer [0x00, 0x80]) 1 = 0xfffe
    ∧ calc_crc_spec 0xffff (buffer [0x00, 0x80]) 1 = 0xefdf
    ∧ hs6200_calc_crc 0xffff (buffer [0x00, 0x00]) 1 = 0xefdf := by
  decide

/-- C9 at the failing input: seed `0xffff`, `len = 1`; flipping bit 0 of the
only message byte `msg[0]` (`00` to `01`) leaves the result of
`hs6200_calc_crc` unchanged. -/
theorem calc_crc_blind_to_last_byte :
    hs6200_calc_crc 0xffff (buffer [0x00, 0x00]) 1
      = hs6200_calc_crc 0xffff (buffer [0x01, 0x00]) 1 := by
  decide

/-! ## The physical payload (C10) -/

theorem WritePayload_addr_spec (a : Nat → Nat) :
    ∀ (n : Nat) (p : Nat → Nat) (pos : Nat),
      WritePayload_addr a n (p, pos) =
        (fun j => if pos ≤ j ∧ j < pos + n then a (n - 1 - (j - pos)) else p j, pos + n) := by
  intro n
  induction n with
  | zero =>
    intro p pos
    simp only [WritePayload_addr, Nat.add_zero]
    congr 1
    funext j
    rw [if_neg (by omega)]
  | succ i ih =>
    intro p pos
    simp only [WritePayload_addr, ih]
    refine Prod.ext ?_ (by simp only; omega)
    funext j
    simp only [upd]
    by_cases h1 : pos + 1 ≤ j ∧ j < pos + 1 + i
    · rw [if_pos h1, if_pos (by omega)]
      congr 1; omega
    · rw [if_neg h1]
      by_cases h2 : j = pos
      · rw [if_pos h2, if_pos (by omega)]
        congr 1; omega
      · rw [if_neg h2, if_neg (by omega)]

theorem WritePayload_scramble_spec (msg : Nat → Nat) (len : Nat) :
    ∀ (fuel i : Nat) (st : (Nat → Nat) × Nat),
      (WritePayload_scramble msg len fuel i st).2 = st.2 + min fuel (len - i)
      ∧ ∀ j, j < st.2 → (WritePayload_scramble msg len fuel i st).1 j = st.1 j := by
  intro fuel
  induction fuel with
  | zero => intro i st; simp [WritePayload_scramble]
  | succ f ih =>
    intro i st
    simp only [WritePayload_scramble]
    split_ifs with h
    · obtain ⟨h1, h2⟩ := ih (i + 1) (upd st.1 st.2
          ((((msg (i - 1) ^^^ hs6200_scramble.getD (i - 1) 0) <<< 7)
            ||| ((msg i ^^^ hs6200_scramble.getD i 0) >>> 1)) % 256), st.2 + 1)
      refine ⟨by rw [h1]; simp only; omega, fun j hj => ?_⟩
      rw [h2 j (by simp only; omega)]
      simp only [upd]
      rw [if_neg (by omega)]
    · exact ⟨by omega, fun _ _ => rfl⟩

theorem top_bit_keep (x y : Nat) (hx : x.testBit 7 = true) :
    ((x ||| y) % 256).testBit 7 = true := by
  have e : (256 : Nat) = 2 ^ 8 := by norm_num
  rw [e, Nat.testBit_mod_two_pow, Nat.testBit_or, hx]
  simp

theorem no_ack_byte : (((1 &&& 0x01) <<< 7) % 256 : Nat) = 0x80 := by decide

theorem header_spec (a : Nat → Nat) (L pid : Nat) (stack : Nat → Nat) (len : Nat)
    (hlen : len ≤ 15) :
    (WritePayload_header a L pid stack len).2 = L + 3
    ∧ (∀ j, j < L → (WritePayload_header a L pid stack len).1 j = a (L - 1 - j))
    ∧ (WritePayload_header a L pid stack len).1 L = a 0
    ∧ (WritePayload_header a L pid stack len).1 (L + 1) = a 0
    ∧ (WritePayload_header a L pid stack len).1 (L + 2) = ((len &&& 0x3f) <<< 2) ||| (pid &&& 0x03)
    ∧ (WritePayload_header a L pid stack len).1 (L + 3) = 0x80
    ∧ (∀ j, L + 3 < j → (WritePayload_header a L pid stack len).1 j = stack j) := by
  have hpcf : (((len &&& 0x3f) <<< 2) ||| (pid &&& 0x03)) % 256
      = ((len &&& 0x3f) <<< 2) ||| (pid &&& 0x03) := by
    apply Nat.mod_eq_of_lt
    have h1 : len &&& 0x3f ≤ len := Nat.and_le_left
    have h2 : pid &&& 0x03 ≤ 3 := Nat.and_le_right
    have h3 : (len &&& 0x3f) <<< 2 < 2 ^ 8 := by
      rw [Nat.shiftLeft_eq]; omega
    have h4 : pid &&& 0x03 < 2 ^ 8 := by omega
    exact Nat.or_lt_two_pow h3 h4
  simp only [WritePayload_header, WritePayload_addr_spec, no_ack_byte, hpcf, upd, Nat.zero_add]
  refine ⟨trivial, fun j hj => ?_, ?_, ?_, ?_, ?_, fun j hj => ?_⟩
  · rw [if_neg (by omega), if_neg (by omega), if_neg (by omega), if_neg (by omega),
      if_pos (by omega)]
    simp
  · split_ifs <;> first | rfl | omega
  · split_ifs <;> first | rfl | omega
  · split_ifs <;> first | rfl | omega
  · rfl
  · rw [if_neg (by omega), if_neg (by omega), if_neg (by omega), if_neg (by omega),
      if_neg (by omega)]


theorem body_spec (msg : Nat → Nat) (len : Nat) (st : (Nat → Nat) × Nat) :
    (WritePayload_body msg len st).2 = st.2 + len
    ∧ (∀ j, j < st.2 → (WritePayload_body msg len st).1 j = st.1 j)
    ∧ ((st.1 st.2).testBit 7 = true → ((WritePayload_body msg len st).1 st.2).testBit 7 = true) := by
  simp only [WritePayload_body]
  split_ifs with h
  · obtain ⟨h1, h2⟩ := WritePayload_scramble_spec msg len len 1
      (upd st.1 st.2 ((st.1 st.2 ||| ((msg 0 ^^^ hs6200_scramble.getD 0 0) >>> 1)) % 256),
        st.2 + 1)
    simp only at h1 h2 ⊢
    have hpos : (WritePayload_scramble msg len len 1
        (upd st.1 st.2 ((st.1 st.2 ||| ((msg 0 ^^^ hs6200_scramble.getD 0 0) >>> 1)) % 256),
          st.2 + 1)).2 = st.2 + len := by rw [h1]; omega
    refine ⟨hpos, fun j hj => ?_, fun hb => ?_⟩
    · simp only [upd] at h2 ⊢
      rw [hpos, if_neg (by omega), h2 j (by omega), if_neg (by omega)]
    · simp only [upd] at h2 ⊢
      rw [hpos, if_neg (by omega), h2 st.2 (by omega), if_pos rfl]
      exact top_bit_keep _ _ hb
  · have : len = 0 := by omega
    exact ⟨by omega, fun _ _ => rfl, fun hb => hb⟩

theorem crc_spec (L crc crc_init len : Nat) (st : (Nat → Nat) × Nat) :
    (WritePayload_crc L crc crc_init len st).2 = st.2 + (if crc ≠ 0 then 3 else 0)
    ∧ (∀ j, j < st.2 → (WritePayload_crc L crc crc_init len st).1 j = st.1 j)
    ∧ ((st.1 st.2).testBit 7 = true →
        ((WritePayload_crc L crc crc_init len st).1 st.2).testBit 7 = true) := by
  simp only [WritePayload_crc]
  split_ifs with h
  · refine ⟨rfl, fun j hj => ?_, fun hb => ?_⟩
    · simp only [upd]
      rw [if_neg (by omega), if_neg (by omega), if_neg (by omega)]
    · simp only [upd]
      rw [if_neg (by omega), if_neg (by omega), if_pos trivial]
      exact top_bit_keep _ _ hb
  · exact ⟨rfl, fun _ _ => rfl, fun hb => hb⟩

/-- The header of the buffer `HS6200_WritePayload` builds. -/
theorem buf_header (a : Nat → Nat) (L pid crc crc_init : Nat) (stack msg : Nat → Nat)
    (len : Nat) :
    (HS6200_WritePayload_buf a L pid crc crc_init stack msg len).2
      = L + 3 + min len 15 + (if crc ≠ 0 then 3 else 0)
    ∧ (∀ j, j < L → (HS6200_WritePayload_buf a L pid crc crc_init stack msg len).1 j
        = a (L - 1 - j))
    ∧ (HS6200_WritePayload_buf a L pid crc crc_init stack msg len).1 L = a 0
    ∧ (HS6200_WritePayload_buf a L pid crc crc_init stack msg len).1 (L + 1) = a 0
    ∧ (HS6200_WritePayload_buf a L pid crc crc_init stack msg len).1 (L + 2)
        = ((min len 15 &&& 0x3f) <<< 2) ||| (pid &&& 0x03)
    ∧ ((HS6200_WritePayload_buf a L pid crc crc_init stack msg len).1 (L + 3)).testBit 7
        = true := by
  have hmin : (if len > hs6200_scramble.length then hs6200_scramble.length else len)
      = min len 15 := by
    simp only [hs6200_scramble, List.length_cons, List.length_nil]
    split_ifs <;> omega
  simp only [HS6200_WritePayload_buf, hmin]
  obtain ⟨h1, h2, h3, h4, h5, h6, -⟩ := header_spec a L pid stack (min len 15) (by omega)
  obtain ⟨b1, b2, b3⟩ := body_spec msg (min len 15) (WritePayload_header a L pid stack (min len 15))
  obtain ⟨c1, c2, c3⟩ := crc_spec L crc crc_init (min len 15)
    (WritePayload_body msg (min len 15) (WritePayload_header a L pid stack (min len 15)))
  rw [h1] at b1 b2 b3
  rw [b1] at c1 c2 c3
  have hb7 : ((WritePayload_body msg (min len 15)
      (WritePayload_header a L pid stack (min len 15))).1 (L + 3)).testBit 7 = true :=
    b3 (by rw [h6]; decide)
  refine ⟨c1, fun j hj => ?_, ?_, ?_, ?_, ?_⟩
  · rw [c2 j (by omega), b2 j (by omega), h2 j hj]
  · rw [c2 L (by omega), b2 L (by omega), h3]
  · rw [c2 (L + 1) (by omega), b2 (L + 1) (by omega), h4]
  · rw [c2 (L + 2) (by omega), b2 (L + 2) (by omega), h5]
  · by_cases hz : min len 15 = 0
    · have e : L + 3 + min len 15 = L + 3 := by omega
      rw [e] at c3
      exact c3 hb7
    · rw [c2 (L + 3) (by omega)]
      exact hb7


theorem bytes_take (f : Nat → Nat) (n k : Nat) (h : k ≤ n) : (bytes f n).take k = bytes f k := by
  simp only [bytes, ← List.map_take, List.take_range, Nat.min_eq_left h]

theorem bytes_getD (f : Nat → Nat) (n i : Nat) (h : i < n) : (bytes f n).getD i 0 = f i := by
  simp [bytes, List.getD_eq_getElem?_getD, h]

theorem bytes_append (f : Nat → Nat) (n m : Nat) :
    bytes f (n + m) = bytes f n ++ (List.range m).map (fun j => f (n + j)) := by
  simp only [bytes, List.range_add, List.map_append, List.map_map]
  rfl

theorem WritePayload_payloads (stack msg : Nat → Nat) (len : Nat) (s : State) :
    payloads (HS6200_WritePayload stack msg len s).trace =
      payloads s.trace ++
        [frame s.hs6200_tx_addr s.hs6200_address_length s.pid s.hs6200_crc s.hs6200_crc_init
          stack msg len] := by
  cases s
  simp [HS6200_WritePayload, emit, payloads_append, payloads, frame]

/-- C10: for every link state (address length `L`), payload length and
packet id, the bytes `HS6200_WritePayload` submits start with the `L`
address bytes in reverse index order (`addr[L-1]` first, `addr[0]` last),
then two guard bytes equal to `addr[0]`, then the control byte
`((min(len,15) & 0x3f) << 2) | (pid & 3)`; bit 7 of `payload[L+3]`, the byte
after the control byte, is 1, and that byte is among the submitted bytes
whenever `len > 0` or the CRC is enabled. -/
theorem payload_header (stack msg : Nat → Nat) (len : Nat) (s : State) :
    payloads (HS6200_WritePayload stack msg len s).trace =
      payloads s.trace ++
        [frame s.hs6200_tx_addr s.hs6200_address_length s.pid s.hs6200_crc s.hs6200_crc_init
          stack msg len]
    ∧ (frame s.hs6200_tx_addr s.hs6200_address_length s.pid s.hs6200_crc s.hs6200_crc_init
          stack msg len).take (s.hs6200_address_length + 3) =
        (List.range s.hs6200_address_length).map
            (fun j => s.hs6200_tx_addr (s.hs6200_address_length - 1 - j))
          ++ [s.hs6200_tx_addr 0, s.hs6200_tx_addr 0,
              ((min len 15 &&& 0x3f) <<< 2) ||| (s.pid &&& 3)]
    ∧ ((HS6200_WritePayload_buf s.hs6200_tx_addr s.hs6200_address_length s.pid s.hs6200_crc
          s.hs6200_crc_init stack msg len).1 (s.hs6200_address_length + 3)).testBit 7 = true
    ∧ ((0 < len ∨ s.hs6200_crc ≠ 0) →
        ((frame s.hs6200_tx_addr s.hs6200_address_length s.pid s.hs6200_crc s.hs6200_crc_init
          stack msg len).getD (s.hs6200_address_length + 3) 0).testBit 7 = true) := by
  obtain ⟨h1, h2, h3, h4, h5, h6⟩ := buf_header s.hs6200_tx_addr s.hs6200_address_length s.pid
    s.hs6200_crc s.hs6200_crc_init stack msg len
  refine ⟨WritePayload_payloads stack msg len s, ?_, h6, fun h => ?_⟩
  · simp only [frame]
    rw [bytes_take _ _ _ (by rw [h1]; omega), bytes_append]
    congr 1
    · exact List.map_congr_left (fun j hj => h2 j (List.mem_range.mp hj))
    · simp only [List.range, List.range.loop, List.map_cons, List.map_nil, Nat.add_zero, h3, h4,
        h5]
  · simp only [frame]
    rw [bytes_getD _ _ _ (by rw [h1]; split_ifs <;> omega)]
    exact h6

/-- C10 at the program-start state with the bind address configured: a 9-byte
packet, where the byte after the control byte is submitted with bit 7 set. -/
theorem payload_header_witness :
    ((frame (HS6200_SetTXAddr bind_address 5 State.start).hs6200_tx_addr
        (HS6200_SetTXAddr bind_address 5 State.start).hs6200_address_length
        (HS6200_SetTXAddr bind_address 5 State.start).pid
        (HS6200_SetTXAddr bind_address 5 State.start).hs6200_crc
        (HS6200_SetTXAddr bind_address 5 State.start).hs6200_crc_init
        Inputs.idle.stack1 State.start.packet 9).getD
      ((HS6200_SetTXAddr bind_address 5 State.start).hs6200_address_length + 3) 0).testBit 7
      = true :=
  (payload_header Inputs.idle.stack1 State.start.packet 9
    (HS6200_SetTXAddr bind_address 5 State.start)).2.2.2 (Or.inl (by decide))

/-! ## Address configuration (C13, C15) -/

theorem SetTXAddr_normal (addr : Nat → Nat) (len : Nat) (s : State) (L : Nat)
    (h : (if len < 4 then 4 else if len > 5 then 5 else len) = L) :
    HS6200_SetTXAddr addr len s =
      { s with
        hs6200_crc_init := SetTXAddr_loop addr L L 0 0xffff
        hs6200_tx_addr := memcpy s.hs6200_tx_addr addr L
        hs6200_address_length := L
        trace := s.trace ++
          [.NRF24L01_WriteRegisterMulti .TX_ADDR
            (if addr (L - 1) &&& 0x80 ≠ 0 then [0x55, 0x55, 0x55, 0x55, 0x55]
              else [0xaa, 0xaa, 0xaa, 0xaa, 0xaa])] } := by
  cases s
  simp only [HS6200_SetTXAddr, h, emit]
  split_ifs <;> rfl

theorem clamp_eq (len : Nat) :
    (if len < 4 then 4 else if len > 5 then 5 else len) = min (max len 4) 5 := by
  split_ifs <;> omega

theorem SetTXAddr_loop_eq (addr : Nat → Nat) (len : Nat) :
    ∀ fuel i crc, i + fuel = len →
      SetTXAddr_loop addr len fuel i crc
        = crc_fold (fun j => addr (len - 1 - j)) (List.range' i fuel) crc := by
  intro fuel
  induction fuel with
  | zero => intro i crc _; rw [List.range'_zero, crc_fold_nil]; rfl
  | succ f ih =>
    intro i crc h
    rw [List.range'_succ, crc_fold_cons]
    simp only [SetTXAddr_loop]
    rw [if_pos (by omega), ih (i + 1) _ (by omega)]

theorem crc_fold_map (f : Nat → Nat) (l : List Nat) (c : Nat) :
    crc_fold f l c = (l.map f).foldl (fun c b => crc_update c b 8) c := by
  simp only [crc_fold, List.foldl_map]

theorem poly_testBit_high (i : Nat) (h : 16 ≤ i) : (0x1021 : Nat).testBit i = false := by
  apply Nat.testBit_lt_two_pow
  calc (0x1021 : Nat) < 2 ^ 16 := by norm_num
    _ ≤ 2 ^ i := Nat.pow_le_pow_right (by norm_num) h

theorem crc16_spec_bit_testBit (d : Nat) (b : Bool) (i : Nat) :
    (crc16_spec_bit d b).testBit i =
      (decide (i < 16) &&
        ((decide (1 ≤ i) && d.testBit (i - 1))
          ^^ ((d.testBit 15 ^^ b) && (0x1021 : Nat).testBit i))) := by
  have e : (65536 : Nat) = 2 ^ 16 := by norm_num
  simp only [crc16_spec_bit]
  by_cases h : (d.testBit 15 ^^ b) = true
  · rw [if_pos h, Nat.testBit_xor, e, Nat.testBit_mod_two_pow, Nat.testBit_shiftLeft, h]
    by_cases hi : i < 16
    · simp [hi]
    · rw [poly_testBit_high i (by omega)]
      simp [hi]
  · rw [if_neg h, e, Nat.testBit_mod_two_pow, Nat.testBit_shiftLeft]
    simp only [Bool.not_eq_true] at h
    simp [h]

theorem bool_step : ∀ (a b c d e f g : Bool),
    (a && ((b && (c ^^ d)) ^^ ((e ^^ f) && g)))
      = ((a && ((b && c) ^^ ((e ^^ f) && g))) ^^ (a && (b && d))) := by
  decide

/-- One shift of the source's register, which holds the register of the
bit-serial form XORed with the bits still to enter. -/
theorem crc_shift_xor (d r : Nat) :
    crc_shift (d ^^^ r) = crc16_spec_bit d (r.testBit 15) ^^^ ((r <<< 1) % 65536) := by
  have e : (65536 : Nat) = 2 ^ 16 := by norm_num
  apply Nat.eq_of_testBit_eq
  intro i
  rw [crc_shift_testBit, e]
  simp only [Nat.testBit_xor, crc16_spec_bit_testBit, Nat.testBit_mod_two_pow,
    Nat.testBit_shiftLeft]
  exact bool_step _ _ _ _ _ _ _

theorem xor_mod_right (c x : Nat) (hc : c < 65536) :
    (c ^^^ x) % 65536 = c ^^^ (x % 65536) := by
  have e : (65536 : Nat) = 2 ^ 16 := by norm_num
  rw [e] at hc ⊢
  apply Nat.eq_of_testBit_eq
  intro i
  simp only [Nat.testBit_xor, Nat.testBit_mod_two_pow]
  by_cases hi : i < 16
  · simp [hi]
  · have : c.testBit i = false :=
      Nat.testBit_lt_two_pow (lt_of_lt_of_le hc (Nat.pow_le_pow_right (by norm_num) (by omega)))
    simp [hi, this]

theorem shl_mod (x m : Nat) :
    (((x <<< m) % 65536) <<< 1) % 65536 = (x <<< (m + 1)) % 65536 := by
  have h1 : x <<< (m + 1) = (x <<< m) * 2 := by
    rw [Nat.shiftLeft_eq, Nat.shiftLeft_eq, pow_succ, Nat.mul_assoc]
  have h2 : ∀ y : Nat, y <<< 1 = y * 2 := fun y => by rw [Nat.shiftLeft_eq, pow_one]
  rw [h1, h2, Nat.mul_mod, Nat.mod_mod, ← Nat.mul_mod]

theorem shl_mod_bit (x m : Nat) (h2 : m ≤ 15) :
    ((x <<< m) % 65536).testBit 15 = x.testBit (15 - m) := by
  have e : (65536 : Nat) = 2 ^ 16 := by norm_num
  rw [e, Nat.testBit_mod_two_pow, Nat.testBit_shiftLeft]
  simp [h2]

theorem shl_mod_out (x : Nat) : (x <<< 16) % 65536 = 0 := by
  rw [Nat.shiftLeft_eq]
  have e : (2 : Nat) ^ 16 = 65536 := by norm_num
  rw [e]
  omega

/-- The source's `crc_update(crc, byte, 8)` is the bit-serial CRC step of the
spec over the eight bits of `byte`, most significant first. -/
theorem crc_update_spec (crc byte : Nat) (hc : crc < 65536) :
    crc_update crc byte 8 = crc16_spec_byte crc byte := by
  simp only [crc_update, crc_update_loop]
  rw [xor_mod_right crc _ hc]
  rw [crc_shift_xor, crc_shift_xor, crc_shift_xor, crc_shift_xor, crc_shift_xor,
    crc_shift_xor, crc_shift_xor, crc_shift_xor]
  simp only [shl_mod]
  rw [shl_mod_out, Nat.xor_zero,
    shl_mod_bit byte 8 (by decide), shl_mod_bit byte (8 + 1) (by decide),
    shl_mod_bit byte (8 + 1 + 1) (by decide),
    shl_mod_bit byte (8 + 1 + 1 + 1) (by decide),
    shl_mod_bit byte (8 + 1 + 1 + 1 + 1) (by decide),
    shl_mod_bit byte (8 + 1 + 1 + 1 + 1 + 1) (by decide),
    shl_mod_bit byte (8 + 1 + 1 + 1 + 1 + 1 + 1) (by decide),
    shl_mod_bit byte (8 + 1 + 1 + 1 + 1 + 1 + 1 + 1) (by decide)]
  rfl

theorem crc16_spec_byte_lt (crc byte : Nat) (hc : crc < 65536) :
    crc16_spec_byte crc byte < 65536 := by
  rw [← crc_update_spec crc byte hc]
  exact crc_update_lt _ _ _

/-- A fold of the source's `crc_update(., ., 8)` over a list of bytes is the
bit-serial CRC of the spec over that list. -/
theorem crc_update_fold_spec (l : List Nat) :
    ∀ c, c < 65536 →
      l.foldl (fun c b => crc_update c b 8) c = l.foldl crc16_spec_byte c := by
  induction l with
  | nil => intro c _; rfl
  | cons b l ih =>
    intro c hc
    rw [List.foldl_cons, List.foldl_cons, crc_update_spec c b hc]
    exact ih _ (crc16_spec_byte_lt c b hc)

set_option maxRecDepth 100000 in
/-- The check value of CRC-16/CCITT-FALSE: the ASCII digits `123456789` give 0x29B1. -/
theorem crc16_spec_check : crc16_spec [0x31, 0x32, 0x33, 0x34, 0x35, 0x36, 0x37, 0x38, 0x39] = 0x29B1 := by
  decide

/-- C15: after `HS6200_SetTXAddr(addr, len)` with clamped length `L`, the seed
`hs6200_crc_init` is the fold of `crc_update(., ., 8)` from 0xFFFF over
`addr[L-1], ..., addr[0]`, and these are, in this order, the first `L` bytes every later
`HS6200_WritePayload` submits. That fold is the CRC of the spec's words: `crc_update` with 8
bits is the bit-serial register with polynomial 0x1021 fed the byte most significant bit
first, so the seed is that CRC, started at 0xFFFF, of `addr[L-1], ..., addr[0]`; on the ASCII
digits `123456789` it gives 0x29B1. -/
theorem crc_seed_order (addr : Nat → Nat) (len : Nat) (s : State)
    (stack msg : Nat → Nat) (n : Nat) :
    crc_poly = 0x1021
    ∧ (HS6200_SetTXAddr addr len s).hs6200_address_length = min (max len 4) 5
    ∧ (HS6200_SetTXAddr addr len s).hs6200_crc_init =
        ((List.range (min (max len 4) 5)).map (fun i => addr (min (max len 4) 5 - 1 - i))).foldl
          (fun crc b => crc_update crc b 8) 0xffff
    ∧ (frame (HS6200_SetTXAddr addr len s).hs6200_tx_addr
          (HS6200_SetTXAddr addr len s).hs6200_address_length
          (HS6200_SetTXAddr addr len s).pid (HS6200_SetTXAddr addr len s).hs6200_crc
          (HS6200_SetTXAddr addr len s).hs6200_crc_init stack msg n).take (min (max len 4) 5)
        = (List.range (min (max len 4) 5)).map (fun i => addr (min (max len 4) 5 - 1 - i))
    ∧ (HS6200_SetTXAddr addr len s).hs6200_crc_init =
        crc16_spec
          ((List.range (min (max len 4) 5)).map (fun i => addr (min (max len 4) 5 - 1 - i)))
    ∧ (∀ crc byte : Nat, crc < 65536 → crc_update crc byte 8 = crc16_spec_byte crc byte)
    ∧ crc16_spec [0x31, 0x32, 0x33, 0x34, 0x35, 0x36, 0x37, 0x38, 0x39] = 0x29B1 := by
  rw [SetTXAddr_normal addr len s _ (clamp_eq len)]
  refine ⟨rfl, rfl, ?_, ?_, ?_, crc_update_spec, crc16_spec_check⟩
  · show SetTXAddr_loop addr _ _ 0 0xffff = _
    rw [SetTXAddr_loop_eq addr _ _ 0 _ (by omega), ← List.range_eq_range', crc_fold_map]
  · simp only [frame]
    obtain ⟨h1, h2, -⟩ := buf_header (memcpy s.hs6200_tx_addr addr (min (max len 4) 5))
      (min (max len 4) 5) s.pid s.hs6200_crc
      (SetTXAddr_loop addr (min (max len 4) 5) (min (max len 4) 5) 0 0xffff) stack msg n
    rw [bytes_take _ _ _ (by rw [h1]; omega)]
    simp only [bytes]
    apply List.map_congr_left
    intro j hj
    have hj' := List.mem_range.mp hj
    rw [h2 j hj']
    simp only [memcpy]
    rw [if_pos (by omega)]
  · show SetTXAddr_loop addr _ _ 0 0xffff = _
    rw [SetTXAddr_loop_eq addr _ _ 0 _ (by omega), ← List.range_eq_range', crc_fold_map]
    exact crc_update_fold_spec _ 0xffff (by decide)

/-- C13: `HS6200_SetTXAddr(addr, len)` leaves exactly the state, preamble write included,
that `HS6200_SetTXAddr(addr, min(max(len, 4), 5))` leaves; length 3 behaves as 4 and length
6 as 5; afterwards the stored address length is the clamped one, so 4 or 5. -/
theorem address_clamp (addr : Nat → Nat) (len : Nat) (s : State) :
    HS6200_SetTXAddr addr len s = HS6200_SetTXAddr addr (min (max len 4) 5) s
    ∧ HS6200_SetTXAddr addr 3 s = HS6200_SetTXAddr addr 4 s
    ∧ HS6200_SetTXAddr addr 6 s = HS6200_SetTXAddr addr 5 s
    ∧ (HS6200_SetTXAddr addr len s).hs6200_address_length = min (max len 4) 5
    ∧ ((HS6200_SetTXAddr addr len s).hs6200_address_length = 4
        ∨ (HS6200_SetTXAddr addr len s).hs6200_address_length = 5) := by
  have hidem : (if min (max len 4) 5 < 4 then 4 else if min (max len 4) 5 > 5 then 5
      else min (max len 4) 5) = min (max len 4) 5 := by
    split_ifs <;> omega
  refine ⟨?_, ?_, ?_, ?_, ?_⟩
  · rw [SetTXAddr_normal addr len s _ (clamp_eq len),
      SetTXAddr_normal addr (min (max len 4) 5) s _ hidem]
  · rw [SetTXAddr_normal addr 3 s 4 (by decide), SetTXAddr_normal addr 4 s 4 (by decide)]
  · rw [SetTXAddr_normal addr 6 s 5 (by decide), SetTXAddr_normal addr 5 s 5 (by decide)]
  · rw [SetTXAddr_normal addr len s _ (clamp_eq len)]
  · rw [SetTXAddr_normal addr len s _ (clamp_eq len)]
    show min (max len 4) 5 = 4 ∨ min (max len 4) 5 = 5
    omega

/-! ## Scrambled payload (C17) -/

theorem scramble_content (msg : Nat → Nat) (len : Nat) :
    ∀ (fuel i : Nat) (st : (Nat → Nat) × Nat), len ≤ i + fuel →
      (WritePayload_scramble msg len fuel i st).2 = st.2 + (len - i)
      ∧ (∀ k, i ≤ k → k < len →
          (WritePayload_scramble msg len fuel i st).1 (st.2 + (k - i))
            = ((scrambled msg (k - 1) <<< 7) ||| (scrambled msg k >>> 1)) % 256)
      ∧ (∀ j, j < st.2 ∨ st.2 + (len - i) ≤ j →
          (WritePayload_scramble msg len fuel i st).1 j = st.1 j) := by
  intro fuel
  induction fuel with
  | zero =>
    intro i st h
    simp only [WritePayload_scramble]
    exact ⟨by omega, fun k h1 h2 => by omega, fun _ _ => trivial⟩
  | succ f ih =>
    intro i st h
    simp only [WritePayload_scramble]
    split_ifs with hi
    · obtain ⟨h1, h2, h3⟩ := ih (i + 1) (upd st.1 st.2
          ((((msg (i - 1) ^^^ hs6200_scramble.getD (i - 1) 0) <<< 7)
            ||| ((msg i ^^^ hs6200_scramble.getD i 0) >>> 1)) % 256), st.2 + 1) (by omega)
      simp only at h1 h2 h3
      refine ⟨by rw [h1]; omega, fun k hk1 hk2 => ?_, fun j hj => ?_⟩
      · by_cases hki : k = i
        · subst hki
          rw [h3 (st.2 + (k - k)) (Or.inl (by omega))]
          simp only [upd, scrambled]
          rw [if_pos (by omega)]
        · have e : st.2 + (k - i) = st.2 + 1 + (k - (i + 1)) := by omega
          rw [e]
          exact h2 k (by omega) hk2
      · rw [h3 j (by omega)]
        simp only [upd]
        rw [if_neg (by omega)]
    · exact ⟨by omega, fun k h1 h2 => by omega, fun _ _ => rfl⟩

theorem body_content (msg : Nat → Nat) (n : Nat) (st : (Nat → Nat) × Nat) (hn : 0 < n) :
    (WritePayload_body msg n st).2 = st.2 + n
    ∧ (WritePayload_body msg n st).1 st.2 = (st.1 st.2 ||| (scrambled msg 0 >>> 1)) % 256
    ∧ (∀ k, 1 ≤ k → k < n →
        (WritePayload_body msg n st).1 (st.2 + k)
          = ((scrambled msg (k - 1) <<< 7) ||| (scrambled msg k >>> 1)) % 256)
    ∧ (WritePayload_body msg n st).1 (st.2 + n) = (scrambled msg (n - 1) <<< 7) % 256
    ∧ (∀ j, j < st.2 ∨ st.2 + n < j → (WritePayload_body msg n st).1 j = st.1 j) := by
  obtain ⟨h1, h2, h3⟩ := scramble_content msg n n 1
    (upd st.1 st.2 ((st.1 st.2 ||| ((msg 0 ^^^ hs6200_scramble.getD 0 0) >>> 1)) % 256),
      st.2 + 1) (by omega)
  simp only at h1 h2 h3
  have hpos : (WritePayload_scramble msg n n 1
      (upd st.1 st.2 ((st.1 st.2 ||| ((msg 0 ^^^ hs6200_scramble.getD 0 0) >>> 1)) % 256),
        st.2 + 1)).2 = st.2 + n := by rw [h1]; omega
  simp only [WritePayload_body, gt_iff_lt, hn, if_true, hpos]
  refine ⟨trivial, ?_, fun k hk1 hk2 => ?_, ?_, fun j hj => ?_⟩
  · simp only [upd]
    rw [if_neg (by omega), h3 st.2 (Or.inl (by omega))]
    simp only [upd, scrambled]
    rw [if_pos trivial]
  · simp only [upd]
    rw [if_neg (by omega)]
    have e : st.2 + k = st.2 + 1 + (k - 1) := by omega
    rw [e]
    exact h2 k hk1 hk2
  · simp only [upd, scrambled]
    rw [if_pos trivial]
  · simp only [upd]
    rw [if_neg (by omega), h3 j (by omega)]
    simp only [upd]
    rw [if_neg (by omega)]

theorem crc_at_pos (L crc crc_init n : Nat) (st : (Nat → Nat) × Nat) :
    (WritePayload_crc L crc crc_init n st).1 st.2 =
      if crc ≠ 0 then
        (st.1 st.2 |||
          (((hs6200_calc_crc crc_init (fun i => st.1 (L + 2 + i)) (n + 2) >>> 8) % 256) >>> 1))
          % 256
      else st.1 st.2 := by
  simp only [WritePayload_crc]
  split_ifs with h
  · simp only [upd]
    rw [if_neg (by omega), if_neg (by omega), if_pos trivial]
  · rfl

theorem testBit_ge_eight (x t : Nat) (hx : x < 256) (ht : 8 ≤ t) : x.testBit t = false := by
  apply Nat.testBit_lt_two_pow
  have : (256 : Nat) = 2 ^ 8 := by norm_num
  calc x < 2 ^ 8 := by omega
    _ ≤ 2 ^ t := Nat.pow_le_pow_right (by decide) ht

/-- Bit 7 of the byte that carries the last payload bit, with or without the
CRC bits ORed in below it. -/
theorem last_bit_kept (x h : Nat) (hh : h < 256) :
    ((((x <<< 7) % 256) ||| (h >>> 1)) % 256).testBit 7 = x.testBit 0
    ∧ ((x <<< 7) % 256).testBit 7 = x.testBit 0 := by
  have e : (256 : Nat) = 2 ^ 8 := by norm_num
  have hh8 : h.testBit 8 = false := testBit_ge_eight h 8 hh (le_refl _)
  rw [e]
  simp only [Nat.testBit_mod_two_pow, Nat.testBit_or, Nat.testBit_shiftLeft,
    Nat.testBit_shiftRight]
  simp [hh8]

/-- Undoing the one-bit shift: a byte `B` whose low 7 bits are the high 7 bits
of `x`, followed by a byte `N` whose bit 7 is bit 0 of `x`, give back `x`. -/
theorem unshift (B N x : Nat) (hx : x < 256) (hN : N < 256)
    (hB : ∀ t, t < 7 → B.testBit t = x.testBit (t + 1))
    (hN7 : N.testBit 7 = x.testBit 0) :
    ((B <<< 1) % 256) ||| (N >>> 7) = x := by
  have e : (256 : Nat) = 2 ^ 8 := by norm_num
  apply Nat.eq_of_testBit_eq
  intro t
  rw [e]
  simp only [Nat.testBit_or, Nat.testBit_mod_two_pow, Nat.testBit_shiftLeft,
    Nat.testBit_shiftRight]
  by_cases h0 : t = 0
  · subst h0
    simp [hN7]
  · by_cases h8 : t < 8
    · have hN' : N.testBit (7 + t) = false := testBit_ge_eight N _ hN (by omega)
      have hB' := hB (t - 1) (by omega)
      have e1 : t - 1 + 1 = t := by omega
      rw [e1] at hB'
      have h1 : decide (t ≥ 1) = true := by simp; omega
      simp [h8, h1, hB', hN']
    · have hN' : N.testBit (7 + t) = false := testBit_ge_eight N _ hN (by omega)
      have hx' : x.testBit t = false := testBit_ge_eight x _ hx (by omega)
      simp [h8, hN', hx']

/-- The low 7 bits of a payload byte in the buffer are the high 7 bits of the
scrambled byte it starts with. -/
theorem low_bits (P x t : Nat) (hP : ∀ u, u < 7 → P.testBit u = false)
    (ht : t < 7) : ((P ||| (x >>> 1)) % 256).testBit t = x.testBit (t + 1) := by
  have e : (256 : Nat) = 2 ^ 8 := by norm_num
  rw [e, Nat.testBit_mod_two_pow, Nat.testBit_or, Nat.testBit_shiftRight, hP t ht]
  have : decide (t < 8) = true := by simp; omega
  simp [this, Nat.add_comm]

theorem scramble_lt (i : Nat) : hs6200_scramble.getD i 0 < 256 := by
  by_cases h : i < 15
  · interval_cases i <;> decide
  · have hl : hs6200_scramble.length ≤ i := by
      have : hs6200_scramble.length = 15 := rfl
      omega
    rw [List.getD_eq_default _ _ hl]
    decide

theorem scrambled_lt (msg : Nat → Nat) (i : Nat) (h : msg i < 256) : scrambled msg i < 256 := by
  have e : (256 : Nat) = 2 ^ 8 := by norm_num
  simp only [scrambled]
  rw [e] at *
  exact Nat.xor_lt_two_pow h (by rw [← e]; exact scramble_lt i)

theorem mid_bit (x y : Nat) (hy : y < 256) :
    (((x <<< 7) ||| (y >>> 1)) % 256).testBit 7 = x.testBit 0 := by
  have e : (256 : Nat) = 2 ^ 8 := by norm_num
  have hy8 : y.testBit 8 = false := testBit_ge_eight y 8 hy (le_refl _)
  rw [e]
  simp only [Nat.testBit_mod_two_pow, Nat.testBit_or, Nat.testBit_shiftLeft,
    Nat.testBit_shiftRight]
  simp [hy8]

theorem shl7_low (w u : Nat) (hu : u < 7) : (w <<< 7).testBit u = false := by
  rw [Nat.testBit_shiftLeft]
  have : decide (u ≥ 7) = false := by simp; omega
  simp [this]

theorem x80_low (u : Nat) (hu : u < 7) : (0x80 : Nat).testBit u = false := by
  have e : (0x80 : Nat) = 2 ^ 7 := by norm_num
  rw [e, Nat.testBit_two_pow]
  simp; omega

/-- The payload section of the buffer `HS6200_WritePayload` builds, for a
non-empty payload of clamped length `n = min len 15`. -/
theorem buf_content (a : Nat → Nat) (L pid crc crc_init : Nat) (stack msg : Nat → Nat)
    (len : Nat) (hn : 0 < min len 15) :
    (HS6200_WritePayload_buf a L pid crc crc_init stack msg len).1 (L + 3)
        = (0x80 ||| (scrambled msg 0 >>> 1)) % 256
    ∧ (∀ k, 1 ≤ k → k < min len 15 →
        (HS6200_WritePayload_buf a L pid crc crc_init stack msg len).1 (L + 3 + k)
          = ((scrambled msg (k - 1) <<< 7) ||| (scrambled msg k >>> 1)) % 256)
    ∧ (∃ H, H < 256 ∧
        (HS6200_WritePayload_buf a L pid crc crc_init stack msg len).1 (L + 3 + min len 15)
          = if crc ≠ 0 then
              (((scrambled msg (min len 15 - 1) <<< 7) % 256) ||| (H >>> 1)) % 256
            else (scrambled msg (min len 15 - 1) <<< 7) % 256) := by
  have hmin : (if len > hs6200_scramble.length then hs6200_scramble.length else len)
      = min len 15 := by
    simp only [hs6200_scramble, List.length_cons, List.length_nil]
    split_ifs <;> omega
  simp only [HS6200_WritePayload_buf, hmin]
  obtain ⟨h1, -, -, -, -, h6, -⟩ := header_spec a L pid stack (min len 15) (by omega)
  obtain ⟨b1, b2, b3, b4, -⟩ := body_content msg (min len 15)
    (WritePayload_header a L pid stack (min len 15)) hn
  obtain ⟨-, c2, -⟩ := crc_spec L crc crc_init (min len 15)
    (WritePayload_body msg (min len 15) (WritePayload_header a L pid stack (min len 15)))
  have c4 := crc_at_pos L crc crc_init (min len 15)
    (WritePayload_body msg (min len 15) (WritePayload_header a L pid stack (min len 15)))
  rw [h1] at b1 b2 b3 b4
  rw [b1] at c2 c4
  refine ⟨?_, fun k hk1 hk2 => ?_, ?_⟩
  · rw [c2 (L + 3) (by omega), b2, h6]
  · rw [c2 (L + 3 + k) (by omega), b3 k hk1 hk2]
  · rw [b4] at c4
    exact ⟨_, Nat.mod_lt _ (by decide), c4⟩

theorem frame_getD (a : Nat → Nat) (L pid crc crc_init : Nat) (stack msg : Nat → Nat)
    (len j : Nat) (hj : j < L + 3 + min len 15 + (if crc ≠ 0 then 3 else 0)) :
    (frame a L pid crc crc_init stack msg len).getD j 0
      = (HS6200_WritePayload_buf a L pid crc crc_init stack msg len).1 j := by
  simp only [frame]
  rw [bytes_getD _ _ _ (by rw [(buf_header a L pid crc crc_init stack msg len).1]; exact hj)]

/-- C17: with the CRC enabled and `n = min(len, 15) ≥ 1`, for every `i < n` the message
byte is recovered from the submitted bytes `phys`:
`(((phys[L+3+i] << 1) mod 256) | (phys[L+3+i+1] >> 7)) XOR hs6200_scramble[i] = msg[i]`. -/
theorem scramble_roundtrip (a : Nat → Nat) (L pid crc crc_init : Nat) (stack msg : Nat → Nat)
    (len : Nat) (hcrc : crc ≠ 0) (hn : 1 ≤ min len 15)
    (hmsg : ∀ i, i < min len 15 → msg i < 256) :
    ∀ i, i < min len 15 →
      ((((frame a L pid crc crc_init stack msg len).getD (L + 3 + i) 0) <<< 1) % 256
        ||| ((frame a L pid crc crc_init stack msg len).getD (L + 3 + i + 1) 0 >>> 7))
        ^^^ hs6200_scramble.getD i 0 = msg i := by
  intro i hi
  obtain ⟨h0, hk, H, hH, hlast⟩ := buf_content a L pid crc crc_init stack msg len (by omega)
  rw [if_pos hcrc] at hlast
  rw [frame_getD _ _ _ _ _ _ _ _ _ (by rw [if_pos hcrc]; omega),
    frame_getD _ _ _ _ _ _ _ _ _ (by rw [if_pos hcrc]; omega)]
  have hx : scrambled msg i < 256 := scrambled_lt msg i (hmsg i hi)
  have hB : ∀ t, t < 7 →
      ((HS6200_WritePayload_buf a L pid crc crc_init stack msg len).1 (L + 3 + i)).testBit t
        = (scrambled msg i).testBit (t + 1) := by
    intro t ht
    by_cases hi0 : i = 0
    · subst hi0
      rw [Nat.add_zero, h0]
      exact low_bits _ _ t (fun u hu => x80_low u hu) ht
    · rw [hk i (by omega) hi]
      exact low_bits _ _ t (fun u hu => shl7_low _ u hu) ht
  have hN : (HS6200_WritePayload_buf a L pid crc crc_init stack msg len).1 (L + 3 + i + 1) < 256
      ∧ ((HS6200_WritePayload_buf a L pid crc crc_init stack msg len).1 (L + 3 + i + 1)).testBit 7
        = (scrambled msg i).testBit 0 := by
    by_cases hin : i + 1 < min len 15
    · have e : L + 3 + i + 1 = L + 3 + (i + 1) := by omega
      rw [e, hk (i + 1) (by omega) hin, Nat.add_sub_cancel]
      exact ⟨Nat.mod_lt _ (by decide),
        mid_bit _ _ (scrambled_lt msg (i + 1) (hmsg (i + 1) hin))⟩
    · have e : L + 3 + i + 1 = L + 3 + min len 15 := by omega
      have e2 : min len 15 - 1 = i := by omega
      rw [e, hlast, e2]
      exact ⟨Nat.mod_lt _ (by decide), (last_bit_kept _ H hH).1⟩
  rw [unshift _ _ _ hx hN.1 hB hN.2]
  simp only [scrambled]
  rw [Nat.xor_assoc, Nat.xor_self, Nat.xor_zero]

/-- C17 at the bind address (length 5), CRC enabled, a 10-byte message of `0x5a`
bytes: the first and the last message byte are recovered from the submitted frame. -/
theorem scramble_roundtrip_witness :
    ((((frame bind_address 5 0 1 0xffff (fun _ => 0) (fun _ => 0x5a) 10).getD (5 + 3 + 0) 0)
          <<< 1) % 256
      ||| ((frame bind_address 5 0 1 0xffff (fun _ => 0) (fun _ => 0x5a) 10).getD
          (5 + 3 + 0 + 1) 0 >>> 7))
      ^^^ hs6200_scramble.getD 0 0 = 0x5a
    ∧ ((((frame bind_address 5 0 1 0xffff (fun _ => 0) (fun _ => 0x5a) 10).getD (5 + 3 + 9) 0)
          <<< 1) % 256
      ||| ((frame bind_address 5 0 1 0xffff (fun _ => 0) (fun _ => 0x5a) 10).getD
          (5 + 3 + 9 + 1) 0 >>> 7))
      ^^^ hs6200_scramble.getD 9 0 = 0x5a :=
  ⟨scramble_roundtrip bind_address 5 0 1 0xffff (fun _ => 0) (fun _ => 0x5a) 10
      (by decide) (by decide) (fun _ _ => show (0x5a : Nat) < 256 by decide) 0 (by decide),
   scramble_roundtrip bind_address 5 0 1 0xffff (fun _ => 0) (fun _ => 0x5a) 10
      (by decide) (by decide) (fun _ _ => show (0x5a : Nat) < 256 by decide) 9 (by decide)⟩

/-! ## Truncation to the scramble table (C14) -/

theorem scramble_congr (msg msg' : Nat → Nat) (len : Nat) (h : ∀ k, k < len → msg' k = msg k) :
    ∀ (fuel i : Nat) (st : (Nat → Nat) × Nat),
      WritePayload_scramble msg' len fuel i st = WritePayload_scramble msg len fuel i st := by
  intro fuel
  induction fuel with
  | zero => intro i st; simp only [WritePayload_scramble]
  | succ f ih =>
    intro i st
    simp only [WritePayload_scramble]
    split_ifs with hi
    · rw [h (i - 1) (by omega), h i hi, ih]
    · rfl

theorem body_congr (msg msg' : Nat → Nat) (n : Nat) (h : ∀ k, k < n → msg' k = msg k)
    (st : (Nat → Nat) × Nat) : WritePayload_body msg' n st = WritePayload_body msg n st := by
  simp only [WritePayload_body]
  split_ifs with hn
  · rw [h 0 hn, h (n - 1) (by omega), scramble_congr msg msg' n h]
  · rfl

theorem clamp15 (len : Nat) :
    (if len > hs6200_scramble.length then hs6200_scramble.length else len) = min len 15 := by
  simp only [hs6200_scramble, List.length_cons, List.length_nil]
  split_ifs <;> omega

theorem buf_congr (a : Nat → Nat) (L pid crc crc_init : Nat) (stack msg msg' : Nat → Nat)
    (len : Nat) (h : ∀ k, k < min len 15 → msg' k = msg k) :
    HS6200_WritePayload_buf a L pid crc crc_init stack msg' len
      = HS6200_WritePayload_buf a L pid crc crc_init stack msg len := by
  simp only [HS6200_WritePayload_buf, clamp15]
  rw [body_congr msg msg' (min len 15) h]

theorem buf_clamp (a : Nat → Nat) (L pid crc crc_init : Nat) (stack msg : Nat → Nat)
    (len : Nat) :
    HS6200_WritePayload_buf a L pid crc crc_init stack msg len
      = HS6200_WritePayload_buf a L pid crc crc_init stack msg (min len 15) := by
  have e : min (min len 15) 15 = min len 15 := by omega
  simp only [HS6200_WritePayload_buf, clamp15, e]

/-- C14: `HS6200_WritePayload(msg, len)` with `len > 15` submits the bytes that
`HS6200_WritePayload(msg, 15)` submits, and two messages that agree at the indices below 15
lead to the same submitted bytes: `msg[15]` and beyond never reach the output. -/
theorem scramble_truncation (stack msg msg' : Nat → Nat) (len : Nat) (s : State) :
    (15 < len →
      payloads (HS6200_WritePayload stack msg len s).trace
        = payloads (HS6200_WritePayload stack msg 15 s).trace)
    ∧ ((∀ i, i < 15 → msg' i = msg i) →
      payloads (HS6200_WritePayload stack msg' len s).trace
        = payloads (HS6200_WritePayload stack msg len s).trace) := by
  refine ⟨fun h => ?_, fun h => ?_⟩
  · rw [WritePayload_payloads, WritePayload_payloads]
    simp only [frame]
    rw [buf_clamp _ _ _ _ _ _ _ len, buf_clamp _ _ _ _ _ _ _ 15]
    have e : min len 15 = min 15 15 := by omega
    rw [e]
  · rw [WritePayload_payloads, WritePayload_payloads]
    simp only [frame]
    rw [buf_congr _ _ _ _ _ _ msg msg' len (fun k hk => h k (by omega))]

/-- C14 at length 20 from the program-start state: the submission equals that of
length 15. -/
theorem scramble_truncation_witness :
    payloads (HS6200_WritePayload (fun _ => 0) (fun _ => 0x5a) 20 State.start).trace
      = payloads (HS6200_WritePayload (fun _ => 0) (fun _ => 0x5a) 15 State.start).trace :=
  (scramble_truncation (fun _ => 0) (fun _ => 0x5a) (fun _ => 0x5a) 20 State.start).1 (by decide)

/-! ## The two submissions of a tick (C11) -/

theorem pcf_low (m p : Nat) : ((m <<< 2) ||| (p &&& 3)) &&& 3 = p % 4 := by
  have e4 : (4 : Nat) = 2 ^ 2 := by norm_num
  rw [e4]
  apply Nat.eq_of_testBit_eq
  intro t
  simp only [Nat.testBit_mod_two_pow, Nat.testBit_or, Nat.testBit_shiftLeft, Nat.testBit_and]
  by_cases ht : t < 2
  · have h1 : decide (t ≥ 2) = false := by simp; omega
    have h2 : (3 : Nat).testBit t = true := by
      interval_cases t <;> decide
    simp [ht, h1, h2]
  · have h2 : (3 : Nat).testBit t = false := by
      apply Nat.testBit_lt_two_pow
      calc (3 : Nat) < 2 ^ 2 := by norm_num
        _ ≤ 2 ^ t := Nat.pow_le_pow_right (by decide) (by omega)
    simp [ht, h2]

theorem pcf_differs (m p : Nat) :
    ((m <<< 2) ||| (p &&& 3)) ≠ ((m <<< 2) ||| (((p + 1) % 256) &&& 3)) := by
  intro h
  have h1 := congrArg (fun x => x &&& 3) h
  simp only [pcf_low] at h1
  omega

/-- The two frames a call of `send_packet` submits, and the packet id it leaves. -/
theorem send_packet_payloads (pf : Platform) (inp : Inputs) (bind : Nat) (s : State) :
    payloads (send_packet pf inp bind s).trace =
      payloads s.trace ++
        [frame s.hs6200_tx_addr s.hs6200_address_length s.pid (crc_flag pf) s.hs6200_crc_init
            inp.stack1 (send_packet_build pf inp bind s).packet
            (if bind ≠ 0 then 9 else PACKET_SIZE),
         frame s.hs6200_tx_addr s.hs6200_address_length ((s.pid + 1) % 256) (crc_flag pf)
            s.hs6200_crc_init inp.stack2 (send_packet_build pf inp bind s).packet
            (if bind ≠ 0 then 9 else PACKET_SIZE)]
    ∧ (send_packet pf inp bind s).pid = ((s.pid + 1) % 256 + 1) % 256
    ∧ (send_packet pf inp bind s).armed = (send_packet_build pf inp bind s).armed
    ∧ (send_packet pf inp bind s).arm_flags = (send_packet_build pf inp bind s).arm_flags
    ∧ (send_packet pf inp bind s).arm_channel_previous
        = (send_packet_build pf inp bind s).arm_channel_previous := by
  obtain ⟨h1, -, -, -, -, -, h7, h8, h9, h10⟩ := send_packet_build_frame pf inp bind s
  rw [send_packet_normal pf inp bind s _ _ rfl rfl]
  refine ⟨?_, ?_, rfl, rfl, rfl⟩
  · simp only [payloads_append, h1, h7, h8, h9, h10]
    split_ifs <;> simp [payloads]
  · simp only [h10]

theorem frames_agree (a : Nat → Nat) (L p p' crc ci : Nat) (st st' msg : Nat → Nat) (n : Nat)
    (hn : 0 < n) (hn15 : n ≤ 15) :
    (frame a L p crc ci st msg n).length = (frame a L p' crc ci st' msg n).length
    ∧ (∀ j, j < L + 3 + n → j ≠ L + 2 →
        (frame a L p crc ci st msg n).getD j 0 = (frame a L p' crc ci st' msg n).getD j 0)
    ∧ (frame a L p crc ci st msg n).getD (L + 2) 0 &&& 3 = p % 4
    ∧ (frame a L p' crc ci st' msg n).getD (L + 2) 0 &&& 3 = p' % 4 := by
  have hmin : min n 15 = n := by omega
  obtain ⟨h1, h2, h3, h4, h5, -⟩ := buf_header a L p crc ci st msg n
  obtain ⟨g1, g2, g3, g4, g5, -⟩ := buf_header a L p' crc ci st' msg n
  obtain ⟨c1, c2, -⟩ := buf_content a L p crc ci st msg n (by omega)
  obtain ⟨d1, d2, -⟩ := buf_content a L p' crc ci st' msg n (by omega)
  rw [hmin] at h1 g1 c2 d2
  refine ⟨?_, fun j hj hne => ?_, ?_, ?_⟩
  · simp only [frame, bytes, List.length_map, List.length_range, h1, g1]
  · rw [frame_getD _ _ _ _ _ _ _ _ _ (by rw [hmin]; omega),
      frame_getD _ _ _ _ _ _ _ _ _ (by rw [hmin]; omega)]
    by_cases hj1 : j < L
    · rw [h2 j hj1, g2 j hj1]
    · by_cases hj2 : j = L
      · subst hj2; rw [h3, g3]
      · by_cases hj3 : j = L + 1
        · subst hj3; rw [h4, g4]
        · by_cases hj4 : j = L + 3
          · subst hj4; rw [c1, d1]
          · have e : j = L + 3 + (j - (L + 3)) := by omega
            rw [e, c2 _ (by omega) (by omega), d2 _ (by omega) (by omega)]
  · rw [frame_getD _ _ _ _ _ _ _ _ _ (by rw [hmin]; omega), h5, pcf_low]
  · rw [frame_getD _ _ _ _ _ _ _ _ _ (by rw [hmin]; omega), g5, pcf_low]

theorem packet_len (bind : Nat) :
    0 < (if bind ≠ 0 then 9 else PACKET_SIZE) ∧ (if bind ≠ 0 then 9 else PACKET_SIZE) ≤ 15 := by
  simp only [PACKET_SIZE]
  split_ifs <;> omega

set_option maxRecDepth 100000 in
/-- C11, counterexample: in the first tick after `initialize()` (every channel at 0,
all-zero stack) the two byte sequences handed to `NRF24L01_WritePayload` are the two listed
ones; they differ in the control byte (36 against 37) and in the two bytes that carry the
CRC. -/
theorem double_transmit_differs :
    payloads (e015_callback deviation Inputs.idle
      (initialize_e015 deviation false InitInputs.idle State.start)).trace =
      [[83, 56, 121, 84, 98, 98, 98, 36, 204, 120, 158, 145, 19, 247, 165, 201, 167, 38, 21, 128],
       [83, 56, 121, 84, 98, 98, 98, 37, 204, 120, 158, 145, 19, 247, 165, 201, 167, 73, 80, 128]]
    ∧ [83, 56, 121, 84, 98, 98, 98, 36, 204, 120, 158, 145, 19, 247, 165, 201, 167, 38, 21, 128]
      ≠ [83, 56, 121, 84, 98, 98, 98, 37, 204, 120, 158, 145, 19, 247, 165, 201, 167, 73, 80, 128] := by
  decide

/-- C11, amended: `send_packet` hands the same packet bytes and the same length to
`HS6200_WritePayload` twice, and the two byte sequences `f1`, `f2` this submits to the
transceiver have the same length and agree at every index below `L + 3 + n` other than that
of the control byte, `L + 2` (address, guard bytes and scrambled payload; `L` the address
length, `n` the packet length). The control bytes carry consecutive packet ids, `pid mod 4`
and `(pid + 1) mod 4`, so the two sequences are never byte-for-byte identical. -/
theorem double_transmit (pf : Platform) (inp : Inputs) (bind : Nat) (s : State) :
    ∃ f1 f2 : List Nat,
      payloads (send_packet pf inp bind s).trace = payloads s.trace ++ [f1, f2]
      ∧ linkCalls (send_packet pf inp bind s).trace =
          linkCalls s.trace ++
            [(bytes (send_packet pf inp bind s).packet (if bind ≠ 0 then 9 else PACKET_SIZE),
                if bind ≠ 0 then 9 else PACKET_SIZE),
             (bytes (send_packet pf inp bind s).packet (if bind ≠ 0 then 9 else PACKET_SIZE),
                if bind ≠ 0 then 9 else PACKET_SIZE)]
      ∧ f1.length = f2.length
      ∧ (∀ j, j < s.hs6200_address_length + 3 + (if bind ≠ 0 then 9 else PACKET_SIZE) →
          j ≠ s.hs6200_address_length + 2 → f1.getD j 0 = f2.getD j 0)
      ∧ f1.getD (s.hs6200_address_length + 2) 0 &&& 3 = s.pid % 4
      ∧ f2.getD (s.hs6200_address_length + 2) 0 &&& 3 = (s.pid + 1) % 4
      ∧ f1 ≠ f2 := by
  obtain ⟨hp, -⟩ := send_packet_payloads pf inp bind s
  obtain ⟨hn, hn15⟩ := packet_len bind
  obtain ⟨a1, a2, a3, a4⟩ := frames_agree s.hs6200_tx_addr s.hs6200_address_length s.pid
    ((s.pid + 1) % 256) (crc_flag pf) s.hs6200_crc_init inp.stack1 inp.stack2
    (send_packet_build pf inp bind s).packet _ hn hn15
  have a4' : (frame s.hs6200_tx_addr s.hs6200_address_length ((s.pid + 1) % 256) (crc_flag pf)
      s.hs6200_crc_init inp.stack2 (send_packet_build pf inp bind s).packet
      (if bind ≠ 0 then 9 else PACKET_SIZE)).getD (s.hs6200_address_length + 2) 0 &&& 3
        = (s.pid + 1) % 4 := by rw [a4]; omega
  refine ⟨_, _, hp, ?_, a1, a2, a3, a4', ?_⟩
  · rw [send_packet_linkCalls, send_packet_packet]
  · intro h
    rw [h, a4'] at a3
    omega

/-! ## What a tick transmits (C16) -/

theorem callback_bind_tick_eq (pf : Platform) (inp : Inputs) (s : State)
    (hp : s.phase = BIND) (hc : s.bind_counter ≠ 0) :
    e015_callback pf inp s =
      { send_packet pf inp 1 s with
        bind_counter := ((send_packet pf inp 1 s).bind_counter + 65535) % 65536 } := by
  simp only [e015_callback, hp, hc, if_true, if_false]

theorem callback_data_eq (pf : Platform) (inp : Inputs) (s : State) (hp : s.phase = DATA) :
    e015_callback pf inp s = send_packet pf inp 0 s := by
  have hne : ¬ (DATA = BIND) := by decide
  simp only [e015_callback, hp, hne, if_true, if_false]

theorem callback_bind_done_eq (pf : Platform) (inp : Inputs) (s : State)
    (hp : s.phase = BIND) (hc : s.bind_counter = 0) :
    e015_callback pf inp s =
      { s with
        phase := DATA
        hs6200_crc_init := SetTXAddr_loop s.tx_addr 5 5 0 0xffff
        hs6200_tx_addr := memcpy s.hs6200_tx_addr s.tx_addr 5
        hs6200_address_length := 5
        trace := s.trace ++
          [.NRF24L01_WriteRegisterMulti .TX_ADDR
            (if s.tx_addr (5 - 1) &&& 0x80 ≠ 0 then [0x55, 0x55, 0x55, 0x55, 0x55]
              else [0xaa, 0xaa, 0xaa, 0xaa, 0xaa]),
           .PROTOCOL_SetBindState 0] } := by
  simp only [e015_callback, hp, hc, if_true, SetTXAddr_normal s.tx_addr 5 s 5 (by decide), emit,
    List.append_assoc, List.singleton_append]

/-- The tick that ends the bind phase submits nothing and builds no packet. -/
theorem callback_bind_done_quiet (pf : Platform) (inp : Inputs) (s : State)
    (hp : s.phase = BIND) (hc : s.bind_counter = 0) :
    payloads (e015_callback pf inp s).trace = payloads s.trace
    ∧ linkCalls (e015_callback pf inp s).trace = linkCalls s.trace
    ∧ (e015_callback pf inp s).packet = s.packet
    ∧ (e015_callback pf inp s).pid = s.pid
    ∧ (e015_callback pf inp s).armed = s.armed
    ∧ (e015_callback pf inp s).arm_flags = s.arm_flags
    ∧ (e015_callback pf inp s).arm_channel_previous = s.arm_channel_previous := by
  rw [callback_bind_done_eq pf inp s hp hc]
  refine ⟨?_, ?_, rfl, rfl, rfl, rfl, rfl⟩
  · simp only [payloads_append]
    simp [payloads]
  · simp only [linkCalls_append]
    simp [linkCalls]

set_option maxRecDepth 1000000 in
/-- C16, counterexample: under `EMULATOR` (`BIND_COUNT` = 4), the fifth tick after
`initialize()` is entered in the Bind phase and submits nothing: no `HS6200_WritePayload`
call and no payload reaches the transceiver in that invocation. -/
theorem bind_end_tick_silent :
    (run deviation (initialize_e015 deviation true InitInputs.idle State.start)
        (List.replicate 4 Inputs.idle)).phase = BIND
    ∧ payloads (e015_callback deviation Inputs.idle
        (run deviation (initialize_e015 deviation true InitInputs.idle State.start)
          (List.replicate 4 Inputs.idle))).trace
      = payloads (run deviation (initialize_e015 deviation true InitInputs.idle State.start)
          (List.replicate 4 Inputs.idle)).trace
    ∧ linkCalls (e015_callback deviation Inputs.idle
        (run deviation (initialize_e015 deviation true InitInputs.idle State.start)
          (List.replicate 4 Inputs.idle))).trace
      = linkCalls (run deviation (initialize_e015 deviation true InitInputs.idle State.start)
          (List.replicate 4 Inputs.idle)).trace := by
  decide

/-- The seed the bind-end tick leaves: the spec's CRC over the TxAddress bytes, last
byte first. -/
theorem bind_done_seed (a : Nat → Nat) :
    SetTXAddr_loop a 5 5 0 0xffff = crc16_spec [a 4, a 3, a 2, a 1, a 0] := by
  rw [SetTXAddr_loop_eq a 5 5 0 _ (by decide), ← List.range_eq_range', crc_fold_map]
  exact crc_update_fold_spec _ 0xffff (by decide)

/-- C16, amended: a Bind tick with a non-zero counter builds the bind packet, hands it
twice to the link layer (two submissions), decrements the counter and stays in Bind; a Data
tick builds the data packet and hands it twice to the link layer (two submissions); the Bind
tick that finds the counter at 0 builds and transmits nothing: it leaves `packet[]` and the
counter alone, switches the link address to TxAddress (one preamble write, stored address
`tx_addr[0..4]`, length 5, seed the CRC of `tx_addr[4], ..., tx_addr[0]`), sets the phase to
Data and signals bind completion with `PROTOCOL_SetBindState(0)`. -/
theorem tick_transmits (pf : Platform) (inp : Inputs) (s : State) :
    (s.phase = BIND → s.bind_counter ≠ 0 → s.bind_counter < 65536 →
      (∃ f1 f2 : List Nat,
        payloads (e015_callback pf inp s).trace = payloads s.trace ++ [f1, f2])
      ∧ linkCalls (e015_callback pf inp s).trace =
          linkCalls s.trace ++
            [(bytes (e015_callback pf inp s).packet 9, 9),
             (bytes (e015_callback pf inp s).packet 9, 9)]
      ∧ bytes (e015_callback pf inp s).packet 9 =
          [0x18, 0x04, 0x06, s.tx_addr 0, s.tx_addr 1, s.tx_addr 2, s.tx_addr 3, s.tx_addr 4,
           (s.tx_addr 0 + s.tx_addr 1 + s.tx_addr 2 + s.tx_addr 3 + s.tx_addr 4) % 256]
      ∧ (e015_callback pf inp s).bind_counter = s.bind_counter - 1
      ∧ (e015_callback pf inp s).phase = BIND)
    ∧ (s.phase = DATA →
      (∃ f1 f2 : List Nat,
        payloads (e015_callback pf inp s).trace = payloads s.trace ++ [f1, f2])
      ∧ linkCalls (e015_callback pf inp s).trace =
          linkCalls s.trace ++
            [(bytes (e015_callback pf inp s).packet 10, 10),
             (bytes (e015_callback pf inp s).packet 10, 10)]
      ∧ (e015_callback pf inp s).packet = (send_packet_build pf inp 0 s).packet
      ∧ (e015_callback pf inp s).phase = DATA)
    ∧ (s.phase = BIND → s.bind_counter = 0 →
      payloads (e015_callback pf inp s).trace = payloads s.trace
      ∧ linkCalls (e015_callback pf inp s).trace = linkCalls s.trace
      ∧ (e015_callback pf inp s).packet = s.packet
      ∧ (e015_callback pf inp s).bind_counter = 0
      ∧ (e015_callback pf inp s).phase = DATA
      ∧ (e015_callback pf inp s).trace = s.trace ++
          [.NRF24L01_WriteRegisterMulti .TX_ADDR
            (if s.tx_addr 4 &&& 0x80 ≠ 0 then [0x55, 0x55, 0x55, 0x55, 0x55]
              else [0xaa, 0xaa, 0xaa, 0xaa, 0xaa]),
           .PROTOCOL_SetBindState 0]
      ∧ bindStates (e015_callback pf inp s).trace = bindStates s.trace ++ [0]
      ∧ bytes (e015_callback pf inp s).hs6200_tx_addr 5 = bytes s.tx_addr 5
      ∧ (e015_callback pf inp s).hs6200_address_length = 5
      ∧ (e015_callback pf inp s).hs6200_crc_init
          = crc16_spec [s.tx_addr 4, s.tx_addr 3, s.tx_addr 2, s.tx_addr 1, s.tx_addr 0]
      ∧ (e015_callback pf inp s).tx_addr = s.tx_addr) := by
  refine ⟨fun hp hc hlt => ?_, fun hp => ?_, fun hp hc => ?_⟩
  · have hpk : (e015_callback pf inp s).packet = (send_packet_build pf inp 1 s).packet := by
      rw [callback_bind_tick_eq pf inp s hp hc]
      exact send_packet_packet pf inp 1 s
    have htr : (e015_callback pf inp s).trace = (send_packet pf inp 1 s).trace := by
      rw [callback_bind_tick_eq pf inp s hp hc]
    refine ⟨⟨_, _, by rw [htr]; exact (send_packet_payloads pf inp 1 s).1⟩, ?_, ?_,
      (callback_bind_tick pf inp s hp hc hlt).2.1, (callback_bind_tick pf inp s hp hc hlt).1⟩
    · rw [htr, send_packet_linkCalls, hpk]
      simp only [ne_eq, one_ne_zero, not_false_eq_true, if_true]
    · rw [hpk, bind_build_bytes]
  · have hph := (callback_data pf inp s hp).1
    rw [callback_data_eq pf inp s hp] at hph ⊢
    refine ⟨⟨_, _, (send_packet_payloads pf inp 0 s).1⟩, ?_, send_packet_packet pf inp 0 s, hph⟩
    rw [send_packet_linkCalls, send_packet_packet]
    simp only [ne_eq, not_true_eq_false, if_false, PACKET_SIZE]
  · obtain ⟨h1, h2, h3, -⟩ := callback_bind_done_quiet pf inp s hp hc
    obtain ⟨g1, g2, g3, g4, g5, g6⟩ := callback_bind_done pf inp s hp hc
    refine ⟨h1, h2, h3, g2, g1, ?_, g6, g4, g5, ?_, g3⟩
    · rw [callback_bind_done_eq pf inp s hp hc]
    · rw [callback_bind_done_eq pf inp s hp hc]
      exact bind_done_seed s.tx_addr

/-- C16 in the emulator build (`BIND_COUNT` = 4), at three states of the run from
`initialize()`: right after `initialize()` (Bind, counter 4) the tick hands the 9-byte packet
over twice and leaves the counter at 3; after five ticks (Data) the tick hands the 10-byte
packet over twice; after four ticks (Bind, counter 0) the tick submits nothing, sets the
phase to Data, signals bind state 0 and stores TxAddress as the link address. -/
theorem tick_transmits_witness :
    (linkCalls (e015_callback deviation Inputs.idle
          (initialize_e015 deviation true InitInputs.idle State.start)).trace =
        linkCalls (initialize_e015 deviation true InitInputs.idle State.start).trace ++
          [(bytes (e015_callback deviation Inputs.idle
              (initialize_e015 deviation true InitInputs.idle State.start)).packet 9, 9),
           (bytes (e015_callback deviation Inputs.idle
              (initialize_e015 deviation true InitInputs.idle State.start)).packet 9, 9)]
      ∧ (e015_callback deviation Inputs.idle
          (initialize_e015 deviation true InitInputs.idle State.start)).bind_counter = 3)
    ∧ (linkCalls (e015_callback deviation Inputs.idle
          (run deviation (initialize_e015 deviation true InitInputs.idle State.start)
            (List.replicate 5 Inputs.idle))).trace =
        linkCalls (run deviation (initialize_e015 deviation true InitInputs.idle State.start)
            (List.replicate 5 Inputs.idle)).trace ++
          [(bytes (e015_callback deviation Inputs.idle
              (run deviation (initialize_e015 deviation true InitInputs.idle State.start)
                (List.replicate 5 Inputs.idle))).packet 10, 10),
           (bytes (e015_callback deviation Inputs.idle
              (run deviation (initialize_e015 deviation true InitInputs.idle State.start)
                (List.replicate 5 Inputs.idle))).packet 10, 10)])
    ∧ (payloads (e015_callback deviation Inputs.idle
          (run deviation (initialize_e015 deviation true InitInputs.idle State.start)
            (List.replicate 4 Inputs.idle))).trace
        = payloads (run deviation (initialize_e015 deviation true InitInputs.idle State.start)
            (List.replicate 4 Inputs.idle)).trace
      ∧ (e015_callback deviation Inputs.idle
          (run deviation (initialize_e015 deviation true InitInputs.idle State.start)
            (List.replicate 4 Inputs.idle))).phase = DATA
      ∧ bindStates (e015_callback deviation Inputs.idle
          (run deviation (initialize_e015 deviation true InitInputs.idle State.start)
            (List.replicate 4 Inputs.idle))).trace
        = bindStates (run deviation (initialize_e015 deviation true InitInputs.idle State.start)
            (List.replicate 4 Inputs.idle)).trace ++ [0]
      ∧ bytes (e015_callback deviation Inputs.idle
          (run deviation (initialize_e015 deviation true InitInputs.idle State.start)
            (List.replicate 4 Inputs.idle))).hs6200_tx_addr 5
        = bytes (run deviation (initialize_e015 deviation true InitInputs.idle State.start)
            (List.replicate 4 Inputs.idle)).tx_addr 5) := by
  obtain ⟨i1, i2, -⟩ := initialize_state deviation true InitInputs.idle State.start
  have i3 : (initialize_e015 deviation true InitInputs.idle State.start).bind_counter = 4 := i2
  obtain ⟨b1, b2, -⟩ := run_bind deviation (List.replicate 4 Inputs.idle) _ i1
    (by rw [i3]; decide) (by rw [i3]; decide)
  obtain ⟨d1, -⟩ := run_past_bind deviation (List.replicate 5 Inputs.idle) _ i1
    (by rw [i3]; decide) (by rw [i3]; decide)
  have w1 := (tick_transmits deviation Inputs.idle
    (initialize_e015 deviation true InitInputs.idle State.start)).1 i1
    (by rw [i3]; decide) (by rw [i3]; decide)
  have w2 := (tick_transmits deviation Inputs.idle
    (run deviation (initialize_e015 deviation true InitInputs.idle State.start)
      (List.replicate 5 Inputs.idle))).2.1 d1
  have w3 := (tick_transmits deviation Inputs.idle
    (run deviation (initialize_e015 deviation true InitInputs.idle State.start)
      (List.replicate 4 Inputs.idle))).2.2 b1 (by rw [b2, i3]; rfl)
  exact ⟨⟨w1.2.1, w1.2.2.2.1.trans (by rw [i3])⟩, w2.2.1,
    w3.1, w3.2.2.2.2.1, w3.2.2.2.2.2.2.1, w3.2.2.2.2.2.2.2.1⟩

/-! ## Packet-id counter (C12) -/

theorem SetTXAddr_payloads (addr : Nat → Nat) (len : Nat) (s : State) :
    payloads (HS6200_SetTXAddr addr len s).trace = payloads s.trace
    ∧ (HS6200_SetTXAddr addr len s).pid = s.pid := by
  rw [SetTXAddr_normal addr len s _ rfl]
  refine ⟨?_, rfl⟩
  simp only [payloads_append]
  simp [payloads]

theorem e015_init_payloads (status : Nat) (s : State) :
    payloads (e015_init status s).trace = payloads s.trace := by
  obtain ⟨h1, -⟩ := SetTXAddr_payloads bind_address 5
    (emit (emit s .NRF24L01_Initialize) .NRF24L01_SetTxRxMode_TX_EN)
  by_cases hst : status &&& 0x80 ≠ 0
  · simp only [e015_init, ADDRESS_LENGTH, hst, if_true]
    generalize HS6200_SetTXAddr bind_address 5
      (emit (emit s .NRF24L01_Initialize) .NRF24L01_SetTxRxMode_TX_EN) = t at *
    cases t
    cases s
    simp only [emit] at *
    simp_all [payloads_append, payloads]
  · simp only [e015_init, ADDRESS_LENGTH, hst, if_false]
    generalize HS6200_SetTXAddr bind_address 5
      (emit (emit s .NRF24L01_Initialize) .NRF24L01_SetTxRxMode_TX_EN) = t at *
    cases t
    cases s
    simp only [emit] at *
    simp_all [payloads_append, payloads]

theorem initialize_payloads (pf : Platform) (emulator : Bool) (ini : InitInputs) (s : State) :
    payloads (initialize_e015 pf emulator ini s).trace = payloads s.trace := by
  obtain ⟨-, hq2⟩ := initialize_txid_frame pf emulator ini
    { emit s .CLOCK_StopTimer with tx_power := ini.Model_tx_power }
  have h7 := e015_init_payloads ini.status (initialize_txid pf emulator ini
    { emit s .CLOCK_StopTimer with tx_power := ini.Model_tx_power })
  simp only [initialize_e015]
  generalize initialize_txid pf emulator ini
    { emit s .CLOCK_StopTimer with tx_power := ini.Model_tx_power } = q at *
  generalize e015_init ini.status q = t at *
  cases t
  cases q
  cases s
  simp only [emit] at *
  simp_all [payloads_append, payloads]

theorem PidInv_start : PidInv State.start := by
  refine ⟨rfl, fun k hk => ?_, Or.inl ⟨rfl, rfl⟩⟩
  exact absurd hk (by simp [State.start, payloads])

theorem PidInv_send (pf : Platform) (inp : Inputs) (bind : Nat) (s : State)
    (h : PidInv s) (hL : s.hs6200_address_length = 5) :
    (send_packet pf inp bind s).pid = (payloads (send_packet pf inp bind s).trace).length % 256
    ∧ (∀ k, k < (payloads (send_packet pf inp bind s).trace).length →
        ((payloads (send_packet pf inp bind s).trace).getD k []).getD 7 0 &&& 3 = k % 4) := by
  obtain ⟨h1, h2, -⟩ := h
  obtain ⟨hp, hpid, -⟩ := send_packet_payloads pf inp bind s
  obtain ⟨hn, hn15⟩ := packet_len bind
  obtain ⟨-, -, a3, a4⟩ := frames_agree s.hs6200_tx_addr s.hs6200_address_length s.pid
    ((s.pid + 1) % 256) (crc_flag pf) s.hs6200_crc_init inp.stack1 inp.stack2
    (send_packet_build pf inp bind s).packet _ hn hn15
  rw [hL] at a3 a4
  rw [hp, hpid, hL]
  refine ⟨?_, fun k hk => ?_⟩
  · simp only [List.length_append, List.length_cons, List.length_nil]
    omega
  · simp only [List.length_append, List.length_cons, List.length_nil] at hk
    by_cases hk1 : k < (payloads s.trace).length
    · rw [List.getD_append _ _ _ _ hk1]
      exact h2 k hk1
    · rw [List.getD_append_right _ _ _ _ (by omega)]
      by_cases hk2 : k = (payloads s.trace).length
      · have e : k - (payloads s.trace).length = 0 := by omega
        rw [e]
        show (frame _ _ _ _ _ _ _ _).getD 7 0 &&& 3 = _
        rw [a3, h1, hk2]; omega
      · have e : k - (payloads s.trace).length = 1 := by omega
        rw [e]
        show (frame _ _ _ _ _ _ _ _).getD 7 0 &&& 3 = _
        rw [a4, h1]; omega

theorem PidInv_step (pf : Platform) (emulator : Bool) (s : State) (op : Op) (h : PidInv s) :
    PidInv (step pf emulator s op) := by
  cases op with
  | init ini =>
    obtain ⟨h1, h2, -⟩ := h
    obtain ⟨-, -, -, g4, -, -, -, g8, -⟩ := initialize_state pf emulator ini s
    have hp := initialize_payloads pf emulator ini s
    simp only [step]
    refine ⟨by rw [g8, hp, h1], fun k hk => ?_, Or.inr g4⟩
    rw [hp] at hk ⊢
    exact h2 k hk
  | tick inp =>
    simp only [step]
    by_cases hp : s.phase = BIND
    · by_cases hc : s.bind_counter = 0
      · obtain ⟨q1, -, -, q4, -⟩ := callback_bind_done_quiet pf inp s hp hc
        obtain ⟨-, -, -, -, g5, -⟩ := callback_bind_done pf inp s hp hc
        obtain ⟨h1, h2, -⟩ := h
        refine ⟨by rw [q4, q1, h1], fun k hk => ?_, Or.inr g5⟩
        rw [q1] at hk ⊢
        exact h2 k hk
      · have hL : s.hs6200_address_length = 5 := by
          rcases h.2.2 with ⟨-, h0⟩ | h5
          · exact absurd h0 hc
          · exact h5
        obtain ⟨p1, p2⟩ := PidInv_send pf inp 1 s h hL
        rw [callback_bind_tick_eq pf inp s hp hc]
        refine ⟨p1, p2, Or.inr ?_⟩
        show (send_packet pf inp 1 s).hs6200_address_length = 5
        rw [(send_packet_frame pf inp 1 s).2.2.2.2.1, hL]
    · by_cases hd : s.phase = DATA
      · have hL : s.hs6200_address_length = 5 := by
          rcases h.2.2 with ⟨hb, -⟩ | h5
          · exact absurd hb hp
          · exact h5
        obtain ⟨p1, p2⟩ := PidInv_send pf inp 0 s h hL
        rw [callback_data_eq pf inp s hd]
        refine ⟨p1, p2, Or.inr ?_⟩
        rw [(send_packet_frame pf inp 0 s).2.2.2.2.1, hL]
      · have e : e015_callback pf inp s = s := by
          simp only [e015_callback, hp, hd, if_false]
        rw [e]; exact h

theorem PidInv_exec (pf : Platform) (emulator : Bool) (ops : List Op) :
    ∀ s, PidInv s → PidInv (exec pf emulator s ops) := by
  induction ops with
  | nil => intro s h; exact h
  | cons op rest ih => intro s h; exact ih _ (PidInv_step pf emulator s op h)

theorem WritePayload_pid (stack msg : Nat → Nat) (len : Nat) (s : State) :
    (HS6200_WritePayload stack msg len s).pid = (s.pid + 1) % 256 := by
  cases s
  simp only [HS6200_WritePayload, emit]

/-- C12: in every state reached from program start by any sequence of `initialize()` calls
and ticks, `pid` is the number of `HS6200_WritePayload` calls made so far, modulo 256; the
low two bits of the control byte of the `k`-th submitted frame (counting from 0) are
`k mod 4`; one more call advances `pid` by one (modulo 256) and submits a control byte whose
low two bits are the call count modulo 4; and `initialize()` leaves `pid` as it is. -/
theorem packet_id_counter (pf : Platform) (emulator : Bool) (ops : List Op) :
    (exec pf emulator State.start ops).pid
        = (payloads (exec pf emulator State.start ops).trace).length % 256
    ∧ (∀ k, k < (payloads (exec pf emulator State.start ops).trace).length →
        ((payloads (exec pf emulator State.start ops).trace).getD k []).getD 7 0 &&& 3 = k % 4)
    ∧ (∀ (stack msg : Nat → Nat) (len : Nat),
        (HS6200_WritePayload stack msg len (exec pf emulator State.start ops)).pid
          = ((exec pf emulator State.start ops).pid + 1) % 256
        ∧ (frame (exec pf emulator State.start ops).hs6200_tx_addr
              (exec pf emulator State.start ops).hs6200_address_length
              (exec pf emulator State.start ops).pid
              (exec pf emulator State.start ops).hs6200_crc
              (exec pf emulator State.start ops).hs6200_crc_init stack msg len).getD
            ((exec pf emulator State.start ops).hs6200_address_length + 2) 0 &&& 3
          = (payloads (exec pf emulator State.start ops).trace).length % 4)
    ∧ (∀ ini : InitInputs,
        (initialize_e015 pf emulator ini (exec pf emulator State.start ops)).pid
          = (exec pf emulator State.start ops).pid) := by
  obtain ⟨h1, h2, -⟩ := PidInv_exec pf emulator ops State.start PidInv_start
  refine ⟨h1, h2, fun stack msg len => ⟨WritePayload_pid _ _ _ _, ?_⟩,
    fun ini => (initialize_state pf emulator ini _).2.2.2.2.2.2.2.1⟩
  obtain ⟨b1, -, -, -, b5, -⟩ := buf_header (exec pf emulator State.start ops).hs6200_tx_addr
    (exec pf emulator State.start ops).hs6200_address_length
    (exec pf emulator State.start ops).pid (exec pf emulator State.start ops).hs6200_crc
    (exec pf emulator State.start ops).hs6200_crc_init stack msg len
  rw [frame_getD _ _ _ _ _ _ _ _ _ (by omega), b5, pcf_low, h1]
  omega

/-! ## Range of the scaled output (C18) -/

/-- Truncating division of `r * t` by `R`, for `0 ≤ t ≤ R`, lies between 0 and `r`. -/
theorem tdiv_between (r t R : Int) (hR : 0 < R) (ht0 : 0 ≤ t) (htR : t ≤ R) :
    (0 ≤ r → 0 ≤ (r * t).tdiv R ∧ (r * t).tdiv R ≤ r)
    ∧ (r ≤ 0 → r ≤ (r * t).tdiv R ∧ (r * t).tdiv R ≤ 0) := by
  have key : ∀ a : Int, 0 ≤ a → 0 ≤ (a * t).tdiv R ∧ (a * t).tdiv R ≤ a := by
    intro a ha
    have h1 : 0 ≤ a * t := Int.mul_nonneg ha ht0
    rw [Int.tdiv_eq_ediv h1 (le_of_lt hR)]
    refine ⟨Int.ediv_nonneg h1 (le_of_lt hR), Int.ediv_le_of_le_mul hR ?_⟩
    exact Int.mul_le_mul_of_nonneg_left htR ha
  refine ⟨fun h => key r h, fun h => ?_⟩
  have h2 := key (-r) (by omega)
  have e : (-r * t).tdiv R = -((r * t).tdiv R) := by
    rw [Int.neg_mul, Int.neg_tdiv]
  rw [e] at h2
  omega

/-- C18: for `destMin`, `destMax` in 0..255 and every channel value, the `s32` result of
`scale_channel` lies between `min(destMin, destMax)` and `max(destMin, destMax)`, so the
conversion to `u8` changes nothing; a channel below `CHAN_MIN_VALUE` gives `destMin` and one
above `CHAN_MAX_VALUE` gives `destMax`. -/
theorem scale_channel_range (pf : Platform) (Channels : Nat → Int) (ch destMin destMax : Nat)
    (hlt : pf.CHAN_MIN_VALUE < pf.CHAN_MAX_VALUE) (hmin : destMin ≤ 255)
    (hmax : destMax ≤ 255) :
    ((min destMin destMax : Nat) : Int) ≤ scale_channel_s32 pf Channels ch destMin destMax
    ∧ scale_channel_s32 pf Channels ch destMin destMax ≤ ((max destMin destMax : Nat) : Int)
    ∧ ((scale_channel pf Channels ch destMin destMax : Nat) : Int)
        = scale_channel_s32 pf Channels ch destMin destMax
    ∧ min destMin destMax ≤ scale_channel pf Channels ch destMin destMax
    ∧ scale_channel pf Channels ch destMin destMax ≤ max destMin destMax
    ∧ (Channels ch < pf.CHAN_MIN_VALUE →
        scale_channel pf Channels ch destMin destMax = destMin)
    ∧ (pf.CHAN_MAX_VALUE < Channels ch →
        scale_channel pf Channels ch destMin destMax = destMax) := by
  have hb : ((min destMin destMax : Nat) : Int) ≤ scale_channel_s32 pf Channels ch destMin destMax
      ∧ scale_channel_s32 pf Channels ch destMin destMax ≤ ((max destMin destMax : Nat) : Int) := by
    simp only [scale_channel_s32, CHAN_RANGE]
    have hR : 0 < pf.CHAN_MAX_VALUE - pf.CHAN_MIN_VALUE := by omega
    split_ifs with h1 h2
    · obtain ⟨k1, k2⟩ := tdiv_between ((destMax : Int) - destMin)
        (pf.CHAN_MIN_VALUE - pf.CHAN_MIN_VALUE) _ hR (by omega) (by omega)
      by_cases hr : (0 : Int) ≤ (destMax : Int) - destMin
      · have := k1 hr; omega
      · have := k2 (by omega); omega
    · obtain ⟨k1, k2⟩ := tdiv_between ((destMax : Int) - destMin)
        (pf.CHAN_MAX_VALUE - pf.CHAN_MIN_VALUE) _ hR (by omega) (by omega)
      by_cases hr : (0 : Int) ≤ (destMax : Int) - destMin
      · have := k1 hr; omega
      · have := k2 (by omega); omega
    · obtain ⟨k1, k2⟩ := tdiv_between ((destMax : Int) - destMin)
        (Channels ch - pf.CHAN_MIN_VALUE) _ hR (by omega) (by omega)
      by_cases hr : (0 : Int) ≤ (destMax : Int) - destMin
      · have := k1 hr; omega
      · have := k2 (by omega); omega
  obtain ⟨hb1, hb2⟩ := hb
  have hconv : ((scale_channel pf Channels ch destMin destMax : Nat) : Int)
      = scale_channel_s32 pf Channels ch destMin destMax := by
    simp only [scale_channel]
    omega
  refine ⟨hb1, hb2, hconv, by omega, by omega, fun h => ?_, fun h => ?_⟩
  · exact (scale_channel_at_min pf Channels ch destMin destMax hlt hmin (le_of_lt h)).2
  · exact (scale_channel_at_max pf Channels ch destMin destMax hlt hmax (le_of_lt h)).2

/-- C18 at the range `[-10000, 10000]`: channel value 20000 scaled to `0..225` and to
`225..0` stays within the destination range and saturates at `destMax`. -/
theorem scale_channel_range_witness :
    (min 0 225 ≤ scale_channel deviation (fun _ => 20000) 0 0 225
      ∧ scale_channel deviation (fun _ => 20000) 0 0 225 ≤ max 0 225
      ∧ scale_channel deviation (fun _ => 20000) 0 0 225 = 225)
    ∧ scale_channel deviation (fun _ => 20000) 0 225 0 = 0 :=
  ⟨⟨(scale_channel_range deviation (fun _ => 20000) 0 0 225
        (by decide) (by decide) (by decide)).2.2.2.1,
    (scale_channel_range deviation (fun _ => 20000) 0 0 225
        (by decide) (by decide) (by decide)).2.2.2.2.1,
    (scale_channel_range deviation (fun _ => 20000) 0 0 225
        (by decide) (by decide) (by decide)).2.2.2.2.2.2 (by decide)⟩,
   (scale_channel_range deviation (fun _ => 20000) 0 225 0
        (by decide) (by decide) (by decide)).2.2.2.2.2.2 (by decide)⟩

/-! ## Arming over a run (C20) -/

theorem build_arm (pf : Platform) (inp : Inputs) (s : State) :
    ((send_packet_build pf inp 0 s).armed = (check_arming (inp.Channels CHANNEL_ARM) s).armed
      ∧ (send_packet_build pf inp 0 s).arm_flags
          = (check_arming (inp.Channels CHANNEL_ARM) s).arm_flags
      ∧ (send_packet_build pf inp 0 s).arm_channel_previous
          = (check_arming (inp.Channels CHANNEL_ARM) s).arm_channel_previous
      ∧ (send_packet_build pf inp 0 s).packet 6
          = (check_arming (inp.Channels CHANNEL_ARM) s).arm_flags)
    ∧ ((send_packet_build pf inp 1 s).armed = s.armed
      ∧ (send_packet_build pf inp 1 s).arm_flags = s.arm_flags
      ∧ (send_packet_build pf inp 1 s).arm_channel_previous = s.arm_channel_previous) := by
  refine ⟨?_, ?_⟩
  · simp [send_packet_build, checksum_loop, upd]
  · simp [send_packet_build]

/-- The arming state across one tick: a Data tick applies `check_arming` to the
arm channel, any other tick leaves it alone. -/
theorem arm_tick (pf : Platform) (inp : Inputs) (s : State) :
    (s.phase = DATA →
      (e015_callback pf inp s).armed = (check_arming (inp.Channels CHANNEL_ARM) s).armed
      ∧ (e015_callback pf inp s).arm_flags
          = (check_arming (inp.Channels CHANNEL_ARM) s).arm_flags
      ∧ (e015_callback pf inp s).arm_channel_previous
          = (check_arming (inp.Channels CHANNEL_ARM) s).arm_channel_previous
      ∧ (e015_callback pf inp s).packet 6
          = (check_arming (inp.Channels CHANNEL_ARM) s).arm_flags)
    ∧ (s.phase ≠ DATA →
      (e015_callback pf inp s).armed = s.armed
      ∧ (e015_callback pf inp s).arm_flags = s.arm_flags
      ∧ (e015_callback pf inp s).arm_channel_previous = s.arm_channel_previous) := by
  obtain ⟨⟨b1, b2, b3, b4⟩, c1, c2, c3⟩ := build_arm pf inp s
  refine ⟨fun hd => ?_, fun hnd => ?_⟩
  · obtain ⟨-, -, p3, p4, p5⟩ := send_packet_payloads pf inp 0 s
    rw [callback_data_eq pf inp s hd, p3, p4, p5, send_packet_packet]
    exact ⟨b1, b2, b3, b4⟩
  · by_cases hp : s.phase = BIND
    · by_cases hc : s.bind_counter = 0
      · obtain ⟨-, -, -, -, q5, q6, q7⟩ := callback_bind_done_quiet pf inp s hp hc
        exact ⟨q5, q6, q7⟩
      · obtain ⟨-, -, p3, p4, p5⟩ := send_packet_payloads pf inp 1 s
        rw [callback_bind_tick_eq pf inp s hp hc]
        exact ⟨p3.trans c1, p4.trans c2, p5.trans c3⟩
    · have e : e015_callback pf inp s = s := by
        simp only [e015_callback, hp, hnd, if_false]
      rw [e]; exact ⟨rfl, rfl, rfl⟩

theorem run_snoc (pf : Platform) (s : State) (inps : List Inputs) (inp : Inputs) :
    run pf s (inps ++ [inp]) = e015_callback pf inp (run pf s inps) := by
  rw [run_append, run_cons]
  rfl

theorem check_arming_set (v : Int) (s : State)
    (h : s.arm_flags = 0 ∨ s.arm_flags = 0x40 ∨ s.arm_flags = 0x80 ∨ s.arm_flags = 0xC0) :
    (check_arming v s).arm_flags = 0 ∨ (check_arming v s).arm_flags = 0x40
      ∨ (check_arming v s).arm_flags = 0x80 ∨ (check_arming v s).arm_flags = 0xC0 := by
  simp only [check_arming, FLAG_ARM, FLAG_DISARM]
  split_ifs <;> rcases h with h | h | h | h <;> simp [h]

theorem arm_flags_set (pf : Platform) (s0 : State)
    (h0 : s0.arm_flags = 0 ∨ s0.arm_flags = 0x40 ∨ s0.arm_flags = 0x80 ∨ s0.arm_flags = 0xC0)
    (inps : List Inputs) :
    (run pf s0 inps).arm_flags = 0 ∨ (run pf s0 inps).arm_flags = 0x40
      ∨ (run pf s0 inps).arm_flags = 0x80 ∨ (run pf s0 inps).arm_flags = 0xC0 := by
  induction inps using List.reverseRecOn with
  | nil => exact h0
  | append_singleton xs x ih =>
    rw [run_snoc]
    obtain ⟨hd, hnd⟩ := arm_tick pf x (run pf s0 xs)
    by_cases hp : (run pf s0 xs).phase = DATA
    · rw [(hd hp).2.1]
      exact check_arming_set _ _ ih
    · rw [(hnd hp).2.1]
      exact ih

theorem arm_run_inv (pf : Platform) (s0 : State) (h0p : s0.arm_channel_previous = 1)
    (h0a : s0.armed = 0) (h0f : s0.arm_flags = 0) (inps : List Inputs) :
    ((run pf s0 inps).arm_channel_previous = 1
      ∨ ((run pf s0 inps).arm_channel_previous = 0
          ∧ ∃ x, x ∈ inps ∧ x.Channels CHANNEL_ARM ≤ 0))
    ∧ ((∀ x, x ∈ inps → x.Channels CHANNEL_ARM > 0) →
        (run pf s0 inps).arm_channel_previous = 1
        ∧ (run pf s0 inps).armed = 0 ∧ (run pf s0 inps).arm_flags = 0) := by
  induction inps using List.reverseRecOn with
  | nil => exact ⟨Or.inl h0p, fun _ => ⟨h0p, h0a, h0f⟩⟩
  | append_singleton xs x ih =>
    obtain ⟨ih1, ih2⟩ := ih
    rw [run_snoc]
    obtain ⟨hd, hnd⟩ := arm_tick pf x (run pf s0 xs)
    by_cases hp : (run pf s0 xs).phase = DATA
    · obtain ⟨d1, d2, d3, -⟩ := hd hp
      rw [d1, d2, d3]
      by_cases hv : x.Channels CHANNEL_ARM > 0
      · refine ⟨?_, fun hall => ?_⟩
        · left
          simp only [check_arming, hv, if_true]
          split_ifs <;> simp_all
        · obtain ⟨k1, k2, k3⟩ := ih2 (fun y hy => hall y (List.mem_append_left _ hy))
          simp [check_arming, hv, k1, k2, k3]
      · refine ⟨?_, fun hall => ?_⟩
        · right
          refine ⟨?_, x, List.mem_append_right _ (List.mem_singleton_self x), by omega⟩
          simp only [check_arming, hv, if_false]
          split_ifs <;> simp_all
        · exact absurd (hall x (List.mem_append_right _ (List.mem_singleton_self x))) hv
    · obtain ⟨d1, d2, d3⟩ := hnd hp
      rw [d1, d2, d3]
      refine ⟨?_, fun hall => ih2 (fun y hy => hall y (List.mem_append_left _ hy))⟩
      rcases ih1 with h | ⟨h, y, hy, hy0⟩
      · exact Or.inl h
      · exact Or.inr ⟨h, y, List.mem_append_left _ hy, hy0⟩

theorem check_arming_flags (v : Int) (s : State) :
    (check_arming v s).arm_flags =
      if v > 0 then (if 1 ≠ s.arm_channel_previous then s.arm_flags ^^^ 0x40 else s.arm_flags)
      else (if 0 ≠ s.arm_channel_previous then s.arm_flags ^^^ 0x80 else s.arm_flags) := by
  by_cases hv : v > 0
  · simp only [check_arming, hv, if_true]
    split_ifs with h1 h2
    · rfl
    · exact absurd (by decide) h2
    · rfl
  · simp only [check_arming, hv, if_false]
    split_ifs with h1 h2
    · exact absurd rfl h2
    · rfl
    · rfl

/-- Program-wide: `arm_flags` stays in `{0x00, 0x40, 0x80, 0xC0}` under `initialize()` and
ticks. -/
theorem arm_flags_exec (pf : Platform) (emulator : Bool) :
    ∀ (ops : List Op) (s : State),
      (s.arm_flags = 0 ∨ s.arm_flags = 0x40 ∨ s.arm_flags = 0x80 ∨ s.arm_flags = 0xC0) →
      ((exec pf emulator s ops).arm_flags = 0 ∨ (exec pf emulator s ops).arm_flags = 0x40
        ∨ (exec pf emulator s ops).arm_flags = 0x80
        ∨ (exec pf emulator s ops).arm_flags = 0xC0) := by
  intro ops
  induction ops with
  | nil => intro s h; exact h
  | cons op ops ih =>
    intro s h
    show ((exec pf emulator (step pf emulator s op) ops).arm_flags = 0 ∨ _)
    apply ih
    cases op with
    | init ini =>
      obtain ⟨-, -, -, -, -, i6, -⟩ := initialize_state pf emulator ini s
      exact Or.inl i6
    | tick inp => exact arm_flags_set pf s h [inp]

/-- C20: from the state left by `initialize()`. If the arm channel is positive at
`initialize()` and at every tick, `armed` and `arm_flags` stay 0 and a further such Data
tick writes 0x00 to `packet[6]`. If a tick changes the ARM bit (0x40) of `arm_flags`, the
channel is positive at that tick and was non-positive at an earlier one.
After `initialize()` and any ticks `arm_flags` is one of 0x00, 0x40, 0x80, 0xC0, and in every
state reached from program start by `initialize()` calls and ticks it has no bit outside
0xC0. -/
theorem no_arming_without_edge (pf : Platform) (emulator : Bool) (ini : InitInputs)
    (pre : State) (inps : List Inputs) (inp : Inputs) :
    (ini.Channels CHANNEL_ARM > 0 → (∀ x, x ∈ inps → x.Channels CHANNEL_ARM > 0) →
      (run pf (initialize_e015 pf emulator ini pre) inps).armed = 0
      ∧ (run pf (initialize_e015 pf emulator ini pre) inps).arm_flags = 0
      ∧ (inp.Channels CHANNEL_ARM > 0 →
          (run pf (initialize_e015 pf emulator ini pre) inps).phase = DATA →
          (e015_callback pf inp (run pf (initialize_e015 pf emulator ini pre) inps)).packet 6
            = 0x00))
    ∧ (ini.Channels CHANNEL_ARM > 0 →
      (e015_callback pf inp (run pf (initialize_e015 pf emulator ini pre) inps)).arm_flags
          &&& FLAG_ARM
        ≠ (run pf (initialize_e015 pf emulator ini pre) inps).arm_flags &&& FLAG_ARM →
      inp.Channels CHANNEL_ARM > 0 ∧ ∃ x, x ∈ inps ∧ x.Channels CHANNEL_ARM ≤ 0)
    ∧ ((run pf (initialize_e015 pf emulator ini pre) inps).arm_flags = 0
        ∨ (run pf (initialize_e015 pf emulator ini pre) inps).arm_flags = 0x40
        ∨ (run pf (initialize_e015 pf emulator ini pre) inps).arm_flags = 0x80
        ∨ (run pf (initialize_e015 pf emulator ini pre) inps).arm_flags = 0xC0)
    ∧ (run pf (initialize_e015 pf emulator ini pre) inps).arm_flags &&& (0xff ^^^ 0xC0) = 0
    ∧ (∀ ops : List Op, (exec pf emulator State.start ops).arm_flags &&& (0xff ^^^ 0xC0) = 0) := by
  obtain ⟨-, -, -, -, i5, i6, i7, -⟩ := initialize_state pf emulator ini pre
  have hset := arm_flags_set pf (initialize_e015 pf emulator ini pre) (Or.inl i6) inps
  refine ⟨fun hini hall => ?_, fun hini htog => ?_, hset, ?_, fun ops => ?_⟩
  · rw [if_pos hini] at i7
    obtain ⟨-, k2⟩ := arm_run_inv pf _ i7 i5 i6 inps
    obtain ⟨k3, k4, k5⟩ := k2 hall
    refine ⟨k4, k5, fun hv hd => ?_⟩
    rw [((arm_tick pf inp _).1 hd).2.2.2]
    simp [check_arming, hv, k3, k5]
  · rw [if_pos hini] at i7
    obtain ⟨k1, -⟩ := arm_run_inv pf _ i7 i5 i6 inps
    obtain ⟨hd, hnd⟩ := arm_tick pf inp (run pf (initialize_e015 pf emulator ini pre) inps)
    by_cases hp : (run pf (initialize_e015 pf emulator ini pre) inps).phase = DATA
    · rw [(hd hp).2.1, check_arming_flags] at htog
      by_cases hv : inp.Channels CHANNEL_ARM > 0
      · refine ⟨hv, ?_⟩
        rcases k1 with h1 | ⟨-, hex⟩
        · rw [if_pos hv, h1, if_neg (by decide)] at htog
          exact absurd rfl htog
        · exact hex
      · exfalso
        rw [if_neg hv] at htog
        split_ifs at htog with h0
        · rcases hset with h | h | h | h <;> rw [h] at htog <;> exact htog (by decide)
        · exact htog rfl
    · rw [(hnd hp).2.1] at htog
      exact absurd rfl htog
  · rcases hset with h | h | h | h <;> rw [h] <;> decide
  · rcases arm_flags_exec pf emulator ops State.start (Or.inl rfl) with h | h | h | h <;>
      rw [h] <;> decide

/-- C20 in the emulator build with the arm channel at 1 at `initialize()` and at
every tick: seven ticks (four Bind ticks, the switch to Data, two Data ticks that run
`check_arming`) leave the phase Data with `armed` and `arm_flags` 0, and the next Data tick
writes 0x00 to `packet[6]`. -/
theorem no_arming_without_edge_witness :
    (run deviation (initialize_e015 deviation true InitInputs.armHigh State.start)
        (List.replicate 7 Inputs.armHigh)).phase = DATA
    ∧ (run deviation (initialize_e015 deviation true InitInputs.armHigh State.start)
        (List.replicate 7 Inputs.armHigh)).armed = 0
    ∧ (run deviation (initialize_e015 deviation true InitInputs.armHigh State.start)
        (List.replicate 7 Inputs.armHigh)).arm_flags = 0
    ∧ (e015_callback deviation Inputs.armHigh
        (run deviation (initialize_e015 deviation true InitInputs.armHigh State.start)
          (List.replicate 7 Inputs.armHigh))).packet 6 = 0x00 := by
  obtain ⟨i1, i2, -⟩ := initialize_state deviation true InitInputs.armHigh State.start
  have i3 : (initialize_e015 deviation true InitInputs.armHigh State.start).bind_counter = 4 := i2
  obtain ⟨d1, -⟩ := run_past_bind deviation (List.replicate 7 Inputs.armHigh) _ i1
    (by rw [i3]; decide) (by rw [i3]; decide)
  have w := (no_arming_without_edge deviation true InitInputs.armHigh State.start
    (List.replicate 7 Inputs.armHigh) Inputs.armHigh).1 (by decide)
    (fun x hx => by rw [List.eq_of_mem_replicate hx]; decide)
  exact ⟨d1, w.1, w.2.1, w.2.2 (by decide) d1⟩

/-! ## Buffer safety of `HS6200_WritePayload` (C19) -/

theorem rd_ok (size : Nat) (a : Nat → Nat) (i : Nat) (h : i < size) :
    rd size a i = some (a i) := by
  simp only [rd, if_pos h]

theorem wr_ok (size : Nat) (a : Nat → Nat) (i v : Nat) (h : i < size) :
    wr size a i v = some (upd a i v) := by
  simp only [wr, if_pos h]

theorem scramble_get (i : Nat) (h : i < 15) :
    hs6200_scramble.get? i = some (hs6200_scramble.getD i 0) := by
  interval_cases i <;> rfl

theorem addr_checked_ok (a : Nat → Nat) :
    ∀ (i : Nat) (st : (Nat → Nat) × Nat), i ≤ 5 → st.2 + i ≤ 32 →
      WritePayload_addr_checked a i st = some (WritePayload_addr a i st) := by
  intro i
  induction i with
  | zero => intro st _ _; rfl
  | succ i ih =>
    intro st h1 h2
    simp only [WritePayload_addr_checked, WritePayload_addr, Option.bind_eq_bind]
    rw [rd_ok _ _ _ (by simp only [tx_addr_size]; omega), Option.some_bind,
      wr_ok _ _ _ _ (by simp only [payload_size]; omega), Option.some_bind]
    exact ih _ (by omega) (by simp only; omega)

theorem scramble_checked_ok (msize : Nat) (msg : Nat → Nat) (len : Nat)
    (hlen : len ≤ 15) (hm : len ≤ msize) :
    ∀ (fuel i : Nat) (st : (Nat → Nat) × Nat), st.2 + (len - i) ≤ 32 →
      WritePayload_scramble_checked msize msg len fuel i st
        = some (WritePayload_scramble msg len fuel i st) := by
  intro fuel
  induction fuel with
  | zero => intro i st _; rfl
  | succ f ih =>
    intro i st h
    simp only [WritePayload_scramble_checked, WritePayload_scramble]
    split_ifs with hi
    · simp only [Option.bind_eq_bind]
      rw [rd_ok _ _ _ (by omega), Option.some_bind, scramble_get _ (by omega), Option.some_bind,
        rd_ok _ _ _ (by omega), Option.some_bind, scramble_get _ (by omega), Option.some_bind,
        wr_ok _ _ _ _ (by simp only [payload_size]; omega), Option.some_bind]
      exact ih _ _ (by simp only; omega)
    · rfl

theorem header_checked_ok (a : Nat → Nat) (L pid : Nat) (stack : Nat → Nat) (len : Nat)
    (hL : L ≤ 5) :
    WritePayload_header_checked a L pid stack len
      = some (WritePayload_header a L pid stack len) := by
  simp only [WritePayload_header_checked, WritePayload_header, Option.bind_eq_bind]
  rw [addr_checked_ok a L _ hL (by simp only; omega), Option.some_bind,
    WritePayload_addr_spec]
  simp only
  rw [rd_ok _ _ _ (by decide), Option.some_bind,
    wr_ok _ _ _ _ (by simp only [payload_size]; omega), Option.some_bind, Option.some_bind,
    wr_ok _ _ _ _ (by simp only [payload_size]; omega), Option.some_bind,
    wr_ok _ _ _ _ (by simp only [payload_size]; omega), Option.some_bind,
    wr_ok _ _ _ _ (by simp only [payload_size]; omega), Option.some_bind]

theorem body_checked_ok (msize : Nat) (msg : Nat → Nat) (len : Nat) (st : (Nat → Nat) × Nat)
    (hlen : len ≤ 15) (hm : len ≤ msize) (hpos : st.2 + len < 32) :
    WritePayload_body_checked msize msg len st = some (WritePayload_body msg len st) := by
  simp only [WritePayload_body_checked, WritePayload_body]
  split_ifs with h
  · obtain ⟨h1, -⟩ := WritePayload_scramble_spec msg len len 1
      (upd st.1 st.2 ((st.1 st.2 ||| ((msg 0 ^^^ hs6200_scramble.getD 0 0) >>> 1)) % 256),
        st.2 + 1)
    simp only at h1
    simp only [Option.bind_eq_bind]
    rw [rd_ok _ _ _ (by omega), Option.some_bind, scramble_get _ (by omega), Option.some_bind,
      rd_ok _ _ _ (by simp only [payload_size]; omega), Option.some_bind,
      wr_ok _ _ _ _ (by simp only [payload_size]; omega), Option.some_bind,
      scramble_checked_ok msize msg len hlen hm _ _ _ (by simp only; omega), Option.some_bind,
      rd_ok _ _ _ (by omega), Option.some_bind, scramble_get _ (by omega), Option.some_bind,
      wr_ok _ _ _ _ (by rw [h1]; simp only [payload_size]; omega), Option.some_bind]
  · rfl

theorem calc_crc_loop_checked_ok (p : Nat → Nat) (off len : Nat) (h : off + len ≤ 32) :
    ∀ (fuel pos crc : Nat),
      calc_crc_loop_checked (fun i => rd payload_size p (off + i)) len fuel pos crc
        = some (calc_crc_loop (fun i => p (off + i)) len fuel pos crc) := by
  intro fuel
  induction fuel with
  | zero => intro pos crc; rfl
  | succ f ih =>
    intro pos crc
    simp only [calc_crc_loop_checked, calc_crc_loop]
    split_ifs with hi
    · simp only [Option.bind_eq_bind]
      rw [rd_ok _ _ _ (by simp only [payload_size]; omega), Option.some_bind]
      exact ih _ _
    · rfl

theorem calc_crc_checked_ok (crc_init : Nat) (p : Nat → Nat) (off len : Nat)
    (h : off + len < 32) :
    hs6200_calc_crc_checked crc_init (fun i => rd payload_size p (off + i)) len
      = some (hs6200_calc_crc crc_init (fun i => p (off + i)) len) := by
  simp only [hs6200_calc_crc_checked, hs6200_calc_crc, Option.bind_eq_bind]
  rw [calc_crc_loop_checked_ok p off len (by omega), Option.some_bind,
    calc_crc_loop_eq _ len len 0 _ (by omega)]
  simp only
  split_ifs with hl
  · rw [rd_ok _ _ _ (by simp only [payload_size]; omega), Option.some_bind]
  · rfl

theorem crc_checked_ok (L crc crc_init len : Nat) (st : (Nat → Nat) × Nat)
    (h1 : L + len + 4 < 32) (h2 : st.2 + 2 < 32) :
    WritePayload_crc_checked L crc crc_init len st
      = some (WritePayload_crc L crc crc_init len st) := by
  simp only [WritePayload_crc_checked, WritePayload_crc]
  split_ifs with h
  · simp only [Option.bind_eq_bind]
    rw [calc_crc_checked_ok crc_init st.1 (L + 2) (len + 2) (by omega), Option.some_bind,
      rd_ok _ _ _ (by simp only [payload_size]; omega), Option.some_bind,
      wr_ok _ _ _ _ (by simp only [payload_size]; omega), Option.some_bind,
      wr_ok _ _ _ _ (by simp only [payload_size]; omega), Option.some_bind,
      wr_ok _ _ _ _ (by simp only [payload_size]; omega), Option.some_bind]
  · rfl

/-- C19: for every address length up to 5 (so for 0, 4 and 5), every `len` and either
setting of the CRC flag, `HS6200_WritePayload` with every array access checked runs to its
end and builds what the unchecked function builds: every index into `payload[32]` is below
32 (the reads of `hs6200_calc_crc` included), every index into `hs6200_tx_addr` below 5,
every index into `hs6200_scramble` below 15 and every index into `msg` below any `msize`
with `min(len, 15) ≤ msize`; the length submitted is at most 26. -/
theorem buffer_safety (a : Nat → Nat) (L pid crc crc_init : Nat) (stack msg : Nat → Nat)
    (len msize : Nat) (hL : L ≤ 5) (hm : min len 15 ≤ msize) :
    HS6200_WritePayload_checked a L pid crc crc_init stack msize msg len
      = some (HS6200_WritePayload_buf a L pid crc crc_init stack msg len)
    ∧ (HS6200_WritePayload_buf a L pid crc crc_init stack msg len).2 ≤ 26 := by
  constructor
  · simp only [HS6200_WritePayload_checked, HS6200_WritePayload_buf, clamp15,
      Option.bind_eq_bind]
    obtain ⟨h1, -⟩ := header_spec a L pid stack (min len 15) (by omega)
    obtain ⟨b1, -⟩ := body_spec msg (min len 15) (WritePayload_header a L pid stack (min len 15))
    rw [header_checked_ok a L pid stack _ hL, Option.some_bind,
      body_checked_ok msize msg _ _ (by omega) hm (by rw [h1]; omega), Option.some_bind,
      crc_checked_ok L crc crc_init _ _ (by omega) (by rw [b1, h1]; omega)]
  · rw [(buf_header a L pid crc crc_init stack msg len).1]
    split_ifs <;> omega

/-- C19 at the bind address (length 5), CRC enabled, `len = 255` and a 15-byte `msg`:
the checked run succeeds and submits at most 26 bytes. -/
theorem buffer_safety_witness :
    HS6200_WritePayload_checked bind_address 5 0 1 0xffff (fun _ => 0) 15 (fun _ => 0x5a) 255
      = some (HS6200_WritePayload_buf bind_address 5 0 1 0xffff (fun _ => 0) (fun _ => 0x5a) 255)
    ∧ (HS6200_WritePayload_buf bind_address 5 0 1 0xffff (fun _ => 0) (fun _ => 0x5a) 255).2
        ≤ 26 :=
  buffer_safety bind_address 5 0 1 0xffff (fun _ => 0) (fun _ => 0x5a) 255 15
    (by decide) (by decide)

end E015
